import Mathlib

/-!
# The sweep session of the recycler

A shallow embedding of `lib/Common/Memory/RecyclerSweep.cpp`.

Build configuration embedded: `ENABLE_PARTIAL_GC`, `ENABLE_CONCURRENT_GC`,
`RECYCLER_WRITE_BARRIER` and `RECYCLER_VISITED_HOST` are on, and `DBG` is on, so
that every `Assert` of the source is a check: an operation whose source contains
assertions returns `Except Nat _`, where `.error n` means that the `Assert` on
line `n` of `RecyclerSweep.cpp` failed. The one exception is the `Assert(false)`
on line 211, which the source follows with recovery code: it is recorded in the
trace and the recovery code runs.

* `size_t` is 64 bits wide (the back end in `src` is arm64, `MachPtr = 8`): a
  `size_t` value is a `Nat`, and every `size_t` addition is taken modulo `2 ^ 64`.
* A `double` is the rational it stands for, and every floating point operation
  (conversion, sum, difference, product, quotient) rounds its exact result to the
  nearest binary64 value, ties to even, one operation at a time (`F64.round`).
* A pointer is an `Option Ptr`; `none` is `nullptr`.
* An intrusive heap block list is the `List` of the addresses of its blocks,
  head first; the empty list is `nullptr`.
* Calls into collaborators whose bodies are outside this file are appended to
  `Recycler.trace`, in call order.
-/

namespace Memory

/-- Address of a heap object. -/
abbrev Ptr := Nat

/-- An intrusive, null terminated list of heap blocks: the addresses of its blocks, head first. -/
abbrev HeapBlockList := List Ptr

/-- Number of values of a 64 bit `size_t`. -/
def SizeTModulus : Nat := 2 ^ 64

/-- Addition on `size_t`. -/
def sizeAdd (a b : Nat) : Nat := (a + b) % SizeTModulus

/-- The source's `#define KILOBYTES * 1024`, applied to `n`. -/
def KILOBYTES (n : Nat) : Nat := n * 1024

/-- The source's `#define MEGABYTES * 1024 KILOBYTES`, applied to `n`. -/
def MEGABYTES (n : Nat) : Nat := KILOBYTES (n * 1024)

/-- The constant `RecyclerSweep::MaxPartialCollectRescanRootBytes = 5 MEGABYTES`. -/
def MaxPartialCollectRescanRootBytes : Nat := MEGABYTES 5

/-- The constant `MinPartialCollectRescanRootBytes = 128 KILOBYTES`. -/
def MinPartialCollectRescanRootBytes : Nat := KILOBYTES 128

/-- The constant `MaxUnusedPartialCollectFreeBytes = 16 MEGABYTES`. -/
def MaxUnusedPartialCollectFreeBytes : Nat := MEGABYTES 16

/-- Collaborator calls made by the sweep session whose bodies are outside `RecyclerSweep.cpp`. -/
inductive Collaborator where
  | PreSweepCallback
  | TransferDisposedObjects
  | FinishPartialCollect (sweep : Option Ptr)
  | BackgroundFinishPartialCollect (sweep : Option Ptr)
  | ResetHeuristicCounters
  | ResetPartialHeuristicCounters
  | HeapBlockMapCleanup (arg : Bool)
  | SweepPartialReusePages
  | SweepPendingObjects
  | SweepSmallNonFinalizable (sweepIsBackground : Bool)
  | FinishConcurrentSweep
  | DeleteHeapBlockList (list : List Nat)
  | DeleteEmptyHeapBlockList (list : List Nat)
  | ResetWriteWatch (largeBlockPageAllocator : Bool)
  | AssertFalse (line : Nat)
  | MergeNewHeapBlock (medium : Bool) (block : Ptr)
  deriving DecidableEq, Repr

/-- The fields of `HeapInfo` (`recycler->autoHeap`) that the sweep session reads or writes. -/
structure HeapInfo where
  uncollectedAllocBytes : Nat
  lastUncollectedAllocBytes : Nat
  unusedPartialCollectFreeBytes : Nat
  newLeafHeapBlockList : HeapBlockList
  newNormalHeapBlockList : HeapBlockList
  newNormalWithBarrierHeapBlockList : HeapBlockList
  newFinalizableWithBarrierHeapBlockList : HeapBlockList
  newFinalizableHeapBlockList : HeapBlockList
  newRecyclerVisitedHostHeapBlockList : HeapBlockList
  newMediumLeafHeapBlockList : HeapBlockList
  newMediumNormalHeapBlockList : HeapBlockList
  newMediumNormalWithBarrierHeapBlockList : HeapBlockList
  newMediumFinalizableWithBarrierHeapBlockList : HeapBlockList
  newMediumFinalizableHeapBlockList : HeapBlockList
  newMediumRecyclerVisitedHostHeapBlockList : HeapBlockList
  deriving DecidableEq, Repr

/-- The fields of `Recycler` that the sweep session reads or writes. `isSweeping` is the value
of `IsSweeping()`, `isMemProtectMode` that of `IsMemProtectMode()`, and
`clientTrackedObjectListEmpty` that of `clientTrackedObjectList.Empty()`. -/
structure Recycler where
  autoHeap : HeapInfo
  recyclerSweep : Option Ptr
  isSweeping : Bool
  isMemProtectMode : Bool
  enablePartialCollect : Bool
  inPartialCollectMode : Bool
  partialUncollectedAllocBytes : Nat
  uncollectedNewPageCountPartialCollect : Nat
  partialConcurrentNextCollection : Bool
  hasPendingTransferDisposedObjects : Bool
  inDispose : Bool
  inResolveExternalWeakReferences : Bool
  hasDisposableObject : Bool
  clientTrackedObjectListEmpty : Bool
  trace : List Collaborator
  deriving DecidableEq, Repr

/-- One entry of `RecyclerSweep::Data<TBlockType>::bucketData`. -/
structure BucketData where
  pendingSweepList : HeapBlockList
  pendingEmptyBlockList : HeapBlockList
  deriving DecidableEq, Repr

/-- The per block kind record `RecyclerSweep::Data<TBlockType>`; `bucketData i` is
`bucketData[i]`. -/
structure Data where
  pendingMergeNewHeapBlockList : HeapBlockList
  bucketData : Nat → BucketData

/-- The sweep session, `class RecyclerSweep`. The field `isPartial` is the debug only member
that the source names with a Lean keyword. -/
structure RecyclerSweep where
  recycler : Option Ptr
  leafData : Data
  normalData : Data
  finalizableData : Data
  withBarrierData : Data
  finalizableWithBarrierData : Data
  recyclerVisitedHostData : Data
  mediumLeafData : Data
  mediumNormalData : Data
  mediumFinalizableData : Data
  mediumWithBarrierData : Data
  mediumFinalizableWithBarrierData : Data
  mediumRecyclerVisitedHostData : Data
  background : Bool
  forceForeground : Bool
  hasPendingSweepSmallHeapBlocks : Bool
  hasPendingEmptyBlocks : Bool
  inPartialCollect : Bool
  adjustPartialHeuristics : Bool
  isPartial : Bool
  rescanRootBytes : Nat
  reuseHeapBlockCount : Nat
  reuseByteCount : Nat
  lastPartialUncollectedAllocBytes : Nat
  nextPartialUncollectedAllocBytes : Nat
  partialCollectSmallHeapBlockReuseMinFreeBytes : Nat
  partialUnusedFreeByteCount : Nat

/-- A `Data` record of zero bytes: every list is `nullptr`. -/
def Data.zero : Data :=
  { pendingMergeNewHeapBlockList := []
    bucketData := fun _ => { pendingSweepList := [], pendingEmptyBlockList := [] } }

/-- The session after `memset(this, 0, sizeof(RecyclerSweep))`. -/
def RecyclerSweep.zero : RecyclerSweep :=
  { recycler := none
    leafData := Data.zero
    normalData := Data.zero
    finalizableData := Data.zero
    withBarrierData := Data.zero
    finalizableWithBarrierData := Data.zero
    recyclerVisitedHostData := Data.zero
    mediumLeafData := Data.zero
    mediumNormalData := Data.zero
    mediumFinalizableData := Data.zero
    mediumWithBarrierData := Data.zero
    mediumFinalizableWithBarrierData := Data.zero
    mediumRecyclerVisitedHostData := Data.zero
    background := false
    forceForeground := false
    hasPendingSweepSmallHeapBlocks := false
    hasPendingEmptyBlocks := false
    inPartialCollect := false
    adjustPartialHeuristics := false
    isPartial := false
    rescanRootBytes := 0
    reuseHeapBlockCount := 0
    reuseByteCount := 0
    lastPartialUncollectedAllocBytes := 0
    nextPartialUncollectedAllocBytes := 0
    partialCollectSmallHeapBlockReuseMinFreeBytes := 0
    partialUnusedFreeByteCount := 0 }

/-- Appends one collaborator call to the trace. -/
def Recycler.call (r : Recycler) (c : Collaborator) : Recycler :=
  { r with trace := r.trace ++ [c] }

/-- Modelled from the spec: `Recycler::FinishPartialCollect` is not in `RecyclerSweep.cpp`.
The spec has the heuristic state "reset to zero whenever partial mode is exited", and the two
assertions that follow the call in `BeginSweep` (lines 147 and 149) name its effect on the
fields modelled here: partial mode is off and `partialUncollectedAllocBytes` is zero. -/
def Recycler.FinishPartialCollect (r : Recycler) (sweep : Option Ptr) : Recycler :=
  { r with
    inPartialCollectMode := false
    partialUncollectedAllocBytes := 0
    trace := r.trace ++ [Collaborator.FinishPartialCollect sweep] }

/-- Modelled from the spec: `Recycler::ResetHeuristicCounters` is not in `RecyclerSweep.cpp`.
The comment at its call site ("clear out uncollectedAllocBytes here") and the spec's
"provisionally zeroed at the start of sweep" give its effect: `uncollectedAllocBytes` is zero. -/
def Recycler.ResetHeuristicCounters (r : Recycler) : Recycler :=
  { r with
    autoHeap := { r.autoHeap with uncollectedAllocBytes := 0 }
    trace := r.trace ++ [Collaborator.ResetHeuristicCounters] }

/-- Modelled from the spec: `Recycler::ResetPartialHeuristicCounters` is not in
`RecyclerSweep.cpp`. The comment at its call site says that it leaves `uncollectedAllocBytes`
alone; the counters it resets are not among the fields modelled here, so the call is only
recorded. -/
def Recycler.ResetPartialHeuristicCounters (r : Recycler) : Recycler :=
  r.call Collaborator.ResetPartialHeuristicCounters

/-- Modelled from the spec: `HeapInfo::TransferDisposedObjects` is not in `RecyclerSweep.cpp`.
The spec has Begin flush the disposed objects into the reusable catalog; on the fields
modelled here that empties the pending transfer. -/
def Recycler.TransferDisposedObjects (r : Recycler) : Recycler :=
  { r with
    hasPendingTransferDisposedObjects := false
    trace := r.trace ++ [Collaborator.TransferDisposedObjects] }

/-- `RecyclerSweep::FlushPendingTransferDisposedObjects` (lines 324 to 335). -/
def FlushPendingTransferDisposedObjects (r : Recycler) : Except Nat Recycler :=
  if r.hasPendingTransferDisposedObjects then
    if !(!r.inDispose || r.inResolveExternalWeakReferences) then .error 331
    else if r.hasDisposableObject then .error 332
    else .ok r.TransferDisposedObjects
  else .ok r

/-- `RecyclerSweep::InPartialCollectMode` (lines 534 to 538). -/
def InPartialCollectMode (r : Recycler) : Bool := r.inPartialCollectMode

/-- `RecyclerSweep::InPartialCollect` (lines 540 to 544). -/
def InPartialCollect (s : RecyclerSweep) : Bool := s.inPartialCollect

/-- `RecyclerSweep::DoPartialCollectMode` (lines 632 to 648). -/
def DoPartialCollectMode (r : Recycler) (s : RecyclerSweep) : Bool :=
  if !r.enablePartialCollect then false
  else if r.autoHeap.unusedPartialCollectFreeBytes > MaxUnusedPartialCollectFreeBytes then false
  else decide (s.rescanRootBytes ≤ MaxPartialCollectRescanRootBytes)

/-- `RecyclerSweep::StartPartialCollectMode` (lines 546 to 587). -/
def StartPartialCollectMode (r : Recycler) (s : RecyclerSweep) :
    Except Nat (Recycler × RecyclerSweep) :=
  let s1 := { s with inPartialCollect := r.inPartialCollectMode }
  let r1 := { r with inPartialCollectMode := true }
  if !(r1.partialUncollectedAllocBytes == 0 || s1.inPartialCollect) then .error 558
  else
    let s2 := { s1 with lastPartialUncollectedAllocBytes := r1.partialUncollectedAllocBytes }
    let currentUncollectedAllocBytes := r1.autoHeap.uncollectedAllocBytes
    if currentUncollectedAllocBytes < s2.lastPartialUncollectedAllocBytes then .error 562
    else
      let currentUncollectedAllocBytes :=
        if !s2.inPartialCollect then
          sizeAdd currentUncollectedAllocBytes r1.autoHeap.lastUncollectedAllocBytes
        else currentUncollectedAllocBytes
      .ok ({ r1 with partialUncollectedAllocBytes := currentUncollectedAllocBytes },
           { s2 with nextPartialUncollectedAllocBytes := currentUncollectedAllocBytes })

/-- The block of `BeginSweep` under `ENABLE_CONCURRENT_GC` (lines 64 to 113), session side:
the twelve new heap block lists of the heap are stored in the session. -/
def takeNewHeapBlockLists (h : HeapInfo) (s : RecyclerSweep) : RecyclerSweep :=
  { s with
    leafData := { s.leafData with pendingMergeNewHeapBlockList := h.newLeafHeapBlockList }
    normalData := { s.normalData with pendingMergeNewHeapBlockList := h.newNormalHeapBlockList }
    withBarrierData :=
      { s.withBarrierData with
        pendingMergeNewHeapBlockList := h.newNormalWithBarrierHeapBlockList }
    finalizableWithBarrierData :=
      { s.finalizableWithBarrierData with
        pendingMergeNewHeapBlockList := h.newFinalizableWithBarrierHeapBlockList }
    finalizableData :=
      { s.finalizableData with pendingMergeNewHeapBlockList := h.newFinalizableHeapBlockList }
    recyclerVisitedHostData :=
      { s.recyclerVisitedHostData with
        pendingMergeNewHeapBlockList := h.newRecyclerVisitedHostHeapBlockList }
    mediumLeafData :=
      { s.mediumLeafData with pendingMergeNewHeapBlockList := h.newMediumLeafHeapBlockList }
    mediumNormalData :=
      { s.mediumNormalData with pendingMergeNewHeapBlockList := h.newMediumNormalHeapBlockList }
    mediumWithBarrierData :=
      { s.mediumWithBarrierData with
        pendingMergeNewHeapBlockList := h.newMediumNormalWithBarrierHeapBlockList }
    mediumFinalizableWithBarrierData :=
      { s.mediumFinalizableWithBarrierData with
        pendingMergeNewHeapBlockList := h.newMediumFinalizableWithBarrierHeapBlockList }
    mediumFinalizableData :=
      { s.mediumFinalizableData with
        pendingMergeNewHeapBlockList := h.newMediumFinalizableHeapBlockList }
    mediumRecyclerVisitedHostData :=
      { s.mediumRecyclerVisitedHostData with
        pendingMergeNewHeapBlockList := h.newMediumRecyclerVisitedHostHeapBlockList } }

/-- The block of `BeginSweep` under `ENABLE_CONCURRENT_GC` (lines 64 to 113), heap side:
the twelve new heap block lists of the heap are set to `nullptr`. -/
def clearNewHeapBlockLists (h : HeapInfo) : HeapInfo :=
  { h with
    newLeafHeapBlockList := []
    newNormalHeapBlockList := []
    newFinalizableHeapBlockList := []
    newRecyclerVisitedHostHeapBlockList := []
    newNormalWithBarrierHeapBlockList := []
    newFinalizableWithBarrierHeapBlockList := []
    newMediumLeafHeapBlockList := []
    newMediumNormalHeapBlockList := []
    newMediumFinalizableHeapBlockList := []
    newMediumRecyclerVisitedHostHeapBlockList := []
    newMediumNormalWithBarrierHeapBlockList := []
    newMediumFinalizableWithBarrierHeapBlockList := [] }

/-- The branch of `BeginSweep` on `DoPartialCollectMode` (lines 130 to 150): partial collect
mode is armed, or what is left of it is torn down. -/
def beginSweepArm (r : Recycler) (s : RecyclerSweep) (adjustPartialHeuristics : Bool) :
    Except Nat (Recycler × RecyclerSweep) :=
  if DoPartialCollectMode r s then
    StartPartialCollectMode r
      { s with isPartial := true, adjustPartialHeuristics := adjustPartialHeuristics }
  else
    let r1 := if r.inPartialCollectMode then r.FinishPartialCollect none else r
    if r1.partialUncollectedAllocBytes != 0 then .error 147
    else if r1.inPartialCollectMode then .error 149
    else .ok (r1, s)

/-- The branch of `BeginSweep` on `inPartialCollect` (lines 152 to 168): the heuristic counters
are reset. The assertion on line 163 repeats the branch condition. -/
def beginSweepReset (p : Recycler × RecyclerSweep) : Recycler × RecyclerSweep :=
  if p.2.inPartialCollect then (p.1.ResetHeuristicCounters, p.2)
  else (p.1.ResetPartialHeuristicCounters, p.2)

/-- The part of `BeginSweep` under `ENABLE_PARTIAL_GC` (lines 115 to 168). -/
def beginSweepPartial (r : Recycler) (s : RecyclerSweep) (rescanRootBytes : Nat)
    (adjustPartialHeuristics : Bool) : Except Nat (Recycler × RecyclerSweep) :=
  if !r.clientTrackedObjectListEmpty then .error 116
  else if !(r.partialUncollectedAllocBytes == 0 || r.inPartialCollectMode) then .error 119
  else if r.autoHeap.uncollectedAllocBytes < r.partialUncollectedAllocBytes then .error 120
  else
    match beginSweepArm r { s with rescanRootBytes := rescanRootBytes } adjustPartialHeuristics with
    | .error n => .error n
    | .ok p => .ok (beginSweepReset p)

/-- `RecyclerSweep::BeginSweep` (lines 32 to 169). `this` is the address of the session and
`recyclerPtr` the address of the collector `r`; the session's previous contents are
overwritten by the `memset`, so they are not an input. -/
def BeginSweep (this recyclerPtr : Ptr) (r : Recycler) (rescanRootBytes : Nat)
    (adjustPartialHeuristics : Bool) : Except Nat (Recycler × RecyclerSweep) :=
  let r0 := r.call Collaborator.PreSweepCallback
  if r0.isSweeping then .error 47
  else if r0.recyclerSweep != none then .error 48
  else
    let s0 := { RecyclerSweep.zero with recycler := some recyclerPtr }
    let r1 := { r0 with recyclerSweep := some this }
    match FlushPendingTransferDisposedObjects r1 with
    | .error n => .error n
    | .ok r2 =>
      let s1 := takeNewHeapBlockLists r2.autoHeap s0
      let r3 := { r2 with autoHeap := clearNewHeapBlockLists r2.autoHeap }
      beginSweepPartial r3 s1 rescanRootBytes adjustPartialHeuristics

/-- `RecyclerSweep::EndSweep` (lines 255 to 281). The source has no assertion here. -/
def EndSweep (r : Recycler) (s : RecyclerSweep) : Recycler :=
  let r1 :=
    if s.inPartialCollect then
      { r with
        autoHeap :=
          { r.autoHeap with
            uncollectedAllocBytes :=
              sizeAdd r.autoHeap.uncollectedAllocBytes s.nextPartialUncollectedAllocBytes } }
    else r
  let r2 := { r1 with recyclerSweep := none }
  r2.call (Collaborator.HeapBlockMapCleanup (!r2.isMemProtectMode))

/-- The twelve heap block types a session keeps a `Data` record for: the template arguments
of `RecyclerSweep::GetData` and `MergePendingNewHeapBlockList`. -/
inductive BlockType where
  | SmallLeafHeapBlock
  | SmallNormalHeapBlock
  | SmallFinalizableHeapBlock
  | SmallRecyclerVisitedHostHeapBlock
  | SmallNormalWithBarrierHeapBlock
  | SmallFinalizableWithBarrierHeapBlock
  | MediumLeafHeapBlock
  | MediumNormalHeapBlock
  | MediumFinalizableHeapBlock
  | MediumRecyclerVisitedHostHeapBlock
  | MediumNormalWithBarrierHeapBlock
  | MediumFinalizableWithBarrierHeapBlock
  deriving DecidableEq, Repr

/-- The accessor `RecyclerSweep::GetData<TBlockType>()`: the record of the session that belongs
to a block type. -/
def GetData (s : RecyclerSweep) : BlockType → Data
  | .SmallLeafHeapBlock => s.leafData
  | .SmallNormalHeapBlock => s.normalData
  | .SmallFinalizableHeapBlock => s.finalizableData
  | .SmallRecyclerVisitedHostHeapBlock => s.recyclerVisitedHostData
  | .SmallNormalWithBarrierHeapBlock => s.withBarrierData
  | .SmallFinalizableWithBarrierHeapBlock => s.finalizableWithBarrierData
  | .MediumLeafHeapBlock => s.mediumLeafData
  | .MediumNormalHeapBlock => s.mediumNormalData
  | .MediumFinalizableHeapBlock => s.mediumFinalizableData
  | .MediumRecyclerVisitedHostHeapBlock => s.mediumRecyclerVisitedHostData
  | .MediumNormalWithBarrierHeapBlock => s.mediumWithBarrierData
  | .MediumFinalizableWithBarrierHeapBlock => s.mediumFinalizableWithBarrierData

/-- The new heap block list of the heap that `BeginSweep` (lines 68 to 87) stores in the
record of each block type. -/
def HeapInfo.newHeapBlockList (h : HeapInfo) : BlockType → HeapBlockList
  | .SmallLeafHeapBlock => h.newLeafHeapBlockList
  | .SmallNormalHeapBlock => h.newNormalHeapBlockList
  | .SmallFinalizableHeapBlock => h.newFinalizableHeapBlockList
  | .SmallRecyclerVisitedHostHeapBlock => h.newRecyclerVisitedHostHeapBlockList
  | .SmallNormalWithBarrierHeapBlock => h.newNormalWithBarrierHeapBlockList
  | .SmallFinalizableWithBarrierHeapBlock => h.newFinalizableWithBarrierHeapBlockList
  | .MediumLeafHeapBlock => h.newMediumLeafHeapBlockList
  | .MediumNormalHeapBlock => h.newMediumNormalHeapBlockList
  | .MediumFinalizableHeapBlock => h.newMediumFinalizableHeapBlockList
  | .MediumRecyclerVisitedHostHeapBlock => h.newMediumRecyclerVisitedHostHeapBlockList
  | .MediumNormalWithBarrierHeapBlock => h.newMediumNormalWithBarrierHeapBlockList
  | .MediumFinalizableWithBarrierHeapBlock => h.newMediumFinalizableWithBarrierHeapBlockList

/-- The assertions `BeginSweep` makes about the collector it is given, before it looks at the
rescan estimate: lines 47, 48, 331, 332, 116, 119 and 120. -/
def BeginSweepPre (r : Recycler) : Prop :=
  r.isSweeping = false ∧
  r.recyclerSweep = none ∧
  (r.hasPendingTransferDisposedObjects = true →
    (r.inDispose = false ∨ r.inResolveExternalWeakReferences = true) ∧
      r.hasDisposableObject = false) ∧
  r.clientTrackedObjectListEmpty = true ∧
  (r.partialUncollectedAllocBytes = 0 ∨ r.inPartialCollectMode = true) ∧
  r.partialUncollectedAllocBytes ≤ r.autoHeap.uncollectedAllocBytes

instance (r : Recycler) : Decidable (BeginSweepPre r) := by
  unfold BeginSweepPre
  infer_instance

/-- A heap with no blocks and zero counters, used to build concrete collectors. -/
def HeapInfo.empty : HeapInfo :=
  { uncollectedAllocBytes := 0
    lastUncollectedAllocBytes := 0
    unusedPartialCollectFreeBytes := 0
    newLeafHeapBlockList := []
    newNormalHeapBlockList := []
    newNormalWithBarrierHeapBlockList := []
    newFinalizableWithBarrierHeapBlockList := []
    newFinalizableHeapBlockList := []
    newRecyclerVisitedHostHeapBlockList := []
    newMediumLeafHeapBlockList := []
    newMediumNormalHeapBlockList := []
    newMediumNormalWithBarrierHeapBlockList := []
    newMediumFinalizableWithBarrierHeapBlockList := []
    newMediumFinalizableHeapBlockList := []
    newMediumRecyclerVisitedHostHeapBlockList := [] }

/-- An idle collector over a given heap: no session, partial collection enabled, not in partial
collect mode. Used to build concrete collectors. -/
def Recycler.idle (h : HeapInfo) : Recycler :=
  { autoHeap := h
    recyclerSweep := none
    isSweeping := false
    isMemProtectMode := false
    enablePartialCollect := true
    inPartialCollectMode := false
    partialUncollectedAllocBytes := 0
    uncollectedNewPageCountPartialCollect := 0
    partialConcurrentNextCollection := false
    hasPendingTransferDisposedObjects := false
    inDispose := false
    inResolveExternalWeakReferences := false
    hasDisposableObject := false
    clientTrackedObjectListEmpty := true
    trace := [] }

/-- The collector as `BeginSweep` has it on line 115, when no assertion before that line
fails: the callback has run, the session is attached, the disposed objects are flushed and the
new heap block lists are `nullptr`. -/
def beginSweepCollector (this : Ptr) (r : Recycler) : Recycler :=
  let r1 := { r.call Collaborator.PreSweepCallback with recyclerSweep := some this }
  let r2 := if r1.hasPendingTransferDisposedObjects then r1.TransferDisposedObjects else r1
  { r2 with autoHeap := clearNewHeapBlockLists r2.autoHeap }

/-- The session as `BeginSweep` has it on line 115, when no assertion before that line fails:
zeroed, bound to its collector, holding the new heap block lists of the heap. -/
def beginSweepSession (recyclerPtr : Ptr) (r : Recycler) : RecyclerSweep :=
  takeNewHeapBlockLists r.autoHeap { RecyclerSweep.zero with recycler := some recyclerPtr }

/-- A C++ `double` that is a number: the rational it stands for. The heuristics below only
produce finite values (every operand is a nonnegative quantity below `2 ^ 128`), except for the
division `0.0 / 0.0` that `ratioStage` treats on its own. -/
abbrev Double := ℚ

/-- Round half to even: the integer nearest to `x`, and the even one of the two nearest when
`x` lies halfway between them. -/
def roundHalfEven (x : ℚ) : ℤ :=
  if x - ⌊x⌋ < 1 / 2 then ⌊x⌋
  else if 1 / 2 < x - ⌊x⌋ then ⌊x⌋ + 1
  else if ⌊x⌋ % 2 = 0 then ⌊x⌋
  else ⌊x⌋ + 1

/-- Exponent of the unit in the last place of binary64 at `q`: 53 significant bits, and the
subnormal spacing `2 ^ (-1074)` at the bottom. -/
def F64.ulpExp (q : ℚ) : ℤ := max (Int.log 2 |q| - 52) (-1074)

/-- The binary64 value nearest to `q`, ties to even: the rounding every IEEE 754 operation
applies to its exact result. -/
def F64.round (q : ℚ) : Double :=
  (roundHalfEven (q / (2 : ℚ) ^ F64.ulpExp q) : ℚ) * (2 : ℚ) ^ F64.ulpExp q

/-- The conversion `(double)n` of an unsigned integer. -/
def F64.ofNat (n : Nat) : Double := F64.round (n : ℚ)

/-- The sum `x + y` of two doubles. -/
def F64.add (x y : Double) : Double := F64.round (x + y)

/-- The difference `x - y` of two doubles. -/
def F64.sub (x y : Double) : Double := F64.round (x - y)

/-- The product `x * y` of two doubles. -/
def F64.mul (x y : Double) : Double := F64.round (x * y)

/-- The quotient `x / y` of two doubles, for `y` other than zero. -/
def F64.div (x y : Double) : Double := F64.round (x / y)

/-- The conversion `(size_t)x` of a double: truncation toward zero. -/
def F64.toSizeT (x : Double) : Nat := ⌊x⌋.toNat % SizeTModulus

/-- The constant `MinPartialCollectEfficacy = 0.1`, a `double`. -/
def MinPartialCollectEfficacy : Double := F64.round (1 / 10)

/-- A binary64 number: an integer of fewer than 54 bits times a power of two that is not
below the subnormal spacing. -/
def F64.Rep (q : ℚ) : Prop :=
  ∃ m E : ℤ, |m| < 2 ^ 53 ∧ -1074 ≤ E ∧ q = (m : ℚ) * (2 : ℚ) ^ E

/-- What `AdjustPartialHeuristics` reads from declarations that are outside `RecyclerSweep.cpp`:
`AutoSystemInfo::PageSize`, two fields of `RecyclerHeuristic::Instance`, and the function
`RecyclerHeuristic::PartialConcurrentNextCollection` with the flags table applied. -/
structure RecyclerHeuristic where
  PageSize : Nat
  MaxUncollectedAllocBytesPartialCollect : Nat
  MaxPartialUncollectedNewPageCount : Nat
  PartialConcurrentNextCollection : Double → Bool

/-- The constant `RecyclerSweep::MinPartialUncollectedNewPageCount = 4 MEGABYTES_OF_PAGES`,
that is `4 * 1024 * 1024 / AutoSystemInfo::PageSize`. -/
def MinPartialUncollectedNewPageCount (cfg : RecyclerHeuristic) : Nat :=
  4 * 1024 * 1024 / cfg.PageSize

/-- `RecyclerSweep::GetNewObjectAllocBytes` (lines 769 to 775). -/
def GetNewObjectAllocBytes (r : Recycler) (s : RecyclerSweep) : Except Nat Nat :=
  if !r.inPartialCollectMode then .error 772
  else if r.partialUncollectedAllocBytes < s.lastPartialUncollectedAllocBytes then .error 773
  else .ok (r.partialUncollectedAllocBytes - s.lastPartialUncollectedAllocBytes)

/-- `RecyclerSweep::GetNewObjectFreeBytes` (lines 777 to 783). -/
def GetNewObjectFreeBytes (r : Recycler) (s : RecyclerSweep) : Except Nat Nat :=
  if !r.inPartialCollectMode then .error 780
  else if r.partialUncollectedAllocBytes < s.nextPartialUncollectedAllocBytes then .error 781
  else .ok (r.partialUncollectedAllocBytes - s.nextPartialUncollectedAllocBytes)

/-- The efficacy the source computes on line 678, `(double)freedBytes / (double)allocBytes`. -/
def collectEfficacyOf (freedBytes allocBytes : Nat) : Double :=
  F64.div (F64.ofNat freedBytes) (F64.ofNat allocBytes)

/-- The page reuse heuristics of `AdjustPartialHeuristics` (lines 664 to 695). The result
`none` is the `return false` on line 686; otherwise it is `collectEfficacy` together with the
session, whose `partialCollectSmallHeapBlockReuseMinFreeBytes` has been written. -/
def collectEfficacyStage (cfg : RecyclerHeuristic) (r : Recycler) (s : RecyclerSweep) :
    Except Nat (Option (Double × RecyclerSweep)) :=
  match GetNewObjectAllocBytes r s with
  | .error n => .error n
  | .ok allocBytes =>
    if allocBytes = 0 then
      .ok (some (1, { s with partialCollectSmallHeapBlockReuseMinFreeBytes := 0 }))
    else
      match GetNewObjectFreeBytes r s with
      | .error n => .error n
      | .ok freedBytes =>
        if allocBytes < freedBytes then .error 676
        else if collectEfficacyOf freedBytes allocBytes < MinPartialCollectEfficacy then .ok none
        else
          let collectEfficacy :=
            F64.div (F64.sub (collectEfficacyOf freedBytes allocBytes) MinPartialCollectEfficacy)
              (F64.sub 1 MinPartialCollectEfficacy)
          if 1 < collectEfficacy then .error 693
          else
            .ok (some (collectEfficacy,
              { s with
                partialCollectSmallHeapBlockReuseMinFreeBytes :=
                  F64.toSizeT (F64.mul (F64.ofNat cfg.PageSize) collectEfficacy) }))

/-- The recheck of the rescan cost in `AdjustPartialHeuristics` (lines 701 to 714). The result
`none` is the `return false` on line 713; otherwise it is `newRescanRootBytes`. -/
def rescanStage (cfg : RecyclerHeuristic) (s : RecyclerSweep) (collectEfficacy : Double) :
    Option Nat :=
  let estimatedPartialReuseBlocks :=
    F64.toSizeT (F64.mul (F64.ofNat s.reuseHeapBlockCount) (F64.sub 1 collectEfficacy))
  let estimatedPartialReuseBytes := (estimatedPartialReuseBlocks * cfg.PageSize) % SizeTModulus
  let newRescanRootBytes := max s.rescanRootBytes estimatedPartialReuseBytes
  if newRescanRootBytes > MaxPartialCollectRescanRootBytes then none
  else some newRescanRootBytes

/-- The assertion on line 744, `0.0 <= ratio && ratio <= 1.0`. -/
def ratioAssert (ratio : Double) : Except Nat (Option Double) :=
  if 0 ≤ ratio ∧ ratio ≤ 1 then .ok (some ratio) else .error 744

/-- The heuristic ratio of `AdjustPartialHeuristics` (lines 716 to 744). The result `none` is
the `return false` on line 730. When `MaxUncollectedAllocBytesPartialCollect` is zero and line
728 does not return, line 737 computes `0.0 / 0.0`, a NaN, which every later operation keeps
and which fails both comparisons of the assertion on line 744. -/
def ratioStage (cfg : RecyclerHeuristic) (r : Recycler) (s : RecyclerSweep)
    (collectEfficacy : Double) (newRescanRootBytes : Nat) : Except Nat (Option Double) :=
  let collectCost :=
    F64.div (F64.ofNat newRescanRootBytes) (F64.ofNat MaxPartialCollectRescanRootBytes)
  let reuseRatio := F64.sub 1 collectEfficacy
  let ratio := F64.add (F64.mul collectCost collectEfficacy) reuseRatio
  if InPartialCollect s then
    if s.nextPartialUncollectedAllocBytes > cfg.MaxUncollectedAllocBytesPartialCollect then
      .ok none
    else if cfg.MaxUncollectedAllocBytesPartialCollect = 0 then .error 744
    else
      let uncollectedBytesPressure :=
        F64.div (F64.ofNat s.nextPartialUncollectedAllocBytes)
          (F64.ofNat cfg.MaxUncollectedAllocBytesPartialCollect)
      let collectFullCollectPressure :=
        F64.add
          (F64.mul
            (F64.div (F64.ofNat r.autoHeap.unusedPartialCollectFreeBytes)
              (F64.ofNat MaxUnusedPartialCollectFreeBytes))
            (F64.sub 1 uncollectedBytesPressure))
          uncollectedBytesPressure
      ratioAssert
        (F64.add (F64.mul ratio (F64.sub 1 collectFullCollectPressure))
          collectFullCollectPressure)
  else ratioAssert ratio

/-- The end of `AdjustPartialHeuristics` (lines 746 to 766): the new page count threshold is
scaled by the ratio and stored, and the projected total is compared with the full collect
ceiling. The difference on line 748 is taken in `size_t`; when the configured maximum is below
the minimum, its value does not matter, since the assertion on line 750 then fails. -/
def thresholdStage (cfg : RecyclerHeuristic) (r : Recycler) (s : RecyclerSweep)
    (collectEfficacy ratio : Double) : Except Nat (Bool × Recycler × RecyclerSweep) :=
  let range :=
    (cfg.MaxPartialUncollectedNewPageCount + SizeTModulus -
      MinPartialUncollectedNewPageCount cfg) % SizeTModulus
  let r1 :=
    { r with
      uncollectedNewPageCountPartialCollect :=
        sizeAdd (MinPartialUncollectedNewPageCount cfg)
          (F64.toSizeT (F64.mul (F64.ofNat range) ratio)) }
  if !(decide (r1.uncollectedNewPageCountPartialCollect ≥ MinPartialUncollectedNewPageCount cfg)
      && decide (r1.uncollectedNewPageCountPartialCollect ≤
        cfg.MaxPartialUncollectedNewPageCount)) then .error 750
  else
    let reuseRatio := F64.sub 1 collectEfficacy
    let estimatedPartialReusedFreeByteCount :=
      F64.toSizeT (F64.mul (F64.ofNat s.reuseByteCount) reuseRatio)
    if (r1.uncollectedNewPageCountPartialCollect * cfg.PageSize
        + s.nextPartialUncollectedAllocBytes + estimatedPartialReusedFreeByteCount)
          % SizeTModulus ≥ cfg.MaxUncollectedAllocBytesPartialCollect then
      .ok (false, r1, s)
    else
      .ok (true,
        { r1 with partialConcurrentNextCollection := cfg.PartialConcurrentNextCollection ratio },
        s)

/-- `AdjustPartialHeuristics` after the page reuse heuristics (lines 701 to 767), given the
`collectEfficacy` they computed. -/
def adjustAfterEfficacy (cfg : RecyclerHeuristic) (r : Recycler) (s : RecyclerSweep)
    (collectEfficacy : Double) : Except Nat (Bool × Recycler × RecyclerSweep) :=
  match rescanStage cfg s collectEfficacy with
  | none => .ok (false, r, s)
  | some newRescanRootBytes =>
    match ratioStage cfg r s collectEfficacy newRescanRootBytes with
    | .error n => .error n
    | .ok none => .ok (false, r, s)
    | .ok (some ratio) => thresholdStage cfg r s collectEfficacy ratio

/-- `RecyclerSweep::AdjustPartialHeuristics` (lines 653 to 767). The result is the value
returned, with the collector and the session as the call leaves them. -/
def AdjustPartialHeuristics (cfg : RecyclerHeuristic) (r : Recycler) (s : RecyclerSweep) :
    Except Nat (Bool × Recycler × RecyclerSweep) :=
  if !r.inPartialCollectMode then .error 656
  else if !s.adjustPartialHeuristics then .error 657
  else if !(InPartialCollect s || r.autoHeap.unusedPartialCollectFreeBytes == 0) then .error 658
  else if s.rescanRootBytes > MaxPartialCollectRescanRootBytes then .error 661
  else if r.autoHeap.unusedPartialCollectFreeBytes > MaxUnusedPartialCollectFreeBytes then
    .error 662
  else
    match collectEfficacyStage cfg r s with
    | .error n => .error n
    | .ok none => .ok (false, r, s)
    | .ok (some (collectEfficacy, s1)) => adjustAfterEfficacy cfg r s1 collectEfficacy

/-- The assertions `AdjustPartialHeuristics` makes on entry (lines 656 to 662). -/
def AdjustPartialHeuristicsPre (r : Recycler) (s : RecyclerSweep) : Prop :=
  r.inPartialCollectMode = true ∧
  s.adjustPartialHeuristics = true ∧
  (InPartialCollect s = true ∨ r.autoHeap.unusedPartialCollectFreeBytes = 0) ∧
  s.rescanRootBytes ≤ MaxPartialCollectRescanRootBytes ∧
  r.autoHeap.unusedPartialCollectFreeBytes ≤ MaxUnusedPartialCollectFreeBytes

instance (r : Recycler) (s : RecyclerSweep) : Decidable (AdjustPartialHeuristicsPre r s) := by
  unfold AdjustPartialHeuristicsPre
  infer_instance

/-- A configuration used to build concrete runs: pages of 4096 bytes, a full collect ceiling of
`2 ^ 63` bytes and a new page ceiling equal to the 4 MB floor. -/
def floorCfg : RecyclerHeuristic :=
  { PageSize := 4096
    MaxUncollectedAllocBytesPartialCollect := 2 ^ 63
    MaxPartialUncollectedNewPageCount := 1024
    PartialConcurrentNextCollection := fun _ => false }

/-- A collector in partial collect mode with `10 ^ 17 + 1` partial uncollected bytes. -/
def floorRecycler : Recycler :=
  { Recycler.idle HeapInfo.empty with
    inPartialCollectMode := true
    partialUncollectedAllocBytes := 10 ^ 17 + 1 }

/-- A session that entered partial collect mode in this cycle: `10 ^ 17 + 1` bytes allocated,
`10 ^ 16` of them freed. -/
def floorSweep : RecyclerSweep :=
  { RecyclerSweep.zero with
    adjustPartialHeuristics := true
    isPartial := true
    nextPartialUncollectedAllocBytes := 9 * 10 ^ 16 + 1 }

/-- Assignment through the reference that `RecyclerSweep::GetData<TBlockType>()` returns. -/
def SetData (s : RecyclerSweep) (t : BlockType) (d : Data) : RecyclerSweep :=
  match t with
  | .SmallLeafHeapBlock => { s with leafData := d }
  | .SmallNormalHeapBlock => { s with normalData := d }
  | .SmallFinalizableHeapBlock => { s with finalizableData := d }
  | .SmallRecyclerVisitedHostHeapBlock => { s with recyclerVisitedHostData := d }
  | .SmallNormalWithBarrierHeapBlock => { s with withBarrierData := d }
  | .SmallFinalizableWithBarrierHeapBlock => { s with finalizableWithBarrierData := d }
  | .MediumLeafHeapBlock => { s with mediumLeafData := d }
  | .MediumNormalHeapBlock => { s with mediumNormalData := d }
  | .MediumFinalizableHeapBlock => { s with mediumFinalizableData := d }
  | .MediumRecyclerVisitedHostHeapBlock => { s with mediumRecyclerVisitedHostData := d }
  | .MediumNormalWithBarrierHeapBlock => { s with mediumWithBarrierData := d }
  | .MediumFinalizableWithBarrierHeapBlock => { s with mediumFinalizableWithBarrierData := d }

/-- The body shared by `MergePendingNewHeapBlockList` and `MergePendingNewMediumHeapBlockList`:
the pending merge list of the block type is taken out of the session, and each of its blocks,
head first, is handed to `MergeNewHeapBlock` of its bucket, a collaborator call. -/
def mergePending (medium : Bool) (t : BlockType) (r : Recycler) (s : RecyclerSweep) :
    Recycler × RecyclerSweep :=
  let list := (GetData s t).pendingMergeNewHeapBlockList
  let s1 := SetData s t { GetData s t with pendingMergeNewHeapBlockList := [] }
  (list.foldl (fun r1 heapBlock => r1.call (Collaborator.MergeNewHeapBlock medium heapBlock)) r,
    s1)

/-- `RecyclerSweep::MergePendingNewHeapBlockList<TBlockType>` (lines 399 to 412), instantiated
in the source for the six small block types. -/
def MergePendingNewHeapBlockList (t : BlockType) (r : Recycler) (s : RecyclerSweep) :
    Recycler × RecyclerSweep :=
  mergePending false t r s

/-- `RecyclerSweep::MergePendingNewMediumHeapBlockList<TBlockType>` (lines 424 to 437),
instantiated in the source for the six medium block types. -/
def MergePendingNewMediumHeapBlockList (t : BlockType) (r : Recycler) (s : RecyclerSweep) :
    Recycler × RecyclerSweep :=
  mergePending true t r s

/-- `RecyclerSweep::IsBackground` (lines 312 to 316). -/
def IsBackground (s : RecyclerSweep) : Bool := s.background

/-- Modelled from the spec: `Recycler::BackgroundFinishPartialCollect` is not in
`RecyclerSweep.cpp`. The spec has a backgrounded session schedule a background finish of the
partial collect; what that does to the collector afterwards is not said, so the call is only
recorded. -/
def Recycler.BackgroundFinishPartialCollect (r : Recycler) (sweep : Option Ptr) : Recycler :=
  r.call (Collaborator.BackgroundFinishPartialCollect sweep)

/-- What `FinishSweep` gets from the platform under `RECYCLER_WRITE_WATCH`: the configuration
flag `ForceSoftwareWriteBarrier` and the results of `ResetWriteWatch` on the two page
allocators. -/
structure WriteWatch where
  ForceSoftwareWriteBarrier : Bool
  recyclerPageAllocator : Bool
  recyclerLargeBlockPageAllocator : Bool
  deriving DecidableEq, Repr

/-- The block of `FinishSweep` under `RECYCLER_WRITE_WATCH` (lines 201 to 218). The second
`ResetWriteWatch` is called only when the first succeeds. -/
def resetWriteWatch (ww : WriteWatch) (this : Ptr) (r : Recycler) (s : RecyclerSweep) :
    Recycler :=
  if !ww.ForceSoftwareWriteBarrier then
    if !IsBackground s then
      let r1 := r.call (Collaborator.ResetWriteWatch false)
      let r2 := if ww.recyclerPageAllocator then r1.call (Collaborator.ResetWriteWatch true) else r1
      if !ww.recyclerPageAllocator || !ww.recyclerLargeBlockPageAllocator then
        let r3 := r2.call (Collaborator.AssertFalse 211)
        { r3 with enablePartialCollect := false }.FinishPartialCollect (some this)
      else r2
    else r
  else r

/-- The branch of `FinishSweep` on `inPartialCollectMode` (lines 177 to 247). The calls
`SweepPartialReusePages`, `FinishPartialCollect` and `BackgroundFinishPartialCollect` work on
heap blocks outside the fields modelled here; they are recorded in the trace. -/
def finishSweepAdjust (cfg : RecyclerHeuristic) (ww : WriteWatch) (this : Ptr) (r : Recycler)
    (s : RecyclerSweep) : Except Nat (Recycler × RecyclerSweep) :=
  if r.inPartialCollectMode then
    match AdjustPartialHeuristics cfg r s with
    | .error n => .error n
    | .ok (true, r1, s1) =>
      let r2 :=
        { r1 with
          partialUncollectedAllocBytes :=
            if InPartialCollect s1 then s1.nextPartialUncollectedAllocBytes else 0 }
      let r3 := r2.call Collaborator.SweepPartialReusePages
      .ok (resetWriteWatch ww this r3 s1, s1)
    | .ok (false, r1, s1) =>
      if IsBackground s1 then .ok (r1.BackgroundFinishPartialCollect (some this), s1)
      else .ok (r1.FinishPartialCollect (some this), s1)
  else if s.adjustPartialHeuristics then .error 243
  else if r.partialUncollectedAllocBytes != 0 then .error 246
  else .ok (r, s)

/-- `RecyclerSweep::FinishSweep` (lines 171 to 253); `this` is the address of the session. The
final `SweepPendingObjects` is a collaborator call. -/
def FinishSweep (cfg : RecyclerHeuristic) (ww : WriteWatch) (this : Ptr) (r : Recycler)
    (s : RecyclerSweep) : Except Nat (Recycler × RecyclerSweep) :=
  if s.isPartial != r.inPartialCollectMode then .error 175
  else
    match finishSweepAdjust cfg ww this r s with
    | .error n => .error n
    | .ok p => .ok (p.1.call Collaborator.SweepPendingObjects, p.2)

/-- Assignment to the new heap block list of the heap that belongs to a block type. -/
def HeapInfo.setNewHeapBlockList (h : HeapInfo) (t : BlockType) (l : HeapBlockList) :
    HeapInfo :=
  match t with
  | .SmallLeafHeapBlock => { h with newLeafHeapBlockList := l }
  | .SmallNormalHeapBlock => { h with newNormalHeapBlockList := l }
  | .SmallFinalizableHeapBlock => { h with newFinalizableHeapBlockList := l }
  | .SmallRecyclerVisitedHostHeapBlock => { h with newRecyclerVisitedHostHeapBlockList := l }
  | .SmallNormalWithBarrierHeapBlock => { h with newNormalWithBarrierHeapBlockList := l }
  | .SmallFinalizableWithBarrierHeapBlock =>
    { h with newFinalizableWithBarrierHeapBlockList := l }
  | .MediumLeafHeapBlock => { h with newMediumLeafHeapBlockList := l }
  | .MediumNormalHeapBlock => { h with newMediumNormalHeapBlockList := l }
  | .MediumFinalizableHeapBlock => { h with newMediumFinalizableHeapBlockList := l }
  | .MediumRecyclerVisitedHostHeapBlock =>
    { h with newMediumRecyclerVisitedHostHeapBlockList := l }
  | .MediumNormalWithBarrierHeapBlock => { h with newMediumNormalWithBarrierHeapBlockList := l }
  | .MediumFinalizableWithBarrierHeapBlock =>
    { h with newMediumFinalizableWithBarrierHeapBlockList := l }

/-- Modelled from the spec: the allocation of a heap block is not in `RecyclerSweep.cpp`. The
spec has the catalog keep, per block type, a list of the blocks "created since last sweep"; a
block the mutator creates is linked in at the head of the list of its type. -/
def Recycler.addNewHeapBlock (r : Recycler) (t : BlockType) (heapBlock : Ptr) : Recycler :=
  { r with
    autoHeap := r.autoHeap.setNewHeapBlockList t (heapBlock :: r.autoHeap.newHeapBlockList t) }

/-- What can happen to a collector and its attached session between `BeginSweep` and the next
`BeginSweep`: the mutator creates a block, the session merges a pending list, finishes, or
ends. -/
inductive SessionOp where
  | addNewHeapBlock (t : BlockType) (heapBlock : Ptr)
  | MergePendingNewHeapBlockList (t : BlockType)
  | MergePendingNewMediumHeapBlockList (t : BlockType)
  | FinishSweep (cfg : RecyclerHeuristic) (ww : WriteWatch)
  | EndSweep

/-- One operation on the collector and the session at address `this`. -/
def SessionOp.run (this : Ptr) (op : SessionOp) (p : Recycler × RecyclerSweep) :
    Except Nat (Recycler × RecyclerSweep) :=
  match op with
  | .addNewHeapBlock t heapBlock => .ok (p.1.addNewHeapBlock t heapBlock, p.2)
  | .MergePendingNewHeapBlockList t => .ok (Memory.MergePendingNewHeapBlockList t p.1 p.2)
  | .MergePendingNewMediumHeapBlockList t =>
    .ok (Memory.MergePendingNewMediumHeapBlockList t p.1 p.2)
  | .FinishSweep cfg ww => Memory.FinishSweep cfg ww this p.1 p.2
  | .EndSweep => .ok (Memory.EndSweep p.1 p.2, p.2)

/-- A sequence of operations, run in order; it stops at the first failed assertion. -/
def runOps (this : Ptr) : List SessionOp → Recycler × RecyclerSweep →
    Except Nat (Recycler × RecyclerSweep)
  | [], p => .ok p
  | op :: ops, p =>
    match op.run this p with
    | .error n => .error n
    | .ok q => runOps this ops q

/-- The block is a member of a list held by the session: a pending merge list, a pending sweep
list or a pending empty block list, of any block type and bucket. -/
def SessionHolds (s : RecyclerSweep) (heapBlock : Ptr) : Prop :=
  ∃ t, heapBlock ∈ (GetData s t).pendingMergeNewHeapBlockList ∨
    ∃ i, heapBlock ∈ ((GetData s t).bucketData i).pendingSweepList ∨
      heapBlock ∈ ((GetData s t).bucketData i).pendingEmptyBlockList

/-- A session with 500 partial uncollected bytes, all of them from the previous cycle, and 7
blocks to reuse. -/
def zeroAllocSweep : RecyclerSweep :=
  { floorSweep with
    lastPartialUncollectedAllocBytes := 500
    nextPartialUncollectedAllocBytes := 500
    reuseHeapBlockCount := 7 }

/-- A collector in partial collect mode with 500 partial uncollected bytes. -/
def zeroAllocRecycler : Recycler := { floorRecycler with partialUncollectedAllocBytes := 500 }

/-- Modelled from the spec: `SmallHeapBlockT<TBlockAttributes>` is not in `RecyclerSweep.cpp`.
The spec gives a heap block an "unaccounted allocation bytes" counter for the bytes allocated
into it since the last sweep pass, and expected free bytes that become known after the sweep.
`expectedFreeBytes` is the value of `GetExpectedFreeBytes()`, `isLeafBlock` that of
`IsLeafBlock()`, and `lastUncollectedAllocBytes` is the debug only member. -/
structure SmallHeapBlock where
  unaccountedAllocBytes : Nat
  lastUncollectedAllocBytes : Nat
  expectedFreeBytes : Nat
  isLeafBlock : Bool
  deriving DecidableEq, Repr

/-- Modelled from the spec: `GetAndClearUnaccountedAllocBytes` of the heap block returns the
unaccounted allocation bytes and leaves the counter at zero. -/
def SmallHeapBlock.GetAndClearUnaccountedAllocBytes (b : SmallHeapBlock) :
    Nat × SmallHeapBlock :=
  (b.unaccountedAllocBytes, { b with unaccountedAllocBytes := 0 })

/-- Modelled from the spec: `ClearAllAllocBytes` of the heap block clears its allocation byte
tracking, "so tracking restarts clean for the next cycle". -/
def SmallHeapBlock.ClearAllAllocBytes (b : SmallHeapBlock) : SmallHeapBlock :=
  { b with unaccountedAllocBytes := 0, lastUncollectedAllocBytes := 0 }

/-- `RecyclerSweep::AddUnaccountedNewObjectAllocBytes<TBlockAttributes>` (lines 591 to 611).
The result carries the heap block as the call leaves it. -/
def AddUnaccountedNewObjectAllocBytes (r : Recycler) (s : RecyclerSweep)
    (heapBlock : SmallHeapBlock) : Except Nat (Recycler × RecyclerSweep × SmallHeapBlock) :=
  if r.inPartialCollectMode then
    let unaccountedAllocBytes := heapBlock.GetAndClearUnaccountedAllocBytes.1
    let b1 := heapBlock.GetAndClearUnaccountedAllocBytes.2
    if !(b1.lastUncollectedAllocBytes == 0 || unaccountedAllocBytes == 0) then .error 600
    else
      let b2 :=
        { b1 with
          lastUncollectedAllocBytes := b1.lastUncollectedAllocBytes + unaccountedAllocBytes }
      .ok ({ r with
              partialUncollectedAllocBytes :=
                sizeAdd r.partialUncollectedAllocBytes unaccountedAllocBytes },
           { s with
              nextPartialUncollectedAllocBytes :=
                sizeAdd s.nextPartialUncollectedAllocBytes unaccountedAllocBytes },
           b2)
  else .ok (r, s, heapBlock.ClearAllAllocBytes)

/-- `RecyclerSweep::SubtractSweepNewObjectAllocBytes` (lines 617 to 625). The sum in the
assertion on line 623 is a `size_t` sum. -/
def SubtractSweepNewObjectAllocBytes (r : Recycler) (s : RecyclerSweep)
    (newObjectExpectSweepByteCount : Nat) : Except Nat RecyclerSweep :=
  if !r.inPartialCollectMode then .error 620
  else if s.nextPartialUncollectedAllocBytes < newObjectExpectSweepByteCount then .error 622
  else if s.nextPartialUncollectedAllocBytes <
      sizeAdd s.lastPartialUncollectedAllocBytes newObjectExpectSweepByteCount then .error 623
  else
    .ok { s with
          nextPartialUncollectedAllocBytes :=
            s.nextPartialUncollectedAllocBytes - newObjectExpectSweepByteCount }

/-- `RecyclerSweep::NotifyAllocableObjects<TBlockAttributes>` (lines 797 to 807). -/
def NotifyAllocableObjects (s : RecyclerSweep) (heapBlock : SmallHeapBlock) : RecyclerSweep :=
  let s1 := { s with reuseByteCount := sizeAdd s.reuseByteCount heapBlock.expectedFreeBytes }
  if !heapBlock.isLeafBlock then
    { s1 with reuseHeapBlockCount := sizeAdd s1.reuseHeapBlockCount 1 }
  else s1

/-- The operations of partial collect mode that the monotonicity of
`partialUncollectedAllocBytes` is about: a session begins, a block's unaccounted bytes are
added, swept bytes are subtracted, a block is notified as allocable, the session ends. -/
inductive PartialOp where
  | BeginSweep (this recyclerPtr : Ptr) (rescanRootBytes : Nat) (adjustPartialHeuristics : Bool)
  | AddUnaccountedNewObjectAllocBytes (heapBlock : SmallHeapBlock)
  | SubtractSweepNewObjectAllocBytes (newObjectExpectSweepByteCount : Nat)
  | NotifyAllocableObjects (heapBlock : SmallHeapBlock)
  | EndSweep

/-- One operation of partial collect mode on the collector and its session. -/
def PartialOp.run (op : PartialOp) (p : Recycler × RecyclerSweep) :
    Except Nat (Recycler × RecyclerSweep) :=
  match op with
  | .BeginSweep this recyclerPtr rescanRootBytes adjust =>
    Memory.BeginSweep this recyclerPtr p.1 rescanRootBytes adjust
  | .AddUnaccountedNewObjectAllocBytes heapBlock =>
    match Memory.AddUnaccountedNewObjectAllocBytes p.1 p.2 heapBlock with
    | .error n => .error n
    | .ok q => .ok (q.1, q.2.1)
  | .SubtractSweepNewObjectAllocBytes n =>
    match Memory.SubtractSweepNewObjectAllocBytes p.1 p.2 n with
    | .error n => .error n
    | .ok s1 => .ok (p.1, s1)
  | .NotifyAllocableObjects heapBlock => .ok (p.1, Memory.NotifyAllocableObjects p.2 heapBlock)
  | .EndSweep => .ok (Memory.EndSweep p.1 p.2, p.2)

/-- The side condition of an operation of partial collect mode: a `BeginSweep` is one on which
`DoPartialCollectMode` approves (no full collect intervenes), and the sum an
`AddUnaccountedNewObjectAllocBytes` forms fits a `size_t`. -/
def PartialOp.keepsPartialMode (op : PartialOp) (p : Recycler × RecyclerSweep) : Prop :=
  match op with
  | .BeginSweep _ _ rescanRootBytes _ =>
    p.1.enablePartialCollect = true ∧
      p.1.autoHeap.unusedPartialCollectFreeBytes ≤ 16 * 1024 * 1024 ∧
      rescanRootBytes ≤ 5 * 1024 * 1024
  | .AddUnaccountedNewObjectAllocBytes heapBlock =>
    p.1.partialUncollectedAllocBytes + heapBlock.unaccountedAllocBytes < SizeTModulus
  | _ => True

/-- A sequence of operations of partial collect mode, run in order; it stops at the first
failed assertion. -/
def runPartialOps : List PartialOp → Recycler × RecyclerSweep →
    Except Nat (Recycler × RecyclerSweep)
  | [], p => .ok p
  | op :: ops, p =>
    match op.run p with
    | .error n => .error n
    | .ok q => runPartialOps ops q

/-- Every operation of the sequence meets its side condition in the state it is run in. -/
def partialOpsKeepMode : List PartialOp → Recycler × RecyclerSweep → Prop
  | [], _ => True
  | op :: ops, p =>
    op.keepsPartialMode p ∧
      match op.run p with
      | .error _ => True
      | .ok q => partialOpsKeepMode ops q

/-- The states of a session in partial collect mode: what `StartPartialCollectMode` returns,
and what `AddUnaccountedNewObjectAllocBytes` and `SubtractSweepNewObjectAllocBytes` make of
such a state when their sums fit a `size_t`. -/
inductive PartialReachable : Recycler × RecyclerSweep → Prop where
  | start (r r1 : Recycler) (s s1 : RecyclerSweep) :
    StartPartialCollectMode r s = .ok (r1, s1) → PartialReachable (r1, s1)
  | add (r r1 : Recycler) (s s1 : RecyclerSweep) (heapBlock b1 : SmallHeapBlock) :
    PartialReachable (r, s) →
    r.partialUncollectedAllocBytes + heapBlock.unaccountedAllocBytes < SizeTModulus →
    AddUnaccountedNewObjectAllocBytes r s heapBlock = .ok (r1, s1, b1) →
    PartialReachable (r1, s1)
  | subtract (r : Recycler) (s s1 : RecyclerSweep) (n : Nat) :
    PartialReachable (r, s) →
    s.lastPartialUncollectedAllocBytes + n < SizeTModulus →
    SubtractSweepNewObjectAllocBytes r s n = .ok s1 →
    PartialReachable (r, s1)

/-- A collector that continues partial collect mode: 100 partial uncollected bytes and 150
uncollected bytes. -/
def monotoneRecycler : Recycler :=
  { Recycler.idle { HeapInfo.empty with uncollectedAllocBytes := 150 } with
    inPartialCollectMode := true
    partialUncollectedAllocBytes := 100 }

/-- A heap block with 10 unaccounted bytes and 5 expected free bytes. -/
def monotoneBlock : SmallHeapBlock :=
  { unaccountedAllocBytes := 10
    lastUncollectedAllocBytes := 0
    expectedFreeBytes := 5
    isLeafBlock := false }

/-- One cycle of partial collect mode without `FinishSweep`. -/
def monotoneOps : List PartialOp :=
  [PartialOp.BeginSweep 1 2 0 true,
   PartialOp.AddUnaccountedNewObjectAllocBytes monotoneBlock,
   PartialOp.SubtractSweepNewObjectAllocBytes 3,
   PartialOp.NotifyAllocableObjects monotoneBlock,
   PartialOp.EndSweep]

/-- The state after `StartPartialCollectMode` on a collector with 100 partial uncollected bytes
and 150 uncollected bytes, one block with 10 unaccounted bytes added and 3 swept bytes
subtracted. -/
def accountingExample : Recycler × RecyclerSweep :=
  ({ monotoneRecycler with partialUncollectedAllocBytes := 160 },
   { RecyclerSweep.zero with
     inPartialCollect := true
     lastPartialUncollectedAllocBytes := 100
     nextPartialUncollectedAllocBytes := 157 })

/-- The two constants of `HeapConstants` that `ShutdownCleanup` reads; their declaration is
outside `RecyclerSweep.cpp`. -/
structure HeapConstants where
  BucketCount : Nat
  MediumBucketCount : Nat
  deriving DecidableEq, Repr

/-- The body of a bucket loop of `ShutdownCleanup` (lines 349 to 367 for the small tier, with
assertions on lines 353, 364 and 366; lines 376 to 394 for the medium tier, with assertions on
lines 380, 391 and 393), for bucket `i`. `DeleteHeapBlockList` and `DeleteEmptyHeapBlockList`
are collaborator calls, recorded with the list they are given. -/
def shutdownCleanupBucket (leafData normalData finalizableData withBarrierData
    finalizableWithBarrierData : Data) (leafSweepLine finalizableWithBarrierEmptyLine
    finalizableEmptyLine : Nat) (r : Recycler) (i : Nat) : Except Nat Recycler :=
  if (leafData.bucketData i).pendingSweepList != [] then .error leafSweepLine
  else
    let r1 := r.call (Collaborator.DeleteHeapBlockList (normalData.bucketData i).pendingSweepList)
    let r2 :=
      r1.call (Collaborator.DeleteHeapBlockList (finalizableData.bucketData i).pendingSweepList)
    let r3 :=
      r2.call
        (Collaborator.DeleteHeapBlockList
          (finalizableWithBarrierData.bucketData i).pendingSweepList)
    let r4 :=
      r3.call (Collaborator.DeleteEmptyHeapBlockList (leafData.bucketData i).pendingEmptyBlockList)
    let r5 :=
      r4.call
        (Collaborator.DeleteEmptyHeapBlockList (normalData.bucketData i).pendingEmptyBlockList)
    let r6 :=
      r5.call
        (Collaborator.DeleteEmptyHeapBlockList
          (withBarrierData.bucketData i).pendingEmptyBlockList)
    if (finalizableWithBarrierData.bucketData i).pendingEmptyBlockList != [] then
      .error finalizableWithBarrierEmptyLine
    else if (finalizableData.bucketData i).pendingEmptyBlockList != [] then
      .error finalizableEmptyLine
    else .ok r6

/-- One tier of `ShutdownCleanup` (lines 342 to 367 for the small tier, 369 to 394 for the
medium tier): the five pending merge lists are deleted, then the loop runs over the bucket
indices below `count`, in order. -/
def shutdownCleanupTier (leafData normalData finalizableData withBarrierData
    finalizableWithBarrierData : Data) (leafSweepLine finalizableWithBarrierEmptyLine
    finalizableEmptyLine : Nat) (count : Nat) (r : Recycler) : Except Nat Recycler :=
  let r1 := r.call (Collaborator.DeleteHeapBlockList leafData.pendingMergeNewHeapBlockList)
  let r2 := r1.call (Collaborator.DeleteHeapBlockList normalData.pendingMergeNewHeapBlockList)
  let r3 := r2.call (Collaborator.DeleteHeapBlockList withBarrierData.pendingMergeNewHeapBlockList)
  let r4 :=
    r3.call
      (Collaborator.DeleteHeapBlockList finalizableWithBarrierData.pendingMergeNewHeapBlockList)
  let r5 := r4.call (Collaborator.DeleteHeapBlockList finalizableData.pendingMergeNewHeapBlockList)
  (List.range count).foldlM
    (shutdownCleanupBucket leafData normalData finalizableData withBarrierData
      finalizableWithBarrierData leafSweepLine finalizableWithBarrierEmptyLine
      finalizableEmptyLine) r5

/-- `RecyclerSweep::ShutdownCleanup` (lines 337 to 396). The session is not written to. -/
def ShutdownCleanup (hc : HeapConstants) (r : Recycler) (s : RecyclerSweep) :
    Except Nat Recycler :=
  match shutdownCleanupTier s.leafData s.normalData s.finalizableData s.withBarrierData
      s.finalizableWithBarrierData 353 364 366 hc.BucketCount r with
  | .error n => .error n
  | .ok r1 =>
    shutdownCleanupTier s.mediumLeafData s.mediumNormalData s.mediumFinalizableData
      s.mediumWithBarrierData s.mediumFinalizableWithBarrierData 380 391 393
      hc.MediumBucketCount r1

/-- The blocks of the lists that a trace passes to `DeleteHeapBlockList` or
`DeleteEmptyHeapBlockList`. -/
def deletedBlocks : List Collaborator → List Nat
  | [] => []
  | Collaborator.DeleteHeapBlockList l :: cs => l ++ deletedBlocks cs
  | Collaborator.DeleteEmptyHeapBlockList l :: cs => l ++ deletedBlocks cs
  | _ :: cs => deletedBlocks cs

/-- A collector whose heap has one new visited host block, at address 30. -/
def visitedHostRecycler : Recycler :=
  Recycler.idle { HeapInfo.empty with newRecyclerVisitedHostHeapBlockList := [30] }

/-- `RecyclerSweep::BeginBackground` (lines 468 to 474). -/
def BeginBackground (s : RecyclerSweep) (forceForeground : Bool) : Except Nat RecyclerSweep :=
  if s.background then .error 471
  else .ok { s with background := !forceForeground, forceForeground := forceForeground }

/-- `RecyclerSweep::EndBackground` (lines 476 to 481). -/
def EndBackground (s : RecyclerSweep) : Except Nat RecyclerSweep :=
  if !(s.background || s.forceForeground) then .error 479
  else .ok { s with background := false }

/-- `RecyclerSweep::BackgroundSweep` (lines 284 to 303); `this` is the address of the session.
`BeginBackground` is given the member `forceForeground` of the session. `SweepSmallNonFinalizable`
is a collaborator call that receives the session; it is recorded with the value `IsBackground()`
has when it is called. `enableConcurrentSweepAlloc` says that
`ENABLE_ALLOCATIONS_DURING_CONCURRENT_SWEEP` is on and the flag `EnableConcurrentSweepAlloc` is
set. -/
def BackgroundSweep (cfg : RecyclerHeuristic) (ww : WriteWatch)
    (enableConcurrentSweepAlloc : Bool) (this : Ptr) (r : Recycler) (s : RecyclerSweep) :
    Except Nat (Recycler × RecyclerSweep) :=
  match BeginBackground s s.forceForeground with
  | .error n => .error n
  | .ok s1 =>
    let r1 := r.call (Collaborator.SweepSmallNonFinalizable (IsBackground s1))
    match FinishSweep cfg ww this r1 s1 with
    | .error n => .error n
    | .ok p =>
      let r3 :=
        if enableConcurrentSweepAlloc then p.1.call Collaborator.FinishConcurrentSweep else p.1
      match EndBackground p.2 with
      | .error n => .error n
      | .ok s3 => .ok (r3, s3)

/-- A session that was set up for a forced foreground sweep: what `BeginBackground(true)`
followed by `EndBackground()` leaves of a zeroed session. -/
def forcedForegroundSweep : RecyclerSweep :=
  { RecyclerSweep.zero with forceForeground := true }

/-- The zero allocation session, continuing a partial collect. -/
def pressureSweep : RecyclerSweep := { zeroAllocSweep with inPartialCollect := true }

/-- A configuration whose new page ceiling, 100 pages, lies below the 4 MB floor of 1024
pages. -/
def lowCeilingCfg : RecyclerHeuristic :=
  { floorCfg with MaxPartialUncollectedNewPageCount := 100 }

/-- A configuration whose new page ceiling, 2048 pages, lies above the 4 MB floor of 1024
pages. -/
def wideCfg : RecyclerHeuristic :=
  { floorCfg with MaxPartialUncollectedNewPageCount := 2048 }

/-- A collector in partial collect mode with 4 partial uncollected bytes. -/
def reuseRecycler : Recycler := { floorRecycler with partialUncollectedAllocBytes := 4 }

/-- A session that entered partial collect mode in this cycle: 4 bytes allocated, 3 of them
freed, and 4609 blocks to reuse. -/
def reuseSweep : RecyclerSweep :=
  { floorSweep with
    nextPartialUncollectedAllocBytes := 1
    reuseHeapBlockCount := 4609 }

/-- A collector in partial collect mode with 10 partial uncollected bytes. -/
def rejectRecycler : Recycler := { floorRecycler with partialUncollectedAllocBytes := 10 }

/-- A session that entered partial collect mode in this cycle: 10 bytes allocated, 1 of them
freed, and 1281 blocks to reuse. -/
def rejectSweep : RecyclerSweep :=
  { floorSweep with
    nextPartialUncollectedAllocBytes := 9
    reuseHeapBlockCount := 1281 }

/-- The configuration `floorCfg` with a full collect ceiling of 100 bytes. -/
def tightCfg : RecyclerHeuristic :=
  { floorCfg with MaxUncollectedAllocBytesPartialCollect := 100 }

/-- The zero allocation session with a reuse threshold of 77 bytes left from before. -/
def staleSweep : RecyclerSweep :=
  { zeroAllocSweep with partialCollectSmallHeapBlockReuseMinFreeBytes := 77 }

/-- The value that `AdjustPartialHeuristics` stores in
`partialCollectSmallHeapBlockReuseMinFreeBytes` on line 694, as a function of the freed and the
allocated bytes of the cycle: `(size_t)(PageSize * e)` with `e` the rescaled efficacy of lines
678 and 691. -/
def reuseMinFreeBytesOf (cfg : RecyclerHeuristic) (freedBytes allocBytes : Nat) : Nat :=
  F64.toSizeT
    (F64.mul (F64.ofNat cfg.PageSize)
      (F64.div (F64.sub (collectEfficacyOf freedBytes allocBytes) MinPartialCollectEfficacy)
        (F64.sub 1 MinPartialCollectEfficacy)))

/-- A collector in partial collect mode with 512 partial uncollected bytes. -/
def smallRecycler : Recycler := { floorRecycler with partialUncollectedAllocBytes := 512 }

/-- A session that entered partial collect mode in this cycle: 512 bytes allocated, 80 of them
freed. -/
def smallSweep : RecyclerSweep := { floorSweep with nextPartialUncollectedAllocBytes := 432 }

/-- The value that lines 747 and 748 of `AdjustPartialHeuristics` store in
`uncollectedNewPageCountPartialCollect`, as a function of the ratio. -/
def newPageCountOf (cfg : RecyclerHeuristic) (ratio : Double) : Nat :=
  sizeAdd (MinPartialUncollectedNewPageCount cfg)
    (F64.toSizeT
      (F64.mul
        (F64.ofNat
          ((cfg.MaxPartialUncollectedNewPageCount + SizeTModulus -
            MinPartialUncollectedNewPageCount cfg) % SizeTModulus))
        ratio))

/-- C1. `DoPartialCollectMode` approves exactly when partial collection is enabled, the unused
partial collect free bytes are at most 16 MB and the rescan root bytes are at most 5 MB; above
the 5 MB ceiling it answers false whatever the other inputs are. -/
theorem DoPartialCollectMode_iff (r : Recycler) (s : RecyclerSweep) :
    (DoPartialCollectMode r s = true ↔
      (r.enablePartialCollect = true ∧
        r.autoHeap.unusedPartialCollectFreeBytes ≤ 16 * 1024 * 1024 ∧
        s.rescanRootBytes ≤ 5 * 1024 * 1024)) ∧
    (5 * 1024 * 1024 < s.rescanRootBytes → DoPartialCollectMode r s = false) := by
  have h5 : MaxPartialCollectRescanRootBytes = 5 * 1024 * 1024 := by
    simp [MaxPartialCollectRescanRootBytes, MEGABYTES, KILOBYTES]
  have h16 : MaxUnusedPartialCollectFreeBytes = 16 * 1024 * 1024 := by
    simp [MaxUnusedPartialCollectFreeBytes, MEGABYTES, KILOBYTES]
  unfold DoPartialCollectMode
  rw [h5, h16]
  constructor
  · cases r.enablePartialCollect <;> simp
  · intro h
    cases r.enablePartialCollect <;> simp
    intro _
    omega

theorem MaxPartialCollectRescanRootBytes_eq :
    MaxPartialCollectRescanRootBytes = 5 * 1024 * 1024 := by
  simp [MaxPartialCollectRescanRootBytes, MEGABYTES, KILOBYTES]

theorem MaxUnusedPartialCollectFreeBytes_eq :
    MaxUnusedPartialCollectFreeBytes = 16 * 1024 * 1024 := by
  simp [MaxUnusedPartialCollectFreeBytes, MEGABYTES, KILOBYTES]

/-- The three guards of `DoPartialCollectMode`, read as a conjunction. -/
theorem DoPartialCollectMode_iff_aux (r : Recycler) (s : RecyclerSweep) :
    DoPartialCollectMode r s = true ↔
      (r.enablePartialCollect = true ∧
        r.autoHeap.unusedPartialCollectFreeBytes ≤ 16 * 1024 * 1024 ∧
        s.rescanRootBytes ≤ 5 * 1024 * 1024) := by
  unfold DoPartialCollectMode
  rw [MaxPartialCollectRescanRootBytes_eq, MaxUnusedPartialCollectFreeBytes_eq]
  cases r.enablePartialCollect <;> simp

/-- Under the asserted preconditions, `BeginSweep` reaches its partial collect part with the
session attached, the disposed objects flushed and the new heap block lists moved over. -/
theorem BeginSweep_eq_of_pre (this recyclerPtr : Ptr) (r : Recycler) (rescanRootBytes : Nat)
    (adjust : Bool) (hpre : BeginSweepPre r) :
    BeginSweep this recyclerPtr r rescanRootBytes adjust =
      beginSweepPartial (beginSweepCollector this r) (beginSweepSession recyclerPtr r)
        rescanRootBytes adjust := by
  obtain ⟨h1, h2, h3, -⟩ := hpre
  unfold BeginSweep beginSweepCollector beginSweepSession FlushPendingTransferDisposedObjects
  by_cases hp : r.hasPendingTransferDisposedObjects = true
  · obtain ⟨h4, h5⟩ := h3 hp
    rcases h4 with h4 | h4 <;>
      simp [Recycler.call, Recycler.TransferDisposedObjects, h1, h2, hp, h4, h5]
  · simp [Recycler.call, h1, h2, hp]

theorem beginSweepCollector_fields (this : Ptr) (r : Recycler) :
    (beginSweepCollector this r).recyclerSweep = some this ∧
    (beginSweepCollector this r).clientTrackedObjectListEmpty = r.clientTrackedObjectListEmpty ∧
    (beginSweepCollector this r).partialUncollectedAllocBytes = r.partialUncollectedAllocBytes ∧
    (beginSweepCollector this r).inPartialCollectMode = r.inPartialCollectMode ∧
    (beginSweepCollector this r).enablePartialCollect = r.enablePartialCollect ∧
    (beginSweepCollector this r).autoHeap.uncollectedAllocBytes =
      r.autoHeap.uncollectedAllocBytes ∧
    (beginSweepCollector this r).autoHeap.lastUncollectedAllocBytes =
      r.autoHeap.lastUncollectedAllocBytes ∧
    (beginSweepCollector this r).autoHeap.unusedPartialCollectFreeBytes =
      r.autoHeap.unusedPartialCollectFreeBytes ∧
    ∀ t, (beginSweepCollector this r).autoHeap.newHeapBlockList t = [] := by
  unfold beginSweepCollector
  cases hp : r.hasPendingTransferDisposedObjects <;>
    simp [Recycler.call, Recycler.TransferDisposedObjects, clearNewHeapBlockLists, hp] <;>
    intro t <;> cases t <;> rfl

theorem beginSweepSession_fields (recyclerPtr : Ptr) (r : Recycler) :
    (beginSweepSession recyclerPtr r).recycler = some recyclerPtr ∧
    (beginSweepSession recyclerPtr r).inPartialCollect = false ∧
    (∀ t, (GetData (beginSweepSession recyclerPtr r) t).pendingMergeNewHeapBlockList =
      r.autoHeap.newHeapBlockList t) ∧
    (∀ t i, ((GetData (beginSweepSession recyclerPtr r) t).bucketData i).pendingSweepList = []) ∧
    (∀ t i,
      ((GetData (beginSweepSession recyclerPtr r) t).bucketData i).pendingEmptyBlockList = []) := by
  refine ⟨rfl, rfl, ?_, ?_, ?_⟩
  · intro t; cases t <;> rfl
  · intro t i; cases t <;> rfl
  · intro t i; cases t <;> rfl

/-- What the partial collect part of `BeginSweep` leaves alone. -/
theorem beginSweepArm_frame {r r' : Recycler} {s s' : RecyclerSweep} {adjust : Bool}
    (h : beginSweepArm r s adjust = .ok (r', s')) :
    r'.recyclerSweep = r.recyclerSweep ∧
    (∀ t, r'.autoHeap.newHeapBlockList t = r.autoHeap.newHeapBlockList t) ∧
    (∀ t, GetData s' t = GetData s t) ∧
    s'.recycler = s.recycler ∧
    s'.rescanRootBytes = s.rescanRootBytes := by
  unfold beginSweepArm StartPartialCollectMode at h
  simp only [] at h
  split_ifs at h <;> simp at h <;> obtain ⟨rfl, rfl⟩ := h <;>
    refine ⟨rfl, fun t => by cases t <;> rfl, fun t => by cases t <;> rfl, rfl, rfl⟩

/-- The reset at the end of `BeginSweep` changes neither the session nor the partial collect
state of the collector. -/
theorem beginSweepReset_frame (p : Recycler × RecyclerSweep) :
    (beginSweepReset p).2 = p.2 ∧
    (beginSweepReset p).1.recyclerSweep = p.1.recyclerSweep ∧
    (beginSweepReset p).1.inPartialCollectMode = p.1.inPartialCollectMode ∧
    (beginSweepReset p).1.partialUncollectedAllocBytes = p.1.partialUncollectedAllocBytes ∧
    (∀ t, (beginSweepReset p).1.autoHeap.newHeapBlockList t = p.1.autoHeap.newHeapBlockList t) := by
  unfold beginSweepReset
  split <;>
    refine ⟨rfl, rfl, rfl, rfl, fun t => by cases t <;> rfl⟩

/-- The rejecting branch of `BeginSweep`, evaluated. -/
theorem beginSweepArm_reject (r : Recycler) (s : RecyclerSweep) (adjust : Bool)
    (hdo : DoPartialCollectMode r s = false)
    (hp : r.partialUncollectedAllocBytes = 0 ∨ r.inPartialCollectMode = true) :
    beginSweepArm r s adjust =
      .ok (if r.inPartialCollectMode then r.FinishPartialCollect none else r, s) := by
  unfold beginSweepArm
  rw [hdo]
  cases hm : r.inPartialCollectMode
  · have h0 : r.partialUncollectedAllocBytes = 0 := by
      rcases hp with h | h
      · exact h
      · rw [hm] at h; cases h
    simp [h0, hm]
  · simp [Recycler.FinishPartialCollect]

/-- The approving branch of `BeginSweep`, evaluated. -/
theorem beginSweepArm_approve (r : Recycler) (s : RecyclerSweep) (adjust : Bool)
    (hdo : DoPartialCollectMode r s = true)
    (hp : r.partialUncollectedAllocBytes = 0 ∨ r.inPartialCollectMode = true)
    (hu : r.partialUncollectedAllocBytes ≤ r.autoHeap.uncollectedAllocBytes) :
    beginSweepArm r s adjust =
      .ok ({ r with
              inPartialCollectMode := true
              partialUncollectedAllocBytes :=
                if r.inPartialCollectMode then r.autoHeap.uncollectedAllocBytes
                else sizeAdd r.autoHeap.uncollectedAllocBytes
                  r.autoHeap.lastUncollectedAllocBytes },
           { s with
              isPartial := true
              adjustPartialHeuristics := adjust
              inPartialCollect := r.inPartialCollectMode
              lastPartialUncollectedAllocBytes := r.partialUncollectedAllocBytes
              nextPartialUncollectedAllocBytes :=
                if r.inPartialCollectMode then r.autoHeap.uncollectedAllocBytes
                else sizeAdd r.autoHeap.uncollectedAllocBytes
                  r.autoHeap.lastUncollectedAllocBytes }) := by
  unfold beginSweepArm StartPartialCollectMode
  rw [hdo]
  have hlt : ¬ r.autoHeap.uncollectedAllocBytes < r.partialUncollectedAllocBytes := by omega
  cases hm : r.inPartialCollectMode
  · have h0 : r.partialUncollectedAllocBytes = 0 := by
      rcases hp with h | h
      · exact h
      · rw [hm] at h; cases h
    simp [h0]
  · simp [hlt]

/-- Under its asserted preconditions `BeginSweep` returns: it is the arm-or-tear-down branch
followed by the counter reset, run on the attached collector and the loaded session. -/
theorem BeginSweep_ok_of_pre (this recyclerPtr : Ptr) (r : Recycler) (rescanRootBytes : Nat)
    (adjust : Bool) (hpre : BeginSweepPre r) :
    ∃ p, beginSweepArm (beginSweepCollector this r)
        { beginSweepSession recyclerPtr r with rescanRootBytes := rescanRootBytes } adjust
          = .ok p ∧
      BeginSweep this recyclerPtr r rescanRootBytes adjust = .ok (beginSweepReset p) := by
  rw [BeginSweep_eq_of_pre this recyclerPtr r rescanRootBytes adjust hpre]
  obtain ⟨-, -, -, h4, h5, h6⟩ := hpre
  obtain ⟨-, f2, f3, f4, -, f6, -, -, -⟩ := beginSweepCollector_fields this r
  have hp : (beginSweepCollector this r).partialUncollectedAllocBytes = 0 ∨
      (beginSweepCollector this r).inPartialCollectMode = true := by
    rw [f3, f4]; exact h5
  have hu : (beginSweepCollector this r).partialUncollectedAllocBytes ≤
      (beginSweepCollector this r).autoHeap.uncollectedAllocBytes := by
    rw [f3, f6]; exact h6
  have hlt : ¬ r.autoHeap.uncollectedAllocBytes < r.partialUncollectedAllocBytes := by omega
  have hb : (r.partialUncollectedAllocBytes == 0 || r.inPartialCollectMode) = true := by
    rcases h5 with h | h <;> simp [h]
  unfold beginSweepPartial
  rw [f2, f3, f4, f6]
  simp only [h4, hb, hlt, Bool.not_true, Bool.false_eq_true, if_false]
  cases hdo : DoPartialCollectMode (beginSweepCollector this r)
      { beginSweepSession recyclerPtr r with rescanRootBytes := rescanRootBytes }
  · rw [beginSweepArm_reject _ _ adjust hdo hp]
    exact ⟨_, rfl, rfl⟩
  · rw [beginSweepArm_approve _ _ adjust hdo hp hu]
    exact ⟨_, rfl, rfl⟩

/-- When `BeginSweep` returns, every assertion it makes about the collector held on entry. -/
theorem BeginSweepPre_of_ok {this recyclerPtr : Ptr} {r : Recycler} {rescanRootBytes : Nat}
    {adjust : Bool} {p : Recycler × RecyclerSweep}
    (h : BeginSweep this recyclerPtr r rescanRootBytes adjust = .ok p) : BeginSweepPre r := by
  unfold BeginSweep at h
  simp only [Recycler.call] at h
  split_ifs at h with h1 h2
  have h1' : r.isSweeping = false := by simpa using h1
  have h2' : r.recyclerSweep = none := by simpa using h2
  split at h
  · cases h
  · rename_i r2 hflush
    unfold FlushPendingTransferDisposedObjects at hflush
    unfold beginSweepPartial at h
    simp only [clearNewHeapBlockLists] at h
    simp only [] at hflush
    have hr2 : r2.clientTrackedObjectListEmpty = r.clientTrackedObjectListEmpty ∧
        r2.partialUncollectedAllocBytes = r.partialUncollectedAllocBytes ∧
        r2.inPartialCollectMode = r.inPartialCollectMode ∧
        r2.autoHeap.uncollectedAllocBytes = r.autoHeap.uncollectedAllocBytes ∧
        (r.hasPendingTransferDisposedObjects = true →
          (r.inDispose = false ∨ r.inResolveExternalWeakReferences = true) ∧
            r.hasDisposableObject = false) := by
      split_ifs at hflush with g1 g2 g3
      · simp only [Except.ok.injEq] at hflush
        subst hflush
        refine ⟨rfl, rfl, rfl, rfl, fun _ => ⟨?_, by simpa using g3⟩⟩
        cases hd : r.inDispose <;> cases hw : r.inResolveExternalWeakReferences <;>
          simp [hd, hw] at g2 ⊢
      · simp only [Except.ok.injEq] at hflush
        subst hflush
        exact ⟨rfl, rfl, rfl, rfl, fun hp => absurd hp g1⟩
    obtain ⟨e1, e2, e3, e4, e5⟩ := hr2
    simp only [e1, e2, e3, e4] at h
    split_ifs at h with k1 k2 k3
    refine ⟨h1', h2', e5, by simpa using k1, ?_, by omega⟩
    cases hm : r.inPartialCollectMode
    · left
      simpa [hm] using k2
    · right; rfl

/-- The approving run of `BeginSweep`: under the asserted preconditions and the three
conditions of `DoPartialCollectMode`, it returns with partial collect mode armed. -/
theorem BeginSweep_approve (this recyclerPtr : Ptr) (r : Recycler)
    (rescanRootBytes : Nat) (adjust : Bool) (hpre : BeginSweepPre r)
    (henabled : r.enablePartialCollect = true)
    (hunused : r.autoHeap.unusedPartialCollectFreeBytes ≤ 16 * 1024 * 1024)
    (hrescan : rescanRootBytes ≤ 5 * 1024 * 1024) :
    ∃ r' s', BeginSweep this recyclerPtr r rescanRootBytes adjust = .ok (r', s') ∧
      r'.inPartialCollectMode = true ∧
      r'.partialUncollectedAllocBytes =
        (if r.inPartialCollectMode then r.autoHeap.uncollectedAllocBytes
          else sizeAdd r.autoHeap.uncollectedAllocBytes r.autoHeap.lastUncollectedAllocBytes) ∧
      s'.nextPartialUncollectedAllocBytes =
        (if r.inPartialCollectMode then r.autoHeap.uncollectedAllocBytes
          else sizeAdd r.autoHeap.uncollectedAllocBytes r.autoHeap.lastUncollectedAllocBytes) ∧
      s'.lastPartialUncollectedAllocBytes = r.partialUncollectedAllocBytes ∧
      s'.inPartialCollect = r.inPartialCollectMode ∧
      s'.isPartial = true ∧
      s'.adjustPartialHeuristics = adjust := by
  obtain ⟨⟨r1, s1⟩, harm, hbegin⟩ :=
    BeginSweep_ok_of_pre this recyclerPtr r rescanRootBytes adjust hpre
  obtain ⟨-, -, f3, f4, f5, f6, f7, f8, -⟩ := beginSweepCollector_fields this r
  obtain ⟨-, -, hu⟩ : True ∧ True ∧
      r.partialUncollectedAllocBytes ≤ r.autoHeap.uncollectedAllocBytes :=
    ⟨trivial, trivial, hpre.2.2.2.2.2⟩
  have hp := hpre.2.2.2.2.1
  have hdo : DoPartialCollectMode (beginSweepCollector this r)
      { beginSweepSession recyclerPtr r with rescanRootBytes := rescanRootBytes } = true := by
    apply (DoPartialCollectMode_iff_aux _ _).2
    rw [f5, f8]
    exact ⟨henabled, hunused, hrescan⟩
  rw [beginSweepArm_approve _ _ adjust hdo (by rw [f3, f4]; exact hp)
    (by rw [f3, f6]; exact hu)] at harm
  simp only [Except.ok.injEq, Prod.mk.injEq] at harm
  obtain ⟨hr1, hs1⟩ := harm
  obtain ⟨g1, -, g3, g4, -⟩ := beginSweepReset_frame (r1, s1)
  refine ⟨(beginSweepReset (r1, s1)).1, (beginSweepReset (r1, s1)).2, hbegin, ?_, ?_, ?_, ?_, ?_,
    ?_, ?_⟩
  · rw [g3, ← hr1]
  · rw [g4, ← hr1]; simp only [f4, f6, f7]
  · rw [g1, ← hs1]; simp only [f4, f6, f7]
  · rw [g1, ← hs1]; exact f3
  · rw [g1, ← hs1]; exact f4
  · rw [g1, ← hs1]
  · rw [g1, ← hs1]

/-- The rejecting run of `BeginSweep`: under the asserted preconditions, when one of the three
conditions of `DoPartialCollectMode` fails, it returns with partial collect mode torn down. -/
theorem BeginSweep_reject (this recyclerPtr : Ptr) (r : Recycler)
    (rescanRootBytes : Nat) (adjust : Bool) (hpre : BeginSweepPre r)
    (hno : ¬ (r.enablePartialCollect = true ∧
      r.autoHeap.unusedPartialCollectFreeBytes ≤ 16 * 1024 * 1024 ∧
      rescanRootBytes ≤ 5 * 1024 * 1024)) :
    ∃ r' s', BeginSweep this recyclerPtr r rescanRootBytes adjust = .ok (r', s') ∧
      r'.inPartialCollectMode = false ∧
      r'.partialUncollectedAllocBytes = 0 ∧
      s'.inPartialCollect = false ∧
      s'.isPartial = false ∧
      s'.adjustPartialHeuristics = false := by
  obtain ⟨⟨r1, s1⟩, harm, hbegin⟩ :=
    BeginSweep_ok_of_pre this recyclerPtr r rescanRootBytes adjust hpre
  obtain ⟨-, -, f3, f4, f5, f6, f7, f8, -⟩ := beginSweepCollector_fields this r
  have hp := hpre.2.2.2.2.1
  have hdo : DoPartialCollectMode (beginSweepCollector this r)
      { beginSweepSession recyclerPtr r with rescanRootBytes := rescanRootBytes } = false := by
    cases hd : DoPartialCollectMode (beginSweepCollector this r)
      { beginSweepSession recyclerPtr r with rescanRootBytes := rescanRootBytes }
    · rfl
    · have := (DoPartialCollectMode_iff_aux _ _).1 hd
      rw [f5, f8] at this
      exact absurd this hno
  rw [beginSweepArm_reject _ _ adjust hdo (by rw [f3, f4]; exact hp)] at harm
  simp only [Except.ok.injEq, Prod.mk.injEq] at harm
  obtain ⟨hr1, hs1⟩ := harm
  obtain ⟨g1, -, g3, g4, -⟩ := beginSweepReset_frame (r1, s1)
  refine ⟨(beginSweepReset (r1, s1)).1, (beginSweepReset (r1, s1)).2, hbegin, ?_, ?_, ?_, ?_, ?_⟩
  · rw [g3, ← hr1, f4]
    cases hm : r.inPartialCollectMode <;> simp [Recycler.FinishPartialCollect, f4, hm]
  · rw [g4, ← hr1, f4]
    cases hm : r.inPartialCollectMode
    · simp only [Bool.false_eq_true, if_false, f3]
      rcases hp with h | h
      · exact h
      · rw [hm] at h; cases h
    · simp [Recycler.FinishPartialCollect]
  · rw [g1, ← hs1]; rfl
  · rw [g1, ← hs1]; rfl
  · rw [g1, ← hs1]; rfl

/-- C4. Full to partial transition: from a collector that is not in partial collect mode and
has no partial uncollected bytes, with partial collection enabled, at most 16 MB of unused
partial collect free bytes and at most 5 MB of rescan root bytes, `BeginSweep` returns with
partial collect mode on, with the collector's `partialUncollectedAllocBytes` and the session's
`nextPartialUncollectedAllocBytes` both equal to the entry value of
`uncollectedAllocBytes + lastUncollectedAllocBytes` (a `size_t` sum, the plain sum when it fits
64 bits), with `lastPartialUncollectedAllocBytes` zero and `InPartialCollect()` false. -/
theorem BeginSweep_full_to_partial (this recyclerPtr : Ptr) (r : Recycler)
    (rescanRootBytes : Nat) (adjust : Bool) (hpre : BeginSweepPre r)
    (hmode : r.inPartialCollectMode = false) (hbytes : r.partialUncollectedAllocBytes = 0)
    (henabled : r.enablePartialCollect = true)
    (hunused : r.autoHeap.unusedPartialCollectFreeBytes ≤ 16 * 1024 * 1024)
    (hrescan : rescanRootBytes ≤ 5 * 1024 * 1024) :
    ∃ r' s', BeginSweep this recyclerPtr r rescanRootBytes adjust = .ok (r', s') ∧
      r'.inPartialCollectMode = true ∧
      r'.partialUncollectedAllocBytes =
        sizeAdd r.autoHeap.uncollectedAllocBytes r.autoHeap.lastUncollectedAllocBytes ∧
      s'.nextPartialUncollectedAllocBytes =
        sizeAdd r.autoHeap.uncollectedAllocBytes r.autoHeap.lastUncollectedAllocBytes ∧
      s'.lastPartialUncollectedAllocBytes = 0 ∧
      InPartialCollect s' = false ∧
      (r.autoHeap.uncollectedAllocBytes + r.autoHeap.lastUncollectedAllocBytes < 2 ^ 64 →
        r'.partialUncollectedAllocBytes =
            r.autoHeap.uncollectedAllocBytes + r.autoHeap.lastUncollectedAllocBytes ∧
          s'.nextPartialUncollectedAllocBytes =
            r.autoHeap.uncollectedAllocBytes + r.autoHeap.lastUncollectedAllocBytes) := by
  obtain ⟨r', s', hbegin, h1, h2, h3, h4, h5, -, -⟩ :=
    BeginSweep_approve this recyclerPtr r rescanRootBytes adjust hpre henabled hunused hrescan
  simp only [hmode, Bool.false_eq_true, if_false] at h2 h3
  refine ⟨r', s', hbegin, h1, h2, h3, by rw [h4, hbytes], by rw [InPartialCollect, h5, hmode], ?_⟩
  intro hfit
  have hsum : sizeAdd r.autoHeap.uncollectedAllocBytes r.autoHeap.lastUncollectedAllocBytes =
      r.autoHeap.uncollectedAllocBytes + r.autoHeap.lastUncollectedAllocBytes :=
    Nat.mod_eq_of_lt hfit
  exact ⟨by rw [h2, hsum], by rw [h3, hsum]⟩

/-- Witness for C4: a collector fresh from a full collect, 300 bytes allocated since and 700
recorded by the full collect, a rescan estimate of 1 MB. -/
theorem BeginSweep_full_to_partial_witness :
    ∃ r' s', BeginSweep 1 2
        (Recycler.idle
          { HeapInfo.empty with uncollectedAllocBytes := 300, lastUncollectedAllocBytes := 700 })
        (1024 * 1024) true = .ok (r', s') ∧
      r'.inPartialCollectMode = true ∧
      r'.partialUncollectedAllocBytes = sizeAdd 300 700 ∧
      s'.nextPartialUncollectedAllocBytes = sizeAdd 300 700 ∧
      s'.lastPartialUncollectedAllocBytes = 0 ∧
      InPartialCollect s' = false ∧
      (300 + 700 < 2 ^ 64 →
        r'.partialUncollectedAllocBytes = 300 + 700 ∧
          s'.nextPartialUncollectedAllocBytes = 300 + 700) :=
  BeginSweep_full_to_partial 1 2
    (Recycler.idle
      { HeapInfo.empty with uncollectedAllocBytes := 300, lastUncollectedAllocBytes := 700 })
    (1024 * 1024) true (by decide) rfl rfl rfl (by decide) (by decide)

/-- C5. Reject oversized rescan: from every collector that meets the assertions of `BeginSweep`,
in partial collect mode or not, a rescan estimate above 5 MB makes `BeginSweep` return with
`inPartialCollectMode` false, `partialUncollectedAllocBytes` zero and `InPartialCollect()`
false. -/
theorem BeginSweep_reject_oversized_rescan (this recyclerPtr : Ptr) (r : Recycler)
    (rescanRootBytes : Nat) (adjust : Bool) (hpre : BeginSweepPre r)
    (hrescan : 5 * 1024 * 1024 < rescanRootBytes) :
    ∃ r' s', BeginSweep this recyclerPtr r rescanRootBytes adjust = .ok (r', s') ∧
      r'.inPartialCollectMode = false ∧
      r'.partialUncollectedAllocBytes = 0 ∧
      InPartialCollect s' = false := by
  obtain ⟨r', s', hbegin, h1, h2, h3, -, -⟩ :=
    BeginSweep_reject this recyclerPtr r rescanRootBytes adjust hpre
      (fun h => absurd h.2.2 (by omega))
  exact ⟨r', s', hbegin, h1, h2, h3⟩

/-- Witness for C5: a collector in partial collect mode with 40 partial uncollected bytes out
of 100 uncollected bytes, and a rescan estimate of 6 MB. -/
theorem BeginSweep_reject_oversized_rescan_witness :
    ∃ r' s', BeginSweep 1 2
        { Recycler.idle { HeapInfo.empty with uncollectedAllocBytes := 100 } with
          inPartialCollectMode := true, partialUncollectedAllocBytes := 40 }
        (6 * 1024 * 1024) true = .ok (r', s') ∧
      r'.inPartialCollectMode = false ∧
      r'.partialUncollectedAllocBytes = 0 ∧
      InPartialCollect s' = false :=
  BeginSweep_reject_oversized_rescan 1 2
    { Recycler.idle { HeapInfo.empty with uncollectedAllocBytes := 100 } with
      inPartialCollectMode := true, partialUncollectedAllocBytes := 40 }
    (6 * 1024 * 1024) true (by decide) (by decide)

/-- The lists after `BeginSweep`: whatever it returns, the session holds the entry value of
each new heap block list, the heap holds none, and the session is the one attached. -/
theorem BeginSweep_lists (this recyclerPtr : Ptr) (r : Recycler) (rescanRootBytes : Nat)
    (adjust : Bool) (hpre : BeginSweepPre r) :
    ∃ r' s', BeginSweep this recyclerPtr r rescanRootBytes adjust = .ok (r', s') ∧
      r'.recyclerSweep = some this ∧
      s'.recycler = some recyclerPtr ∧
      s'.rescanRootBytes = rescanRootBytes ∧
      (∀ t, (GetData s' t).pendingMergeNewHeapBlockList = r.autoHeap.newHeapBlockList t) ∧
      (∀ t i, ((GetData s' t).bucketData i).pendingSweepList = []) ∧
      (∀ t i, ((GetData s' t).bucketData i).pendingEmptyBlockList = []) ∧
      (∀ t, r'.autoHeap.newHeapBlockList t = []) := by
  obtain ⟨⟨r1, s1⟩, harm, hbegin⟩ :=
    BeginSweep_ok_of_pre this recyclerPtr r rescanRootBytes adjust hpre
  obtain ⟨f1, -, -, -, -, -, -, -, f9⟩ := beginSweepCollector_fields this r
  obtain ⟨e1, -, e3, e4, e5⟩ := beginSweepSession_fields recyclerPtr r
  obtain ⟨a1, a2, a3, a4, a5⟩ := beginSweepArm_frame harm
  obtain ⟨g1, g2, -, -, g5⟩ := beginSweepReset_frame (r1, s1)
  have hdata : ∀ t, GetData (beginSweepReset (r1, s1)).2 t =
      GetData (beginSweepSession recyclerPtr r) t := by
    intro t
    rw [g1]
    show GetData s1 t = _
    rw [a3 t]
    cases t <;> rfl
  refine ⟨(beginSweepReset (r1, s1)).1, (beginSweepReset (r1, s1)).2, hbegin, ?_, ?_, ?_, ?_, ?_,
    ?_, ?_⟩
  · rw [g2]; show r1.recyclerSweep = _; rw [a1, f1]
  · rw [g1]; show s1.recycler = _; rw [a4]; exact e1
  · rw [g1]; show s1.rescanRootBytes = _; rw [a5]
  · intro t; rw [hdata t]; exact e3 t
  · intro t i; rw [hdata t]; exact e4 t i
  · intro t i; rw [hdata t]; exact e5 t i
  · intro t; rw [g5 t]; show r1.autoHeap.newHeapBlockList t = _; rw [a2 t]; exact f9 t

/-- C6. Snapshot and clear at Begin: for each of the twelve block types (leaf, normal,
finalizable, with barrier, finalizable with barrier, visited host; small and medium), after
`BeginSweep` the pending merge list of the session is the new heap block list the heap had on
entry, the same blocks in the same order, and that list of the heap is empty. -/
theorem BeginSweep_snapshot_and_clear (this recyclerPtr : Ptr) (r : Recycler)
    (rescanRootBytes : Nat) (adjust : Bool) (hpre : BeginSweepPre r) :
    ∃ r' s', BeginSweep this recyclerPtr r rescanRootBytes adjust = .ok (r', s') ∧
      ∀ t : BlockType,
        (GetData s' t).pendingMergeNewHeapBlockList = r.autoHeap.newHeapBlockList t ∧
        r'.autoHeap.newHeapBlockList t = [] := by
  obtain ⟨r', s', hbegin, -, -, -, h1, -, -, h2⟩ :=
    BeginSweep_lists this recyclerPtr r rescanRootBytes adjust hpre
  exact ⟨r', s', hbegin, fun t => ⟨h1 t, h2 t⟩⟩

/-- Witness for C6: a heap with two new small leaf blocks, one new medium normal block and one
new small visited host block. -/
theorem BeginSweep_snapshot_and_clear_witness :
    ∃ r' s', BeginSweep 1 2
        (Recycler.idle
          { HeapInfo.empty with
            newLeafHeapBlockList := [10, 11]
            newMediumNormalHeapBlockList := [20]
            newRecyclerVisitedHostHeapBlockList := [30] })
        0 false = .ok (r', s') ∧
      ∀ t : BlockType,
        (GetData s' t).pendingMergeNewHeapBlockList =
          ({ HeapInfo.empty with
            newLeafHeapBlockList := [10, 11]
            newMediumNormalHeapBlockList := [20]
            newRecyclerVisitedHostHeapBlockList := [30] } : HeapInfo).newHeapBlockList t ∧
        r'.autoHeap.newHeapBlockList t = [] :=
  BeginSweep_snapshot_and_clear 1 2
    (Recycler.idle
      { HeapInfo.empty with
        newLeafHeapBlockList := [10, 11]
        newMediumNormalHeapBlockList := [20]
        newRecyclerVisitedHostHeapBlockList := [30] })
    0 false (by decide)

/-- C8. Single live session: `BeginSweep` returns only from a collector that has no session
attached and is not sweeping, and then the session it was called on is the one attached and
points back to the collector; on a collector that already has a session attached it fails the
assertion on line 47 or on line 48 and returns nothing; and from every collector that meets its
assertions it does return. -/
theorem BeginSweep_single_live_session (this recyclerPtr : Ptr) (r : Recycler)
    (rescanRootBytes : Nat) (adjust : Bool) :
    (∀ r' s', BeginSweep this recyclerPtr r rescanRootBytes adjust = .ok (r', s') →
      r.recyclerSweep = none ∧ r.isSweeping = false ∧
        r'.recyclerSweep = some this ∧ s'.recycler = some recyclerPtr) ∧
    (r.recyclerSweep ≠ none →
      BeginSweep this recyclerPtr r rescanRootBytes adjust = .error 47 ∨
        BeginSweep this recyclerPtr r rescanRootBytes adjust = .error 48) ∧
    (BeginSweepPre r →
      ∃ r' s', BeginSweep this recyclerPtr r rescanRootBytes adjust = .ok (r', s')) := by
  refine ⟨?_, ?_, ?_⟩
  · intro r' s' h
    have hpre := BeginSweepPre_of_ok h
    obtain ⟨r'', s'', hbegin, h1, h2, -⟩ :=
      BeginSweep_lists this recyclerPtr r rescanRootBytes adjust hpre
    rw [h] at hbegin
    simp only [Except.ok.injEq, Prod.mk.injEq] at hbegin
    obtain ⟨rfl, rfl⟩ := hbegin
    exact ⟨hpre.2.1, hpre.1, h1, h2⟩
  · intro hne
    unfold BeginSweep
    cases hs : r.isSweeping
    · right
      cases hrs : r.recyclerSweep
      · exact absurd hrs hne
      · simp [Recycler.call, hs, hrs]
    · left
      simp [Recycler.call, hs]
  · intro hpre
    obtain ⟨r', s', hbegin, -⟩ :=
      BeginSweep_lists this recyclerPtr r rescanRootBytes adjust hpre
    exact ⟨r', s', hbegin⟩

/-- C10. `EndSweep` detaches the session, adds `nextPartialUncollectedAllocBytes` to
`uncollectedAllocBytes` (a `size_t` sum, the plain sum when it fits 64 bits) when the session's
`InPartialCollect()` is true and leaves it unchanged otherwise, and leaves
`partialUncollectedAllocBytes` and `inPartialCollectMode` unchanged in both cases. -/
theorem EndSweep_effect (r : Recycler) (s : RecyclerSweep) :
    (EndSweep r s).recyclerSweep = none ∧
    (EndSweep r s).autoHeap.uncollectedAllocBytes =
      (if InPartialCollect s then
        sizeAdd r.autoHeap.uncollectedAllocBytes s.nextPartialUncollectedAllocBytes
      else r.autoHeap.uncollectedAllocBytes) ∧
    (InPartialCollect s = true →
      r.autoHeap.uncollectedAllocBytes + s.nextPartialUncollectedAllocBytes < 2 ^ 64 →
      (EndSweep r s).autoHeap.uncollectedAllocBytes =
        r.autoHeap.uncollectedAllocBytes + s.nextPartialUncollectedAllocBytes) ∧
    (InPartialCollect s = false →
      (EndSweep r s).autoHeap.uncollectedAllocBytes = r.autoHeap.uncollectedAllocBytes) ∧
    (EndSweep r s).partialUncollectedAllocBytes = r.partialUncollectedAllocBytes ∧
    (EndSweep r s).inPartialCollectMode = r.inPartialCollectMode := by
  unfold EndSweep InPartialCollect
  cases hs : s.inPartialCollect
  · simp [Recycler.call]
  · simp only [Recycler.call, if_true, true_and, forall_const]
    exact ⟨fun hfit => Nat.mod_eq_of_lt hfit, fun h => Bool.noConfusion h, trivial⟩

/-- C9, counterexample. A session that continues partial collect mode with 100 uncollected
bytes: the first `EndSweep` detaches it and restores the 100 bytes, and a second `EndSweep` on
the same session returns as well (there is no assertion to fail) and adds the 100 bytes again. -/
theorem EndSweep_second_call_adds_again :
    ∃ r1 s1, BeginSweep 1 2
        { Recycler.idle { HeapInfo.empty with uncollectedAllocBytes := 100 } with
          inPartialCollectMode := true, partialUncollectedAllocBytes := 40 }
        0 true = .ok (r1, s1) ∧
      InPartialCollect s1 = true ∧
      s1.nextPartialUncollectedAllocBytes = 100 ∧
      (EndSweep r1 s1).recyclerSweep = none ∧
      (EndSweep r1 s1).autoHeap.uncollectedAllocBytes = 100 ∧
      (EndSweep (EndSweep r1 s1) s1).autoHeap.uncollectedAllocBytes = 200 ∧
      EndSweep (EndSweep r1 s1) s1 ≠ EndSweep r1 s1 := by
  refine ⟨_, _, rfl, ?_, ?_, ?_, ?_, ?_, ?_⟩ <;> decide

/-- C9, amended. `EndSweep` has no assertion: after a first `EndSweep` the session pointer of
the collector is null, and a second `EndSweep` on the same session runs like the first. It
leaves the pointer null and `partialUncollectedAllocBytes` and `inPartialCollectMode` as they
were, it adds `nextPartialUncollectedAllocBytes` to `uncollectedAllocBytes` once more when the
session's `inPartialCollect` is true, and it leaves `uncollectedAllocBytes` unchanged when
`inPartialCollect` is false. -/
theorem EndSweep_twice (r : Recycler) (s : RecyclerSweep) :
    (EndSweep r s).recyclerSweep = none ∧
    (EndSweep (EndSweep r s) s).recyclerSweep = none ∧
    (EndSweep (EndSweep r s) s).autoHeap.uncollectedAllocBytes =
      (if s.inPartialCollect then
        sizeAdd (EndSweep r s).autoHeap.uncollectedAllocBytes s.nextPartialUncollectedAllocBytes
      else (EndSweep r s).autoHeap.uncollectedAllocBytes) ∧
    (EndSweep (EndSweep r s) s).partialUncollectedAllocBytes =
      (EndSweep r s).partialUncollectedAllocBytes ∧
    (EndSweep (EndSweep r s) s).inPartialCollectMode = (EndSweep r s).inPartialCollectMode := by
  unfold EndSweep
  cases hs : s.inPartialCollect <;> simp [Recycler.call]

theorem roundHalfEven_intCast (z : ℤ) : roundHalfEven (z : ℚ) = z := by
  unfold roundHalfEven
  simp

theorem roundHalfEven_le {x : ℚ} {n : ℤ} (h : x ≤ n) : roundHalfEven x ≤ n := by
  have hfl : ⌊x⌋ ≤ n := by
    have := Int.floor_le x
    exact_mod_cast (this.trans h)
  unfold roundHalfEven
  have hstep : ¬ x - ⌊x⌋ < 1 / 2 → ⌊x⌋ + 1 ≤ n := by
    intro hfrac
    have h1 : (⌊x⌋ : ℚ) < n := by linarith
    have h2 : ⌊x⌋ < n := by exact_mod_cast h1
    omega
  split_ifs with h1 h2 h3
  · exact hfl
  · exact hstep h1
  · exact hfl
  · exact hstep h1

theorem le_roundHalfEven {x : ℚ} {n : ℤ} (h : (n : ℚ) ≤ x) : n ≤ roundHalfEven x := by
  have hfl : n ≤ ⌊x⌋ := Int.le_floor.2 h
  unfold roundHalfEven
  split_ifs <;> omega

theorem roundHalfEven_mono {x y : ℚ} (h : x ≤ y) : roundHalfEven x ≤ roundHalfEven y := by
  have hfl : ⌊x⌋ ≤ ⌊y⌋ := Int.floor_mono h
  rcases lt_or_eq_of_le hfl with hlt | heq
  · have h1 : roundHalfEven x ≤ ⌊x⌋ + 1 := by
      unfold roundHalfEven
      split_ifs <;> omega
    have h2 : ⌊y⌋ ≤ roundHalfEven y := le_roundHalfEven (Int.floor_le y)
    omega
  · unfold roundHalfEven
    rw [← heq]
    split_ifs with a1 a2 a3 a4 a5 a6 a7 a8 a9 <;> first | omega | (exfalso; linarith)

theorem abs_roundHalfEven_sub_le (x : ℚ) : |(roundHalfEven x : ℚ) - x| ≤ 1 / 2 := by
  have h1 := Int.floor_le x
  have h2 := Int.lt_floor_add_one x
  unfold roundHalfEven
  rw [abs_le]
  split_ifs <;> push_cast <;> constructor <;> linarith

theorem roundHalfEven_eq_of_abs_lt {x : ℚ} {n : ℤ} (h : |x - n| < 1 / 2) :
    roundHalfEven x = n := by
  rw [abs_lt] at h
  have hx := abs_roundHalfEven_sub_le x
  rw [abs_le] at hx
  have h1 : ((roundHalfEven x : ℤ) : ℚ) - n < 1 := by linarith [h.1, h.2, hx.1, hx.2]
  have h2 : (-1 : ℚ) < (roundHalfEven x : ℚ) - n := by linarith [h.1, h.2, hx.1, hx.2]
  have h3 : roundHalfEven x - n < 1 := by exact_mod_cast h1
  have h4 : -1 < roundHalfEven x - n := by exact_mod_cast h2
  omega

namespace F64

theorem two_zpow_pos (e : ℤ) : (0 : ℚ) < (2 : ℚ) ^ e := zpow_pos (by norm_num) e

theorem round_zero : F64.round 0 = 0 := by
  unfold F64.round
  simp [roundHalfEven]

/-- The unit in the last place at `q` is at most `2 ^ E` when `|q|` is below `2 ^ (E + 53)`. -/
theorem ulpExp_le {q : ℚ} {E : ℤ} (hq : q ≠ 0) (hE : -1074 ≤ E)
    (hlt : |q| < (2 : ℚ) ^ (E + 53)) : ulpExp q ≤ E := by
  unfold ulpExp
  apply max_le _ hE
  have hpos : 0 < |q| := abs_pos.2 hq
  have := (Int.lt_zpow_iff_log_lt (b := 2) (by norm_num) hpos).1 (by exact_mod_cast hlt)
  omega

theorem ulpExp_mono {x y : ℚ} (hx : x ≠ 0) (h : |x| ≤ |y|) : ulpExp x ≤ ulpExp y := by
  unfold ulpExp
  have := Int.log_mono_right (b := 2) (abs_pos.2 hx) h
  exact max_le_max (by omega) le_rfl

/-- A multiple of `2 ^ E` is a multiple of every smaller power of two. -/
theorem exists_mul_zpow {e E : ℤ} (h : e ≤ E) (m : ℤ) :
    ∃ k : ℤ, (m : ℚ) * (2 : ℚ) ^ E = (k : ℚ) * (2 : ℚ) ^ e := by
  refine ⟨m * 2 ^ (E - e).toNat, ?_⟩
  have hE : E = e + ((E - e).toNat : ℤ) := by
    rw [Int.toNat_of_nonneg (by omega)]; ring
  conv_lhs => rw [hE]
  rw [zpow_add₀ (by norm_num : (2 : ℚ) ≠ 0), zpow_natCast]
  push_cast
  ring

/-- Rounding keeps a value that lies on the grid of its own unit in the last place. -/
theorem round_of_grid {q : ℚ} {k : ℤ} (h : q = (k : ℚ) * (2 : ℚ) ^ ulpExp q) :
    F64.round q = q := by
  unfold F64.round
  have hs : q / (2 : ℚ) ^ ulpExp q = (k : ℚ) := by
    rw [div_eq_iff (ne_of_gt (two_zpow_pos _))]
    exact h
  rw [hs, roundHalfEven_intCast]
  exact h.symm

/-- Rounding does not pass a point of the grid of the rounded value. -/
theorem round_le_of_grid {q : ℚ} {k : ℤ} (h : q ≤ (k : ℚ) * (2 : ℚ) ^ ulpExp q) :
    F64.round q ≤ (k : ℚ) * (2 : ℚ) ^ ulpExp q := by
  unfold F64.round
  have hs : q / (2 : ℚ) ^ ulpExp q ≤ (k : ℚ) := by
    rw [div_le_iff₀ (two_zpow_pos _)]
    exact h
  have := roundHalfEven_le hs
  exact mul_le_mul_of_nonneg_right (by exact_mod_cast this) (le_of_lt (two_zpow_pos _))

theorem le_round_of_grid {q : ℚ} {k : ℤ} (h : (k : ℚ) * (2 : ℚ) ^ ulpExp q ≤ q) :
    (k : ℚ) * (2 : ℚ) ^ ulpExp q ≤ F64.round q := by
  unfold F64.round
  have hs : (k : ℚ) ≤ q / (2 : ℚ) ^ ulpExp q := by
    rw [le_div_iff₀ (two_zpow_pos _)]
    exact h
  have := le_roundHalfEven hs
  exact mul_le_mul_of_nonneg_right (by exact_mod_cast this) (le_of_lt (two_zpow_pos _))

theorem Rep.abs_lt {q : ℚ} {m E : ℤ} (hm : |m| < 2 ^ 53) (hq : q = (m : ℚ) * (2 : ℚ) ^ E) :
    |q| < (2 : ℚ) ^ (E + 53) := by
  rw [hq, abs_mul, abs_of_pos (two_zpow_pos E), zpow_add₀ (by norm_num : (2 : ℚ) ≠ 0), mul_comm]
  apply mul_lt_mul_of_pos_left _ (two_zpow_pos E)
  have h1 : ((|m| : ℤ) : ℚ) < ((2 ^ 53 : ℤ) : ℚ) := by exact_mod_cast hm
  rw [Int.cast_abs] at h1
  have h2 : ((2 : ℚ) ^ (53 : ℤ)) = ((2 ^ 53 : ℤ) : ℚ) := by norm_num
  rw [h2]
  exact h1

/-- Rounding is the identity on binary64 numbers. -/
theorem round_of_rep {q : ℚ} (h : Rep q) : F64.round q = q := by
  obtain ⟨m, E, hm, hE, hq⟩ := h
  by_cases h0 : q = 0
  · rw [h0, round_zero]
  · have hle := ulpExp_le h0 hE (Rep.abs_lt hm hq)
    obtain ⟨k, hk⟩ := exists_mul_zpow hle m
    exact round_of_grid (hq.trans hk)

/-- Rounding a positive value does not pass a binary64 number above it. -/
theorem round_le_of_le_rep {x y : ℚ} (hx : 0 < x) (hxy : x ≤ y) (hy : Rep y) :
    F64.round x ≤ y := by
  obtain ⟨m, E, hm, hE, hq⟩ := hy
  have hlt : |x| < (2 : ℚ) ^ (E + 53) := by
    have := Rep.abs_lt hm hq
    rw [abs_of_pos hx]
    rw [abs_of_pos (lt_of_lt_of_le hx hxy)] at this
    exact lt_of_le_of_lt hxy this
  have hle := ulpExp_le (ne_of_gt hx) hE hlt
  obtain ⟨k, hk⟩ := exists_mul_zpow hle m
  rw [hq, hk]
  apply round_le_of_grid
  rw [← hk, ← hq]
  exact hxy

theorem round_nonneg {x : ℚ} (hx : 0 ≤ x) : 0 ≤ F64.round x := by
  have := le_round_of_grid (q := x) (k := 0) (by simpa using hx)
  simpa using this

/-- Rounding is monotone on nonnegative values. -/
theorem round_mono {x y : ℚ} (hx : 0 ≤ x) (hxy : x ≤ y) : F64.round x ≤ F64.round y := by
  rcases eq_or_lt_of_le hx with h0 | hpos
  · rw [← h0, round_zero]
    exact round_nonneg (hx.trans hxy)
  · have hy : 0 < y := lt_of_lt_of_le hpos hxy
    have hmono : ulpExp x ≤ ulpExp y :=
      ulpExp_mono (ne_of_gt hpos) (by rw [abs_of_pos hpos, abs_of_pos hy]; exact hxy)
    rcases eq_or_lt_of_le hmono with heq | hlt
    · unfold F64.round
      rw [heq]
      have hs : x / (2 : ℚ) ^ ulpExp y ≤ y / (2 : ℚ) ^ ulpExp y :=
        div_le_div_of_nonneg_right hxy (le_of_lt (two_zpow_pos _))
      have := roundHalfEven_mono hs
      exact mul_le_mul_of_nonneg_right (by exact_mod_cast this) (le_of_lt (two_zpow_pos _))
    · have hey : ulpExp y = Int.log 2 |y| - 52 := by
        have h1 : -1074 ≤ ulpExp x := le_max_right _ _
        unfold ulpExp at hlt ⊢
        rcases max_cases (Int.log 2 |y| - 52) (-1074) with ⟨h, _⟩ | ⟨h, _⟩
        · exact h
        · rw [h] at hlt
          unfold ulpExp at h1
          omega
      have hb_le : (2 : ℚ) ^ Int.log 2 |y| ≤ y := by
        have h1 := Int.zpow_log_le_self (b := 2) (r := |y|) (by norm_num)
          (abs_pos.2 (ne_of_gt hy))
        have h2 : |y| = y := abs_of_pos hy
        calc (2 : ℚ) ^ Int.log 2 |y| ≤ |y| := by exact_mod_cast h1
          _ = y := h2
      have hx_lt : x < (2 : ℚ) ^ Int.log 2 |y| := by
        by_contra hcon
        push_neg at hcon
        have h1 : Int.log 2 |y| ≤ Int.log 2 |x| := by
          apply (Int.zpow_le_iff_le_log (b := 2) (by norm_num) (abs_pos.2 (ne_of_gt hpos))).1
          rw [abs_of_pos hpos]
          exact_mod_cast hcon
        have h2 : Int.log 2 |x| - 52 ≤ ulpExp x := le_max_left _ _
        omega
      have hxe : ulpExp x ≤ Int.log 2 |y| := by omega
      have hye : ulpExp y ≤ Int.log 2 |y| := by omega
      obtain ⟨k1, hk1⟩ := exists_mul_zpow hxe 1
      obtain ⟨k2, hk2⟩ := exists_mul_zpow hye 1
      simp only [Int.cast_one, one_mul] at hk1 hk2
      have r1 : F64.round x ≤ (2 : ℚ) ^ Int.log 2 |y| := by
        rw [hk1]
        apply round_le_of_grid
        rw [← hk1]
        exact le_of_lt hx_lt
      have r2 : (2 : ℚ) ^ Int.log 2 |y| ≤ F64.round y := by
        rw [hk2]
        apply le_round_of_grid
        rw [← hk2]
        exact hb_le
      exact r1.trans r2

/-- The value of `round q` from the binade of `q` and the nearest point of its grid. -/
theorem round_eq {q : ℚ} (E M : ℤ) (hE : -1074 ≤ E) (hlo : (2 : ℚ) ^ (E + 52) ≤ q)
    (hhi : q < (2 : ℚ) ^ (E + 53)) (hM : |q / (2 : ℚ) ^ E - M| < 1 / 2) :
    F64.round q = (M : ℚ) * (2 : ℚ) ^ E := by
  have hq : 0 < q := lt_of_lt_of_le (two_zpow_pos _) hlo
  have hlog : Int.log 2 |q| = E + 52 := by
    rw [abs_of_pos hq]
    apply le_antisymm
    · have := (Int.lt_zpow_iff_log_lt (b := 2) (by norm_num) hq).1 (by exact_mod_cast hhi)
      omega
    · exact (Int.zpow_le_iff_le_log (b := 2) (by norm_num) hq).1 (by exact_mod_cast hlo)
  have hulp : ulpExp q = E := by
    unfold ulpExp
    rw [hlog]
    have : E + 52 - 52 = E := by ring
    rw [this]
    exact max_eq_left hE
  unfold F64.round
  rw [hulp, roundHalfEven_eq_of_abs_lt hM]

theorem ofNat_of_le {n : ℕ} (h : n ≤ 2 ^ 53) : F64.ofNat n = n := by
  unfold F64.ofNat
  apply round_of_rep
  rcases eq_or_lt_of_le h with heq | hlt
  · refine ⟨2 ^ 52, 1, by norm_num, by norm_num, ?_⟩
    rw [heq]
    norm_num
  · refine ⟨n, 0, ?_, by norm_num, by simp⟩
    rw [abs_of_nonneg (by positivity)]
    exact_mod_cast hlt

theorem MinPartialCollectEfficacy_eq :
    MinPartialCollectEfficacy = 7205759403792794 / 72057594037927936 := by
  unfold MinPartialCollectEfficacy
  rw [round_eq (-56) 7205759403792794 (by norm_num) (by norm_num) (by norm_num)
    (by rw [abs_lt]; constructor <;> norm_num)]
  norm_num

end F64

theorem F64.round_one : F64.round 1 = 1 := by
  apply F64.round_of_rep
  exact ⟨1, 0, by norm_num, by norm_num, by norm_num⟩

theorem F64.ofNat_zero : F64.ofNat 0 = 0 := by
  unfold F64.ofNat
  rw [Nat.cast_zero, F64.round_zero]

theorem F64.toSizeT_zero : F64.toSizeT 0 = 0 := by
  unfold F64.toSizeT
  rw [Int.floor_zero, Int.toNat_zero]
  exact Nat.zero_mod _

theorem F64.mul_zero_right (x : Double) : F64.mul x 0 = 0 := by
  unfold F64.mul
  rw [mul_zero, F64.round_zero]

theorem F64.mul_zero_left (x : Double) : F64.mul 0 x = 0 := by
  unfold F64.mul
  rw [zero_mul, F64.round_zero]

theorem F64.sub_same (x : Double) : F64.sub x x = 0 := by
  unfold F64.sub
  rw [sub_self, F64.round_zero]

theorem F64.one_sub_zero : F64.sub 1 0 = 1 := by
  unfold F64.sub
  rw [sub_zero, F64.round_one]

theorem F64.div_zero_left (x : Double) : F64.div 0 x = 0 := by
  unfold F64.div
  rw [zero_div, F64.round_zero]

theorem F64.zero_add_one : F64.add 0 1 = 1 := by
  unfold F64.add
  rw [zero_add, F64.round_one]

theorem F64.zero_add_zero : F64.add 0 0 = 0 := by
  unfold F64.add
  rw [add_zero, F64.round_zero]

theorem MinPartialCollectEfficacy_lt_one : MinPartialCollectEfficacy < 1 := by
  rw [F64.MinPartialCollectEfficacy_eq]
  norm_num

/-- An exact ratio below one tenth, on at most `2 ^ 53` allocated bytes, is an efficacy below
`MinPartialCollectEfficacy` for the source as well. -/
theorem collectEfficacyOf_lt_of_ratio_lt {freedBytes allocBytes : ℕ} (hpos : 0 < allocBytes)
    (hle : allocBytes ≤ 2 ^ 53) (hlow : (freedBytes : ℚ) / allocBytes < 1 / 10) :
    collectEfficacyOf freedBytes allocBytes < MinPartialCollectEfficacy := by
  have ha : (0 : ℚ) < allocBytes := by exact_mod_cast hpos
  have h10 : 10 * freedBytes < allocBytes := by
    rw [div_lt_iff₀ ha] at hlow
    have : (10 : ℚ) * freedBytes < allocBytes := by linarith
    exact_mod_cast this
  have hf : freedBytes ≤ 2 ^ 53 := by omega
  unfold collectEfficacyOf F64.div
  rw [F64.ofNat_of_le hf, F64.ofNat_of_le hle, F64.MinPartialCollectEfficacy_eq]
  have hrep : F64.Rep (7205759403792793 / 72057594037927936) :=
    ⟨7205759403792793, -56, by norm_num, by norm_num, by norm_num⟩
  have hx : (freedBytes : ℚ) / allocBytes ≤ 7205759403792793 / 72057594037927936 := by
    rw [div_le_div_iff₀ ha (by norm_num)]
    have : freedBytes * 72057594037927936 ≤ 7205759403792793 * allocBytes := by omega
    exact_mod_cast this
  rcases Nat.eq_zero_or_pos freedBytes with h0 | hfpos
  · rw [h0]
    simp only [Nat.cast_zero, zero_div, F64.round_zero]
    norm_num
  · have hxpos : (0 : ℚ) < (freedBytes : ℚ) / allocBytes :=
      div_pos (by exact_mod_cast hfpos) ha
    have := F64.round_le_of_le_rep hxpos hx hrep
    refine lt_of_le_of_lt this ?_
    norm_num

/-- An efficacy below `MinPartialCollectEfficacy` comes from fewer freed than allocated
bytes. -/
theorem freed_le_of_collectEfficacyOf_lt {freedBytes allocBytes : ℕ} (hpos : 0 < allocBytes)
    (hlow : collectEfficacyOf freedBytes allocBytes < MinPartialCollectEfficacy) :
    freedBytes ≤ allocBytes := by
  by_contra hcon
  push_neg at hcon
  have ha : (1 : ℚ) ≤ allocBytes := by exact_mod_cast hpos
  have h1 : (1 : ℚ) ≤ F64.ofNat allocBytes := by
    have := F64.round_mono (by norm_num : (0 : ℚ) ≤ 1) ha
    rwa [F64.round_one] at this
  have h2 : F64.ofNat allocBytes ≤ F64.ofNat freedBytes :=
    F64.round_mono (by positivity) (by exact_mod_cast le_of_lt hcon)
  have h3 : (1 : ℚ) ≤ F64.ofNat freedBytes / F64.ofNat allocBytes := by
    rw [le_div_iff₀ (by linarith)]
    linarith
  have h4 : (1 : ℚ) ≤ collectEfficacyOf freedBytes allocBytes := by
    have := F64.round_mono (by norm_num : (0 : ℚ) ≤ 1) h3
    rwa [F64.round_one] at this
  have := MinPartialCollectEfficacy_lt_one
  linarith

/-- The stages after the page reuse heuristics do not write to the session. -/
theorem adjustAfterEfficacy_session {cfg : RecyclerHeuristic} {r r' : Recycler}
    {s s' : RecyclerSweep} {e : Double} {b : Bool}
    (h : adjustAfterEfficacy cfg r s e = .ok (b, r', s')) : s' = s := by
  unfold adjustAfterEfficacy at h
  split at h
  · simp only [Except.ok.injEq, Prod.mk.injEq] at h
    exact h.2.2.symm
  · split at h
    · cases h
    · simp only [Except.ok.injEq, Prod.mk.injEq] at h
      exact h.2.2.symm
    · unfold thresholdStage at h
      simp only [] at h
      split_ifs at h <;>
        simp only [Except.ok.injEq, Prod.mk.injEq] at h <;> exact h.2.2.symm

/-- The entry assertions of `AdjustPartialHeuristics` pass under its precondition. -/
theorem AdjustPartialHeuristics_eq_of_pre (cfg : RecyclerHeuristic) (r : Recycler)
    (s : RecyclerSweep) (hpre : AdjustPartialHeuristicsPre r s) :
    AdjustPartialHeuristics cfg r s =
      match collectEfficacyStage cfg r s with
      | .error n => .error n
      | .ok none => .ok (false, r, s)
      | .ok (some (collectEfficacy, s1)) => adjustAfterEfficacy cfg r s1 collectEfficacy := by
  obtain ⟨h1, h2, h3, h4, h5⟩ := hpre
  unfold AdjustPartialHeuristics
  have h3' : (InPartialCollect s || r.autoHeap.unusedPartialCollectFreeBytes == 0) = true := by
    rcases h3 with h | h <;> simp [h]
  have h4' : ¬ s.rescanRootBytes > MaxPartialCollectRescanRootBytes := by omega
  have h5' : ¬ r.autoHeap.unusedPartialCollectFreeBytes > MaxUnusedPartialCollectFreeBytes := by
    omega
  simp only [h1, h2, h3', h4', h5', Bool.not_true, Bool.false_eq_true, if_false]

/-- C2. Efficacy floor: for a session in partial collect mode whose allocated bytes of this
cycle are above zero and at most `2 ^ 53` (more than any process can hold), and whose freed
bytes satisfy `freedBytes / allocBytes < 0.10` as an exact ratio, `AdjustPartialHeuristics`
returns false, and leaves collector and session as they were. -/
theorem AdjustPartialHeuristics_efficacy_floor (cfg : RecyclerHeuristic) (r : Recycler)
    (s : RecyclerSweep) (allocBytes freedBytes : ℕ) (hpre : AdjustPartialHeuristicsPre r s)
    (halloc : GetNewObjectAllocBytes r s = .ok allocBytes)
    (hfreed : GetNewObjectFreeBytes r s = .ok freedBytes)
    (hpos : 0 < allocBytes) (hfits : allocBytes ≤ 2 ^ 53)
    (hlow : (freedBytes : ℚ) / allocBytes < 1 / 10) :
    AdjustPartialHeuristics cfg r s = .ok (false, r, s) := by
  have hlt : collectEfficacyOf freedBytes allocBytes < MinPartialCollectEfficacy :=
    collectEfficacyOf_lt_of_ratio_lt hpos hfits hlow
  have hle : ¬ allocBytes < freedBytes := by
    have := freed_le_of_collectEfficacyOf_lt hpos hlt
    omega
  rw [AdjustPartialHeuristics_eq_of_pre cfg r s hpre]
  unfold collectEfficacyStage
  rw [halloc, hfreed]
  simp only [Nat.pos_iff_ne_zero.1 hpos, if_false, hle, hlt, if_true]

/-- C3. Zero allocation cycle: when `GetNewObjectAllocBytes()` is zero, the page reuse
heuristics take the efficacy to be `1.0` and write zero to
`partialCollectSmallHeapBlockReuseMinFreeBytes`; the rest of `AdjustPartialHeuristics` runs with
that efficacy, and whatever it returns, the session it leaves is the entry session with that
field zero. Neither the freed bytes nor `reuseHeapBlockCount` enter. -/
theorem AdjustPartialHeuristics_zero_alloc (cfg : RecyclerHeuristic) (r : Recycler)
    (s : RecyclerSweep) (hpre : AdjustPartialHeuristicsPre r s)
    (halloc : GetNewObjectAllocBytes r s = .ok 0) :
    collectEfficacyStage cfg r s =
      .ok (some (1, { s with partialCollectSmallHeapBlockReuseMinFreeBytes := 0 })) ∧
    AdjustPartialHeuristics cfg r s =
      adjustAfterEfficacy cfg r { s with partialCollectSmallHeapBlockReuseMinFreeBytes := 0 } 1 ∧
    ∀ b r' s', AdjustPartialHeuristics cfg r s = .ok (b, r', s') →
      s' = { s with partialCollectSmallHeapBlockReuseMinFreeBytes := 0 } ∧
      s'.partialCollectSmallHeapBlockReuseMinFreeBytes = 0 := by
  have hstage : collectEfficacyStage cfg r s =
      .ok (some (1, { s with partialCollectSmallHeapBlockReuseMinFreeBytes := 0 })) := by
    unfold collectEfficacyStage
    rw [halloc]
    simp
  have hadj : AdjustPartialHeuristics cfg r s =
      adjustAfterEfficacy cfg r
        { s with partialCollectSmallHeapBlockReuseMinFreeBytes := 0 } 1 := by
    rw [AdjustPartialHeuristics_eq_of_pre cfg r s hpre, hstage]
  refine ⟨hstage, hadj, ?_⟩
  intro b r' s' h
  rw [hadj] at h
  have := adjustAfterEfficacy_session h
  rw [this]
  exact ⟨rfl, rfl⟩

theorem collectEfficacyOf_floorExample :
    collectEfficacyOf (10 ^ 16) (10 ^ 17 + 1) = MinPartialCollectEfficacy := by
  have h1 : F64.ofNat (10 ^ 16) = 10 ^ 16 := by
    unfold F64.ofNat
    apply F64.round_of_rep
    exact ⟨152587890625, 16, by norm_num, by norm_num, by norm_num⟩
  have h2 : F64.ofNat (10 ^ 17 + 1) = 10 ^ 17 := by
    unfold F64.ofNat
    rw [F64.round_eq 4 6250000000000000 (by norm_num) (by norm_num) (by norm_num)
      (by rw [abs_lt]; constructor <;> norm_num)]
    norm_num
  unfold collectEfficacyOf F64.div MinPartialCollectEfficacy
  rw [h1, h2]
  norm_num

theorem floorExample_alloc :
    GetNewObjectAllocBytes floorRecycler floorSweep = .ok (10 ^ 17 + 1) := by
  simp [GetNewObjectAllocBytes, floorRecycler, floorSweep, RecyclerSweep.zero, Recycler.idle]

theorem floorExample_freed :
    GetNewObjectFreeBytes floorRecycler floorSweep = .ok (10 ^ 16) := by
  simp [GetNewObjectFreeBytes, floorRecycler, floorSweep, RecyclerSweep.zero, Recycler.idle]

theorem floorExample_pre : AdjustPartialHeuristicsPre floorRecycler floorSweep := by
  simp [AdjustPartialHeuristicsPre, floorRecycler, floorSweep, RecyclerSweep.zero, Recycler.idle,
    HeapInfo.empty, InPartialCollect, MaxPartialCollectRescanRootBytes,
    MaxUnusedPartialCollectFreeBytes]

/-- At a computed efficacy equal to `MinPartialCollectEfficacy` the floor does not reject: the
rescaled efficacy is zero and so is the reuse threshold. -/
theorem collectEfficacyStage_at_floor (cfg : RecyclerHeuristic) (r : Recycler)
    (s : RecyclerSweep) (allocBytes freedBytes : ℕ)
    (halloc : GetNewObjectAllocBytes r s = .ok allocBytes)
    (hfreed : GetNewObjectFreeBytes r s = .ok freedBytes)
    (hpos : allocBytes ≠ 0) (hle : ¬ allocBytes < freedBytes)
    (heq : collectEfficacyOf freedBytes allocBytes = MinPartialCollectEfficacy) :
    collectEfficacyStage cfg r s =
      .ok (some (0, { s with partialCollectSmallHeapBlockReuseMinFreeBytes := 0 })) := by
  have h5 : ¬ ((1 : ℚ) < 0) := by norm_num
  unfold collectEfficacyStage
  rw [halloc, hfreed]
  simp only [heq, lt_irrefl, if_false, hpos, hle, F64.sub_same, F64.div_zero_left, h5,
    F64.mul_zero_right, F64.toSizeT_zero]

/-- `AdjustPartialHeuristics` continues with what the page reuse heuristics return. -/
theorem AdjustPartialHeuristics_of_stage (cfg : RecyclerHeuristic) (r : Recycler)
    (s s1 : RecyclerSweep) (e : Double) (hpre : AdjustPartialHeuristicsPre r s)
    (hstage : collectEfficacyStage cfg r s = .ok (some (e, s1))) :
    AdjustPartialHeuristics cfg r s = adjustAfterEfficacy cfg r s1 e := by
  rw [AdjustPartialHeuristics_eq_of_pre cfg r s hpre, hstage]

/-- `adjustAfterEfficacy` ends in the threshold stage when the two stages before it pass. -/
theorem adjustAfterEfficacy_of_stages (cfg : RecyclerHeuristic) (r : Recycler)
    (s : RecyclerSweep) (e ratio : Double) (n : ℕ) (hrescan : rescanStage cfg s e = some n)
    (hratio : ratioStage cfg r s e n = .ok (some ratio)) :
    adjustAfterEfficacy cfg r s e = thresholdStage cfg r s e ratio := by
  unfold adjustAfterEfficacy
  rw [hrescan]
  simp only [hratio]

/-- With no block to reuse, the rescan recheck keeps the rescan estimate of the session. -/
theorem rescanStage_of_no_reuse (cfg : RecyclerHeuristic) (s : RecyclerSweep) (e : Double)
    (hcount : s.reuseHeapBlockCount = 0)
    (hrescan : s.rescanRootBytes ≤ MaxPartialCollectRescanRootBytes) :
    rescanStage cfg s e = some s.rescanRootBytes := by
  have hgt : ¬ s.rescanRootBytes > MaxPartialCollectRescanRootBytes := by omega
  simp only [rescanStage, hcount, F64.ofNat_zero, F64.mul_zero_left, F64.toSizeT_zero,
    Nat.zero_mul, Nat.zero_mod, Nat.max_zero, hgt, if_false]

/-- A session that entered partial collect mode in this cycle, with nothing to rescan and
efficacy zero, gets the ratio one. -/
theorem ratioStage_fresh_zero (cfg : RecyclerHeuristic) (r : Recycler) (s : RecyclerSweep)
    (hfresh : InPartialCollect s = false) :
    ratioStage cfg r s 0 0 = .ok (some 1) := by
  have h01 : (0 : ℚ) ≤ 1 ∧ (1 : ℚ) ≤ 1 := ⟨by norm_num, le_refl _⟩
  simp only [ratioStage, hfresh, F64.ofNat_zero, F64.div_zero_left, F64.mul_zero_left,
    F64.one_sub_zero, F64.zero_add_one, Bool.false_eq_true, if_false, ratioAssert, h01,
    and_self, if_true]

/-- The last stage when the configured new page ceiling equals the floor and nothing is
expected to be reused: the threshold is the floor, and the call returns true when the projected
total stays below the full collect ceiling. -/
theorem thresholdStage_of_floor (cfg : RecyclerHeuristic) (r : Recycler) (s : RecyclerSweep)
    (e ratio : Double)
    (hmax : cfg.MaxPartialUncollectedNewPageCount = MinPartialUncollectedNewPageCount cfg)
    (hmin : MinPartialUncollectedNewPageCount cfg < SizeTModulus)
    (hreuse : s.reuseByteCount = 0)
    (hsum : (MinPartialUncollectedNewPageCount cfg * cfg.PageSize
      + s.nextPartialUncollectedAllocBytes) % SizeTModulus <
        cfg.MaxUncollectedAllocBytesPartialCollect) :
    thresholdStage cfg r s e ratio =
      .ok (true,
        { r with
          uncollectedNewPageCountPartialCollect := MinPartialUncollectedNewPageCount cfg
          partialConcurrentNextCollection := cfg.PartialConcurrentNextCollection ratio }, s) := by
  have hrange : (MinPartialUncollectedNewPageCount cfg + SizeTModulus -
      MinPartialUncollectedNewPageCount cfg) % SizeTModulus = 0 := by
    rw [Nat.add_sub_cancel_left, Nat.mod_self]
  have hadd : sizeAdd (MinPartialUncollectedNewPageCount cfg) 0 =
      MinPartialUncollectedNewPageCount cfg := by
    unfold sizeAdd
    rw [Nat.add_zero, Nat.mod_eq_of_lt hmin]
  simp only [thresholdStage, hmax, hrange, F64.ofNat_zero, F64.mul_zero_left, F64.toSizeT_zero,
    hadd, hreuse, Nat.add_zero, ge_iff_le, le_refl, decide_True, Bool.and_self, Bool.not_true,
    Bool.false_eq_true, if_false, not_le.2 hsum]

/-- The bound of `2 ^ 53` allocated bytes is where the conversion to `double` stops being exact.
Beyond it, with `10 ^ 17 + 1` bytes allocated and `10 ^ 16` freed, the exact ratio is below one
tenth, but `(double)(10 ^ 17 + 1)` is `1e17`, the computed efficacy is exactly the constant
`0.1`, the floor on line 684 does not reject, and the call returns true. -/
theorem AdjustPartialHeuristics_floor_beyond_exact_doubles :
    GetNewObjectAllocBytes floorRecycler floorSweep = .ok (10 ^ 17 + 1) ∧
    GetNewObjectFreeBytes floorRecycler floorSweep = .ok (10 ^ 16) ∧
    ((10 ^ 16 : ℕ) : ℚ) / ((10 ^ 17 + 1 : ℕ) : ℚ) < 1 / 10 ∧
    ∃ r', AdjustPartialHeuristics floorCfg floorRecycler floorSweep =
      .ok (true, r', floorSweep) := by
  refine ⟨floorExample_alloc, floorExample_freed, by norm_num, ?_⟩
  have hstage := collectEfficacyStage_at_floor floorCfg floorRecycler floorSweep
    (10 ^ 17 + 1) (10 ^ 16) floorExample_alloc floorExample_freed (by norm_num) (by norm_num)
    collectEfficacyOf_floorExample
  have hrescan := rescanStage_of_no_reuse floorCfg floorSweep 0 rfl (Nat.zero_le _)
  have hratio := ratioStage_fresh_zero floorCfg floorRecycler floorSweep rfl
  have hmin : MinPartialUncollectedNewPageCount floorCfg = 1024 := by
    show 4 * 1024 * 1024 / 4096 = 1024
    norm_num
  have hthreshold := thresholdStage_of_floor floorCfg floorRecycler floorSweep 0 1
    hmin.symm (by rw [hmin]; unfold SizeTModulus; norm_num) rfl
    (by
      rw [hmin]
      show (1024 * 4096 + (9 * 10 ^ 16 + 1)) % SizeTModulus < 2 ^ 63
      unfold SizeTModulus
      norm_num)
  have hs1 : ({ floorSweep with partialCollectSmallHeapBlockReuseMinFreeBytes := 0 } :
      RecyclerSweep) = floorSweep := rfl
  rw [hs1] at hstage
  rw [show floorSweep.rescanRootBytes = 0 from rfl] at hrescan
  exact ⟨_, (AdjustPartialHeuristics_of_stage _ _ _ _ _ floorExample_pre hstage).trans
    ((adjustAfterEfficacy_of_stages _ _ _ _ _ _ hrescan hratio).trans hthreshold)⟩

/-- Witness for C2: one million bytes allocated, 99999 of them freed. -/
theorem AdjustPartialHeuristics_efficacy_floor_witness :
    AdjustPartialHeuristics floorCfg
      { floorRecycler with partialUncollectedAllocBytes := 1000000 }
      { floorSweep with nextPartialUncollectedAllocBytes := 900001 } =
        .ok (false, { floorRecycler with partialUncollectedAllocBytes := 1000000 },
          { floorSweep with nextPartialUncollectedAllocBytes := 900001 }) :=
  AdjustPartialHeuristics_efficacy_floor floorCfg
    { floorRecycler with partialUncollectedAllocBytes := 1000000 }
    { floorSweep with nextPartialUncollectedAllocBytes := 900001 } 1000000 99999
    (by simp [AdjustPartialHeuristicsPre, floorRecycler, floorSweep, RecyclerSweep.zero,
      Recycler.idle, HeapInfo.empty, InPartialCollect, MaxPartialCollectRescanRootBytes,
      MaxUnusedPartialCollectFreeBytes])
    (by simp [GetNewObjectAllocBytes, floorRecycler, floorSweep, RecyclerSweep.zero,
      Recycler.idle])
    (by simp [GetNewObjectFreeBytes, floorRecycler, floorSweep, RecyclerSweep.zero,
      Recycler.idle])
    (by norm_num) (by norm_num) (by norm_num)

/-- At efficacy one no block counts as reused: the rescan recheck keeps the rescan estimate of
the session. -/
theorem rescanStage_of_full_efficacy (cfg : RecyclerHeuristic) (s : RecyclerSweep)
    (hrescan : s.rescanRootBytes ≤ MaxPartialCollectRescanRootBytes) :
    rescanStage cfg s 1 = some s.rescanRootBytes := by
  have hgt : ¬ s.rescanRootBytes > MaxPartialCollectRescanRootBytes := by omega
  simp only [rescanStage, F64.sub_same, F64.mul_zero_right, F64.toSizeT_zero,
    Nat.zero_mul, Nat.zero_mod, Nat.max_zero, hgt, if_false]

/-- A session that entered partial collect mode in this cycle, with nothing to rescan and
efficacy one, gets the ratio zero. -/
theorem ratioStage_fresh_full (cfg : RecyclerHeuristic) (r : Recycler) (s : RecyclerSweep)
    (hfresh : InPartialCollect s = false) :
    ratioStage cfg r s 1 0 = .ok (some 0) := by
  have h01 : (0 : ℚ) ≤ 0 ∧ (0 : ℚ) ≤ 1 := ⟨le_refl _, by norm_num⟩
  simp only [ratioStage, hfresh, F64.ofNat_zero, F64.div_zero_left, F64.mul_zero_left,
    F64.sub_same, F64.zero_add_zero, Bool.false_eq_true, if_false, ratioAssert, h01,
    and_self, if_true]

theorem zeroAllocExample_returns :
    ∃ r', adjustAfterEfficacy floorCfg zeroAllocRecycler
      { zeroAllocSweep with partialCollectSmallHeapBlockReuseMinFreeBytes := 0 } 1 =
        .ok (true, r', zeroAllocSweep) := by
  have hs1 : ({ zeroAllocSweep with partialCollectSmallHeapBlockReuseMinFreeBytes := 0 } :
      RecyclerSweep) = zeroAllocSweep := rfl
  rw [hs1]
  have hrescan := rescanStage_of_full_efficacy floorCfg zeroAllocSweep (Nat.zero_le _)
  rw [show zeroAllocSweep.rescanRootBytes = 0 from rfl] at hrescan
  have hratio := ratioStage_fresh_full floorCfg zeroAllocRecycler zeroAllocSweep rfl
  have hmin : MinPartialUncollectedNewPageCount floorCfg = 1024 := by
    show 4 * 1024 * 1024 / 4096 = 1024
    norm_num
  have hthreshold := thresholdStage_of_floor floorCfg zeroAllocRecycler zeroAllocSweep 1 0
    hmin.symm (by rw [hmin]; unfold SizeTModulus; norm_num) rfl
    (by
      rw [hmin]
      show (1024 * 4096 + 500) % SizeTModulus < 2 ^ 63
      unfold SizeTModulus
      norm_num)
  exact ⟨_, (adjustAfterEfficacy_of_stages _ _ _ _ _ _ hrescan hratio).trans hthreshold⟩

theorem zeroAllocExample_pre : AdjustPartialHeuristicsPre zeroAllocRecycler zeroAllocSweep := by
  simp [AdjustPartialHeuristicsPre, zeroAllocRecycler, zeroAllocSweep, floorRecycler, floorSweep,
    RecyclerSweep.zero, Recycler.idle, HeapInfo.empty, InPartialCollect,
    MaxPartialCollectRescanRootBytes, MaxUnusedPartialCollectFreeBytes]

theorem zeroAllocExample_alloc :
    GetNewObjectAllocBytes zeroAllocRecycler zeroAllocSweep = .ok 0 := by
  simp [GetNewObjectAllocBytes, zeroAllocRecycler, zeroAllocSweep, floorRecycler, floorSweep,
    RecyclerSweep.zero, Recycler.idle]

/-- Witness for C3: a session with 500 partial uncollected bytes, all of them from the previous
cycle, and 7 blocks to reuse; the call returns true with the reuse threshold zero. -/
theorem AdjustPartialHeuristics_zero_alloc_witness :
    collectEfficacyStage floorCfg zeroAllocRecycler zeroAllocSweep =
      .ok (some (1,
        { zeroAllocSweep with partialCollectSmallHeapBlockReuseMinFreeBytes := 0 })) ∧
    ∃ r', AdjustPartialHeuristics floorCfg zeroAllocRecycler zeroAllocSweep =
      .ok (true, r', zeroAllocSweep) :=
  ⟨(AdjustPartialHeuristics_zero_alloc floorCfg zeroAllocRecycler zeroAllocSweep
      zeroAllocExample_pre zeroAllocExample_alloc).1,
    zeroAllocExample_returns.imp fun _ h =>
      (AdjustPartialHeuristics_zero_alloc floorCfg zeroAllocRecycler zeroAllocSweep
        zeroAllocExample_pre zeroAllocExample_alloc).2.1.trans h⟩

theorem GetData_SetData (s : RecyclerSweep) (t t' : BlockType) (d : Data) :
    GetData (SetData s t d) t' = if t' = t then d else GetData s t' := by
  cases t <;> cases t' <;> rfl

theorem newHeapBlockList_setNewHeapBlockList (h : HeapInfo) (t t' : BlockType)
    (l : HeapBlockList) :
    (h.setNewHeapBlockList t l).newHeapBlockList t' =
      if t' = t then l else h.newHeapBlockList t' := by
  cases t <;> cases t' <;> rfl

theorem foldl_call_autoHeap (f : Ptr → Collaborator) (l : List Ptr) (r : Recycler) :
    (l.foldl (fun r1 b => r1.call (f b)) r).autoHeap = r.autoHeap := by
  induction l generalizing r with
  | nil => rfl
  | cons b l ih => rw [List.foldl_cons, ih]; rfl

theorem collectEfficacyStage_frame {cfg : RecyclerHeuristic} {r : Recycler}
    {s s1 : RecyclerSweep} {e : Double}
    (h : collectEfficacyStage cfg r s = .ok (some (e, s1))) :
    ∀ t, GetData s1 t = GetData s t := by
  have key : ∀ (x : Double) (v : ℕ),
      Except.ok (some (x, { s with partialCollectSmallHeapBlockReuseMinFreeBytes := v })) =
        (Except.ok (some (e, s1)) : Except ℕ (Option (Double × RecyclerSweep))) →
      ∀ t, GetData s1 t = GetData s t := by
    intro x v hx
    simp only [Except.ok.injEq, Option.some.injEq, Prod.mk.injEq] at hx
    obtain ⟨-, rfl⟩ := hx
    intro t
    cases t <;> rfl
  unfold collectEfficacyStage at h
  simp only [] at h
  split at h
  · cases h
  · split_ifs at h
    · exact key _ _ h
    · split at h
      · cases h
      · split_ifs at h
        all_goals first | exact key _ _ h | cases h

theorem thresholdStage_frame {cfg : RecyclerHeuristic} {r r' : Recycler}
    {s s' : RecyclerSweep} {e ratio : Double} {b : Bool}
    (h : thresholdStage cfg r s e ratio = .ok (b, r', s')) :
    r'.autoHeap = r.autoHeap ∧ s' = s := by
  unfold thresholdStage at h
  simp only [] at h
  split_ifs at h <;> simp only [Except.ok.injEq, Prod.mk.injEq] at h <;>
    obtain ⟨-, rfl, rfl⟩ := h <;> exact ⟨rfl, rfl⟩

theorem adjustAfterEfficacy_frame {cfg : RecyclerHeuristic} {r r' : Recycler}
    {s s' : RecyclerSweep} {e : Double} {b : Bool}
    (h : adjustAfterEfficacy cfg r s e = .ok (b, r', s')) :
    r'.autoHeap = r.autoHeap ∧ s' = s := by
  unfold adjustAfterEfficacy at h
  split at h
  · simp only [Except.ok.injEq, Prod.mk.injEq] at h
    obtain ⟨-, rfl, rfl⟩ := h
    exact ⟨rfl, rfl⟩
  · split at h
    · cases h
    · simp only [Except.ok.injEq, Prod.mk.injEq] at h
      obtain ⟨-, rfl, rfl⟩ := h
      exact ⟨rfl, rfl⟩
    · exact thresholdStage_frame h

/-- The stages of `AdjustPartialHeuristics` leave the heap and the records of the session
alone. -/
theorem AdjustPartialHeuristics_frame {cfg : RecyclerHeuristic} {r r' : Recycler}
    {s s' : RecyclerSweep} {b : Bool}
    (h : AdjustPartialHeuristics cfg r s = .ok (b, r', s')) :
    r'.autoHeap = r.autoHeap ∧ ∀ t, GetData s' t = GetData s t := by
  unfold AdjustPartialHeuristics at h
  split_ifs at h
  split at h
  · cases h
  · simp only [Except.ok.injEq, Prod.mk.injEq] at h
    obtain ⟨-, rfl, rfl⟩ := h
    exact ⟨rfl, fun _ => rfl⟩
  · rename_i e s1 hstage
    obtain ⟨h1, rfl⟩ := adjustAfterEfficacy_frame h
    exact ⟨h1, collectEfficacyStage_frame hstage⟩

/-- `FinishSweep` leaves the new heap block lists of the heap and the records of the session
alone. -/
theorem FinishSweep_frame {cfg : RecyclerHeuristic} {ww : WriteWatch} {this : Ptr}
    {r r' : Recycler} {s s' : RecyclerSweep}
    (h : FinishSweep cfg ww this r s = .ok (r', s')) :
    r'.autoHeap = r.autoHeap ∧ ∀ t, GetData s' t = GetData s t := by
  unfold FinishSweep at h
  split_ifs at h
  split at h
  · cases h
  · rename_i p hadj
    simp only [Except.ok.injEq, Prod.mk.injEq] at h
    obtain ⟨rfl, rfl⟩ := h
    unfold finishSweepAdjust at hadj
    split_ifs at hadj
    · split at hadj
      · cases hadj
      · rename_i r1 s1 hok
        obtain ⟨g1, g2⟩ := AdjustPartialHeuristics_frame hok
        simp only [Except.ok.injEq] at hadj
        subst hadj
        refine ⟨?_, g2⟩
        show (resetWriteWatch ww this _ s1).autoHeap = r.autoHeap
        unfold resetWriteWatch
        split_ifs <;> exact g1
      · rename_i r1 s1 hok
        obtain ⟨g1, g2⟩ := AdjustPartialHeuristics_frame hok
        split_ifs at hadj <;> simp only [Except.ok.injEq] at hadj <;> subst hadj <;>
          exact ⟨g1, g2⟩
    · simp only [Except.ok.injEq] at hadj
      subst hadj
      exact ⟨rfl, fun _ => rfl⟩

theorem SessionHolds_of_sameData {s s' : RecyclerSweep} {b : Ptr}
    (h : ∀ t, GetData s' t = GetData s t) (hb : SessionHolds s' b) : SessionHolds s b := by
  obtain ⟨t, ht⟩ := hb
  rw [h t] at ht
  exact ⟨t, ht⟩

/-- Merging a pending list takes blocks out of the session and leaves the heap alone. -/
theorem mergePending_frame (medium : Bool) (t : BlockType) (r : Recycler) (s : RecyclerSweep)
    (b : Ptr) :
    (mergePending medium t r s).1.autoHeap = r.autoHeap ∧
    (SessionHolds (mergePending medium t r s).2 b → SessionHolds s b) := by
  constructor
  · exact foldl_call_autoHeap _ _ _
  · rintro ⟨t', ht'⟩
    refine ⟨t', ?_⟩
    unfold mergePending at ht'
    simp only [GetData_SetData] at ht'
    by_cases htt : t' = t
    · rw [if_pos htt] at ht'
      subst htt
      rcases ht' with h | h
      · simp at h
      · exact Or.inr h
    · rw [if_neg htt] at ht'
      exact ht'

/-- No operation puts a block into the session, and none takes a block out of a new heap block
list of the heap. -/
theorem SessionOp.run_frame {this : Ptr} {op : SessionOp} {p q : Recycler × RecyclerSweep}
    (h : op.run this p = .ok q) (b : Ptr) :
    (SessionHolds q.2 b → SessionHolds p.2 b) ∧
    (∀ t, b ∈ p.1.autoHeap.newHeapBlockList t → b ∈ q.1.autoHeap.newHeapBlockList t) := by
  cases op with
  | addNewHeapBlock t' heapBlock =>
    simp only [SessionOp.run, Except.ok.injEq] at h
    subst h
    refine ⟨fun hb => hb, fun t hb => ?_⟩
    show b ∈ (p.1.autoHeap.setNewHeapBlockList t' _).newHeapBlockList t
    rw [newHeapBlockList_setNewHeapBlockList]
    split_ifs with htt
    · subst htt
      exact List.mem_cons_of_mem _ hb
    · exact hb
  | MergePendingNewHeapBlockList t' =>
    simp only [SessionOp.run, Except.ok.injEq] at h
    subst h
    obtain ⟨h1, h2⟩ := mergePending_frame false t' p.1 p.2 b
    refine ⟨h2, fun t hb => ?_⟩
    show b ∈ (mergePending false t' p.1 p.2).1.autoHeap.newHeapBlockList t
    rw [h1]
    exact hb
  | MergePendingNewMediumHeapBlockList t' =>
    simp only [SessionOp.run, Except.ok.injEq] at h
    subst h
    obtain ⟨h1, h2⟩ := mergePending_frame true t' p.1 p.2 b
    refine ⟨h2, fun t hb => ?_⟩
    show b ∈ (mergePending true t' p.1 p.2).1.autoHeap.newHeapBlockList t
    rw [h1]
    exact hb
  | FinishSweep cfg ww =>
    simp only [SessionOp.run] at h
    have hq : Memory.FinishSweep cfg ww this p.1 p.2 = .ok (q.1, q.2) := h
    obtain ⟨h1, h2⟩ := FinishSweep_frame hq
    refine ⟨SessionHolds_of_sameData h2, fun t hb => ?_⟩
    rw [h1]
    exact hb
  | EndSweep =>
    simp only [SessionOp.run, Except.ok.injEq] at h
    subst h
    refine ⟨fun hb => hb, fun t hb => ?_⟩
    have : (Memory.EndSweep p.1 p.2).autoHeap.newHeapBlockList t =
        p.1.autoHeap.newHeapBlockList t := by
      unfold Memory.EndSweep
      cases p.2.inPartialCollect <;> cases t <;> rfl
    rw [this]
    exact hb

theorem runOps_frame {this : Ptr} {ops : List SessionOp} {p q : Recycler × RecyclerSweep}
    (h : runOps this ops p = .ok q) (b : Ptr) :
    (SessionHolds q.2 b → SessionHolds p.2 b) ∧
    (∀ t, b ∈ p.1.autoHeap.newHeapBlockList t → b ∈ q.1.autoHeap.newHeapBlockList t) := by
  induction ops generalizing p with
  | nil =>
    simp only [runOps, Except.ok.injEq] at h
    subst h
    exact ⟨fun hb => hb, fun _ hb => hb⟩
  | cons op ops ih =>
    unfold runOps at h
    split at h
    · cases h
    · rename_i p' hop
      obtain ⟨a1, a2⟩ := SessionOp.run_frame hop b
      obtain ⟨b1, b2⟩ := ih h
      exact ⟨fun hb => a1 (b1 hb), fun t hb => b2 t (a2 t hb)⟩

theorem BeginSweep_SessionHolds {this recyclerPtr : Ptr} {r r' : Recycler} {s' : RecyclerSweep}
    {rescanRootBytes : ℕ} {adjust : Bool}
    (h : BeginSweep this recyclerPtr r rescanRootBytes adjust = .ok (r', s')) (b : Ptr)
    (hb : SessionHolds s' b) : ∃ t, b ∈ r.autoHeap.newHeapBlockList t := by
  obtain ⟨r'', s'', hbegin, -, -, -, h1, h2, h3, -⟩ :=
    BeginSweep_lists this recyclerPtr r rescanRootBytes adjust (BeginSweepPre_of_ok h)
  rw [h] at hbegin
  simp only [Except.ok.injEq, Prod.mk.injEq] at hbegin
  obtain ⟨rfl, rfl⟩ := hbegin
  obtain ⟨t, ht⟩ := hb
  rw [h1 t] at ht
  rcases ht with ht | ⟨i, ht⟩
  · exact ⟨t, ht⟩
  · rw [h2 t i, h3 t i] at ht
    simp at ht

/-- C7. No double sweep: a block that was in none of the new heap block lists of the collector
when `BeginSweep` was called, and that is added to one of them after `BeginSweep` has returned,
is at no later point a member of a list held by that session (pending merge, pending sweep or
pending empty, of any block type and bucket), whatever blocks are created and whichever of
`MergePendingNewHeapBlockList`, `MergePendingNewMediumHeapBlockList`, `FinishSweep` and
`EndSweep` run before and after, and it is still in that list of the collector. -/
theorem no_double_sweep (this recyclerPtr : Ptr) (r0 r1 : Recycler) (s1 : RecyclerSweep)
    (rescanRootBytes : ℕ) (adjust : Bool) (t : BlockType) (heapBlock : Ptr)
    (before after : List SessionOp) (p2 p3 : Recycler × RecyclerSweep)
    (hbegin : BeginSweep this recyclerPtr r0 rescanRootBytes adjust = .ok (r1, s1))
    (hfresh : ∀ t', heapBlock ∉ r0.autoHeap.newHeapBlockList t')
    (hbefore : runOps this before (r1, s1) = .ok p2)
    (hafter : runOps this after (p2.1.addNewHeapBlock t heapBlock, p2.2) = .ok p3) :
    ¬ SessionHolds p3.2 heapBlock ∧ heapBlock ∈ p3.1.autoHeap.newHeapBlockList t := by
  obtain ⟨a1, -⟩ := runOps_frame hbefore heapBlock
  obtain ⟨b1, b2⟩ := runOps_frame hafter heapBlock
  constructor
  · intro hholds
    obtain ⟨t', ht'⟩ := BeginSweep_SessionHolds hbegin heapBlock (a1 (b1 hholds))
    exact hfresh t' ht'
  · apply b2 t
    show heapBlock ∈ (p2.1.autoHeap.setNewHeapBlockList t _).newHeapBlockList t
    rw [newHeapBlockList_setNewHeapBlockList, if_pos rfl]
    exact List.mem_cons_self _ _

/-- Witness for C7: two leaf blocks are new at Begin; the session merges them, block 99 is
created, and the session merges again, finishes and ends. -/
theorem no_double_sweep_witness :
    ∃ r1 s1 p2 p3,
      BeginSweep 1 2 (Recycler.idle { HeapInfo.empty with newLeafHeapBlockList := [10, 11] })
        (6 * 1024 * 1024) false = .ok (r1, s1) ∧
      runOps 1 [SessionOp.MergePendingNewHeapBlockList BlockType.SmallLeafHeapBlock] (r1, s1) =
        .ok p2 ∧
      runOps 1
        [SessionOp.MergePendingNewHeapBlockList BlockType.SmallLeafHeapBlock,
          SessionOp.FinishSweep floorCfg ⟨false, true, true⟩, SessionOp.EndSweep]
        (p2.1.addNewHeapBlock BlockType.SmallLeafHeapBlock 99, p2.2) = .ok p3 ∧
      ¬ SessionHolds p3.2 99 ∧
      99 ∈ p3.1.autoHeap.newHeapBlockList BlockType.SmallLeafHeapBlock := by
  refine ⟨_, _, _, _, rfl, rfl, rfl, ?_⟩
  exact no_double_sweep 1 2
    (Recycler.idle { HeapInfo.empty with newLeafHeapBlockList := [10, 11] }) _ _
    (6 * 1024 * 1024) false BlockType.SmallLeafHeapBlock 99
    [SessionOp.MergePendingNewHeapBlockList BlockType.SmallLeafHeapBlock]
    [SessionOp.MergePendingNewHeapBlockList BlockType.SmallLeafHeapBlock,
      SessionOp.FinishSweep floorCfg ⟨false, true, true⟩, SessionOp.EndSweep] _ _
    rfl (by intro t'; cases t' <;> decide) rfl rfl

/-- One operation of partial collect mode that meets its side condition does not lower
`partialUncollectedAllocBytes`. -/
theorem PartialOp.run_mono {op : PartialOp} {p q : Recycler × RecyclerSweep}
    (h : op.run p = .ok q) (hk : op.keepsPartialMode p) :
    p.1.partialUncollectedAllocBytes ≤ q.1.partialUncollectedAllocBytes := by
  cases op with
  | BeginSweep this recyclerPtr rescanRootBytes adjust =>
    have h' : Memory.BeginSweep this recyclerPtr p.1 rescanRootBytes adjust = .ok q := h
    have hpre := BeginSweepPre_of_ok h'
    obtain ⟨he, hu, hr⟩ := hk
    obtain ⟨r', s', hb, -, hpart, -⟩ :=
      BeginSweep_approve this recyclerPtr p.1 rescanRootBytes adjust hpre he hu hr
    rw [hb] at h'
    simp only [Except.ok.injEq] at h'
    subst h'
    show _ ≤ r'.partialUncollectedAllocBytes
    rw [hpart]
    cases hm : p.1.inPartialCollectMode
    · rcases hpre.2.2.2.2.1 with h0 | h0
      · rw [h0]; exact Nat.zero_le _
      · rw [hm] at h0; cases h0
    · simpa using hpre.2.2.2.2.2
  | AddUnaccountedNewObjectAllocBytes heapBlock =>
    have hk' : p.1.partialUncollectedAllocBytes + heapBlock.unaccountedAllocBytes <
        SizeTModulus := hk
    simp only [PartialOp.run, Memory.AddUnaccountedNewObjectAllocBytes,
      SmallHeapBlock.GetAndClearUnaccountedAllocBytes] at h
    split_ifs at h with h1 h2
    · simp only [Except.ok.injEq] at h
      subst h
      show _ ≤ sizeAdd _ _
      unfold sizeAdd
      rw [Nat.mod_eq_of_lt hk']
      exact Nat.le_add_right _ _
    · simp only [Except.ok.injEq] at h
      subst h
      exact le_refl _
  | SubtractSweepNewObjectAllocBytes n =>
    simp only [PartialOp.run, Memory.SubtractSweepNewObjectAllocBytes] at h
    split_ifs at h
    simp only [Except.ok.injEq] at h
    subst h
    exact le_refl _
  | NotifyAllocableObjects heapBlock =>
    simp only [PartialOp.run, Except.ok.injEq] at h
    subst h
    exact le_refl _
  | EndSweep =>
    simp only [PartialOp.run, Except.ok.injEq] at h
    subst h
    simp only [Memory.EndSweep, Recycler.call]
    split_ifs <;> exact le_refl _

/-- C11. Monotonic uncollected bytes: across every sequence of `BeginSweep` on which
`DoPartialCollectMode` approves, `AddUnaccountedNewObjectAllocBytes` whose sum fits a `size_t`,
`SubtractSweepNewObjectAllocBytes`, `NotifyAllocableObjects` and `EndSweep` that runs without a
failed assertion, the collector's `partialUncollectedAllocBytes` at the end is not below its
value at the start. The counter is a natural number and none of these operations subtracts from
it; `FinishSweep` is not among them. -/
theorem partialUncollectedAllocBytes_mono (ops : List PartialOp)
    (p q : Recycler × RecyclerSweep) (hrun : runPartialOps ops p = .ok q)
    (hkeep : partialOpsKeepMode ops p) :
    p.1.partialUncollectedAllocBytes ≤ q.1.partialUncollectedAllocBytes := by
  induction ops generalizing p with
  | nil =>
    simp only [runPartialOps, Except.ok.injEq] at hrun
    subst hrun
    exact le_refl _
  | cons op ops ih =>
    simp only [runPartialOps] at hrun
    obtain ⟨hk, hrest⟩ := hkeep
    cases hop : op.run p with
    | error n => rw [hop] at hrun; cases hrun
    | ok p1 =>
      rw [hop] at hrun hrest
      exact le_trans (PartialOp.run_mono hop hk) (ih p1 hrun hrest)

/-- The example cycle runs without a failed assertion and ends with 160 partial uncollected
bytes. -/
theorem monotoneOps_run :
    ∃ q, runPartialOps monotoneOps (monotoneRecycler, RecyclerSweep.zero) = .ok q ∧
      q.1.partialUncollectedAllocBytes = 160 ∧ q.2.nextPartialUncollectedAllocBytes = 157 := by
  refine ⟨_, rfl, ?_, ?_⟩
  · rfl
  · rfl

/-- Every operation of the example cycle meets its side condition. -/
theorem monotoneOps_keep :
    partialOpsKeepMode monotoneOps (monotoneRecycler, RecyclerSweep.zero) := by
  refine ⟨⟨rfl, by decide, by decide⟩, ?_⟩
  refine ⟨?_, ?_⟩
  · show 150 + 10 < SizeTModulus
    unfold SizeTModulus; norm_num
  refine ⟨trivial, trivial, trivial, trivial⟩

/-- Witness for C11: the example cycle takes the counter from 100 to 160. -/
theorem partialUncollectedAllocBytes_mono_witness :
    ∃ q, runPartialOps monotoneOps (monotoneRecycler, RecyclerSweep.zero) = .ok q ∧
      partialOpsKeepMode monotoneOps (monotoneRecycler, RecyclerSweep.zero) ∧
      q.1.partialUncollectedAllocBytes = 160 ∧
      monotoneRecycler.partialUncollectedAllocBytes ≤ q.1.partialUncollectedAllocBytes := by
  obtain ⟨q, hrun, hq, -⟩ := monotoneOps_run
  exact ⟨q, hrun, monotoneOps_keep, hq,
    partialUncollectedAllocBytes_mono monotoneOps (monotoneRecycler, RecyclerSweep.zero) q hrun
      monotoneOps_keep⟩

/-- What `StartPartialCollectMode` establishes when it returns: partial collect mode is on, the
collector's counter and the session's `nextPartialUncollectedAllocBytes` are equal, and
`lastPartialUncollectedAllocBytes` is not above them. -/
theorem StartPartialCollectMode_ok {r r1 : Recycler} {s s1 : RecyclerSweep}
    (h : StartPartialCollectMode r s = .ok (r1, s1)) :
    r1.inPartialCollectMode = true ∧
      s1.nextPartialUncollectedAllocBytes = r1.partialUncollectedAllocBytes ∧
      s1.lastPartialUncollectedAllocBytes ≤ s1.nextPartialUncollectedAllocBytes := by
  unfold StartPartialCollectMode at h
  simp only [] at h
  split_ifs at h with h1 h2 h3
  · simp only [Except.ok.injEq, Prod.mk.injEq] at h
    obtain ⟨hr, hs⟩ := h
    subst hr hs
    refine ⟨rfl, rfl, ?_⟩
    show r.partialUncollectedAllocBytes ≤ _
    have hm : r.inPartialCollectMode = false := by simpa using h3
    have h0 : r.partialUncollectedAllocBytes = 0 := by simpa [hm] using h1
    rw [h0]
    exact Nat.zero_le _
  · simp only [Except.ok.injEq, Prod.mk.injEq] at h
    obtain ⟨hr, hs⟩ := h
    subst hr hs
    refine ⟨rfl, rfl, ?_⟩
    show r.partialUncollectedAllocBytes ≤ r.autoHeap.uncollectedAllocBytes
    simpa using h2

/-- The accounting invariant of a session in partial collect mode. -/
theorem PartialReachable.inv {p : Recycler × RecyclerSweep} (h : PartialReachable p) :
    p.1.inPartialCollectMode = true ∧
      p.2.lastPartialUncollectedAllocBytes ≤ p.2.nextPartialUncollectedAllocBytes ∧
      p.2.nextPartialUncollectedAllocBytes ≤ p.1.partialUncollectedAllocBytes := by
  induction h with
  | start r r1 s s1 hs =>
    obtain ⟨a, b, c⟩ := StartPartialCollectMode_ok hs
    exact ⟨a, c, le_of_eq b⟩
  | add r r1 s s1 heapBlock b1 _ hfit hadd ih =>
    obtain ⟨hm, h1, h2⟩ := ih
    simp only at hm h1 h2
    unfold AddUnaccountedNewObjectAllocBytes at hadd
    rw [if_pos hm] at hadd
    simp only [SmallHeapBlock.GetAndClearUnaccountedAllocBytes] at hadd
    split_ifs at hadd
    simp only [Except.ok.injEq, Prod.mk.injEq] at hadd
    obtain ⟨hr, hs, -⟩ := hadd
    subst hr hs
    have e1 : sizeAdd s.nextPartialUncollectedAllocBytes heapBlock.unaccountedAllocBytes =
        s.nextPartialUncollectedAllocBytes + heapBlock.unaccountedAllocBytes :=
      Nat.mod_eq_of_lt (by omega)
    have e2 : sizeAdd r.partialUncollectedAllocBytes heapBlock.unaccountedAllocBytes =
        r.partialUncollectedAllocBytes + heapBlock.unaccountedAllocBytes :=
      Nat.mod_eq_of_lt hfit
    refine ⟨hm, ?_, ?_⟩
    · show s.lastPartialUncollectedAllocBytes ≤ sizeAdd _ _
      rw [e1]
      omega
    · show sizeAdd s.nextPartialUncollectedAllocBytes _ ≤ sizeAdd r.partialUncollectedAllocBytes _
      rw [e1, e2]
      omega
  | subtract r s s1 n _ hfit hsub ih =>
    obtain ⟨hm, h1, h2⟩ := ih
    simp only at hm h1 h2
    unfold SubtractSweepNewObjectAllocBytes at hsub
    split_ifs at hsub with g1 g2 g3
    simp only [Except.ok.injEq] at hsub
    subst hsub
    unfold sizeAdd at g3
    rw [Nat.mod_eq_of_lt hfit] at g3
    refine ⟨hm, ?_, ?_⟩
    · show s.lastPartialUncollectedAllocBytes ≤ s.nextPartialUncollectedAllocBytes - n
      omega
    · show s.nextPartialUncollectedAllocBytes - n ≤ r.partialUncollectedAllocBytes
      omega

/-- C12. Accounting invariant: on every state reached from `StartPartialCollectMode` by
`AddUnaccountedNewObjectAllocBytes` and `SubtractSweepNewObjectAllocBytes` that return without
a failed assertion and whose sums fit a `size_t`,
`lastPartialUncollectedAllocBytes <= nextPartialUncollectedAllocBytes <=
partialUncollectedAllocBytes`; both getters return without a failed assertion, their
differences do not underflow, and `GetNewObjectFreeBytes() <= GetNewObjectAllocBytes()`. -/
theorem accounting_invariant (p : Recycler × RecyclerSweep) (h : PartialReachable p) :
    p.2.lastPartialUncollectedAllocBytes ≤ p.2.nextPartialUncollectedAllocBytes ∧
      p.2.nextPartialUncollectedAllocBytes ≤ p.1.partialUncollectedAllocBytes ∧
      ∃ allocBytes freedBytes,
        GetNewObjectAllocBytes p.1 p.2 = .ok allocBytes ∧
        GetNewObjectFreeBytes p.1 p.2 = .ok freedBytes ∧
        freedBytes ≤ allocBytes ∧
        allocBytes + p.2.lastPartialUncollectedAllocBytes = p.1.partialUncollectedAllocBytes ∧
        freedBytes + p.2.nextPartialUncollectedAllocBytes = p.1.partialUncollectedAllocBytes := by
  obtain ⟨hm, h1, h2⟩ := PartialReachable.inv h
  refine ⟨h1, h2, p.1.partialUncollectedAllocBytes - p.2.lastPartialUncollectedAllocBytes,
    p.1.partialUncollectedAllocBytes - p.2.nextPartialUncollectedAllocBytes, ?_, ?_, ?_, ?_, ?_⟩
  · unfold GetNewObjectAllocBytes
    rw [hm, if_neg (by simp), if_neg (by omega)]
  · unfold GetNewObjectFreeBytes
    rw [hm, if_neg (by simp), if_neg (by omega)]
  · omega
  · omega
  · omega

/-- The example state is reached by one start, one addition and one subtraction. -/
theorem accountingExample_reachable : PartialReachable accountingExample := by
  have h0 : PartialReachable
      ({ monotoneRecycler with partialUncollectedAllocBytes := 150 },
       { RecyclerSweep.zero with
         inPartialCollect := true
         lastPartialUncollectedAllocBytes := 100
         nextPartialUncollectedAllocBytes := 150 }) :=
    PartialReachable.start monotoneRecycler _ RecyclerSweep.zero _ rfl
  have h1 : PartialReachable
      ({ monotoneRecycler with partialUncollectedAllocBytes := 160 },
       { RecyclerSweep.zero with
         inPartialCollect := true
         lastPartialUncollectedAllocBytes := 100
         nextPartialUncollectedAllocBytes := 160 }) :=
    PartialReachable.add _ _ _ _ monotoneBlock
      { monotoneBlock with unaccountedAllocBytes := 0, lastUncollectedAllocBytes := 10 } h0
      (by show 150 + 10 < SizeTModulus; unfold SizeTModulus; norm_num) rfl
  exact PartialReachable.subtract _ _ _ 3 h1
    (by show 100 + 3 < SizeTModulus; unfold SizeTModulus; norm_num) rfl

/-- Witness for C12: the example state, with 60 bytes allocated and 3 freed in this cycle. -/
theorem accounting_invariant_witness :
    PartialReachable accountingExample ∧
      accountingExample.2.lastPartialUncollectedAllocBytes ≤
        accountingExample.2.nextPartialUncollectedAllocBytes ∧
      accountingExample.2.nextPartialUncollectedAllocBytes ≤
        accountingExample.1.partialUncollectedAllocBytes :=
  ⟨accountingExample_reachable,
    (accounting_invariant accountingExample accountingExample_reachable).1,
    (accounting_invariant accountingExample accountingExample_reachable).2.1⟩

/-- C13, evaluated at a failing input. `BeginSweep` on a collector whose heap has one new
visited host block, at address 30, stores that block in the pending merge list of the session's
`recyclerVisitedHostData`; `ShutdownCleanup` on that session, with two buckets in each tier,
returns without a failed assertion, and block 30 is in none of the lists it passes to
`DeleteHeapBlockList` or `DeleteEmptyHeapBlockList`. -/
theorem ShutdownCleanup_leaves_visited_host_list :
    ∃ r1 s1 r2, BeginSweep 1 2 visitedHostRecycler 0 false = .ok (r1, s1) ∧
      SessionHolds s1 30 ∧
      ShutdownCleanup ⟨2, 2⟩ r1 s1 = .ok r2 ∧
      30 ∉ deletedBlocks r2.trace := by
  refine ⟨_, _, _, rfl, ⟨BlockType.SmallRecyclerVisitedHostHeapBlock, Or.inl ?_⟩, rfl, ?_⟩
  · decide
  · decide

/-- The page reuse heuristics write one field of the session. -/
theorem collectEfficacyStage_session {cfg : RecyclerHeuristic} {r : Recycler}
    {s s1 : RecyclerSweep} {e : Double}
    (h : collectEfficacyStage cfg r s = .ok (some (e, s1))) :
    ∃ v, s1 = { s with partialCollectSmallHeapBlockReuseMinFreeBytes := v } := by
  have key : ∀ (x : Double) (v : ℕ),
      Except.ok (some (x, { s with partialCollectSmallHeapBlockReuseMinFreeBytes := v })) =
        (Except.ok (some (e, s1)) : Except ℕ (Option (Double × RecyclerSweep))) →
      ∃ v, s1 = { s with partialCollectSmallHeapBlockReuseMinFreeBytes := v } := by
    intro x v hx
    simp only [Except.ok.injEq, Option.some.injEq, Prod.mk.injEq] at hx
    exact ⟨v, hx.2.symm⟩
  unfold collectEfficacyStage at h
  simp only [] at h
  split at h
  · cases h
  · split_ifs at h
    · exact key _ _ h
    · split at h
      · cases h
      · split_ifs at h
        all_goals first | exact key _ _ h | cases h

/-- `AdjustPartialHeuristics` writes one field of the session. -/
theorem AdjustPartialHeuristics_session {cfg : RecyclerHeuristic} {r r' : Recycler}
    {s s' : RecyclerSweep} {b : Bool}
    (h : AdjustPartialHeuristics cfg r s = .ok (b, r', s')) :
    ∃ v, s' = { s with partialCollectSmallHeapBlockReuseMinFreeBytes := v } := by
  unfold AdjustPartialHeuristics at h
  split_ifs at h
  split at h
  · cases h
  · simp only [Except.ok.injEq, Prod.mk.injEq] at h
    obtain ⟨-, -, rfl⟩ := h
    exact ⟨s.partialCollectSmallHeapBlockReuseMinFreeBytes, rfl⟩
  · rename_i e s1 hstage
    obtain ⟨-, rfl⟩ := adjustAfterEfficacy_frame h
    exact collectEfficacyStage_session hstage

/-- `FinishSweep` writes one field of the session. -/
theorem FinishSweep_session {cfg : RecyclerHeuristic} {ww : WriteWatch} {this : Ptr}
    {r r' : Recycler} {s s' : RecyclerSweep}
    (h : FinishSweep cfg ww this r s = .ok (r', s')) :
    ∃ v, s' = { s with partialCollectSmallHeapBlockReuseMinFreeBytes := v } := by
  unfold FinishSweep at h
  split_ifs at h
  split at h
  · cases h
  · rename_i p hadj
    simp only [Except.ok.injEq, Prod.mk.injEq] at h
    obtain ⟨-, rfl⟩ := h
    unfold finishSweepAdjust at hadj
    split_ifs at hadj
    · split at hadj
      · cases hadj
      · rename_i r1 s1 hok
        simp only [Except.ok.injEq] at hadj
        subst hadj
        exact AdjustPartialHeuristics_session hok
      · rename_i r1 s1 hok
        split_ifs at hadj <;> simp only [Except.ok.injEq] at hadj <;> subst hadj <;>
          exact AdjustPartialHeuristics_session hok
    · simp only [Except.ok.injEq] at hadj
      subst hadj
      exact ⟨s.partialCollectSmallHeapBlockReuseMinFreeBytes, rfl⟩

/-- C14, amended. On a session whose `background` flag is off on entry (the assertion of
`BeginBackground`), `BackgroundSweep` marks the session with `background = !forceForeground`,
calls `SweepSmallNonFinalizable`, then `FinishSweep`, then `FinishConcurrentSweep` when that is
enabled, then unmarks; it returns exactly when `FinishSweep` does. `IsBackground()` equals
`!forceForeground` while `SweepSmallNonFinalizable` and `FinishSweep` run and when `FinishSweep`
returns, and is false when `BackgroundSweep` returns. -/
theorem BackgroundSweep_steps (cfg : RecyclerHeuristic) (ww : WriteWatch)
    (enableConcurrentSweepAlloc : Bool) (this : Ptr) (r : Recycler) (s : RecyclerSweep)
    (hbg : s.background = false) :
    BackgroundSweep cfg ww enableConcurrentSweepAlloc this r s =
        (match FinishSweep cfg ww this
            (r.call (Collaborator.SweepSmallNonFinalizable (!s.forceForeground)))
            { s with background := !s.forceForeground } with
          | .error n => .error n
          | .ok p =>
            .ok (if enableConcurrentSweepAlloc then p.1.call Collaborator.FinishConcurrentSweep
                  else p.1,
                 { p.2 with background := false })) ∧
      (∀ p, FinishSweep cfg ww this
            (r.call (Collaborator.SweepSmallNonFinalizable (!s.forceForeground)))
            { s with background := !s.forceForeground } = .ok p →
          IsBackground p.2 = !s.forceForeground) ∧
      (∀ q, BackgroundSweep cfg ww enableConcurrentSweepAlloc this r s = .ok q →
          IsBackground q.2 = false) := by
  have hfin : ∀ p, FinishSweep cfg ww this
        (r.call (Collaborator.SweepSmallNonFinalizable (!s.forceForeground)))
        { s with background := !s.forceForeground } = .ok p →
      p.2.background = !s.forceForeground ∧ p.2.forceForeground = s.forceForeground := by
    intro p hp
    have hp' : FinishSweep cfg ww this
        (r.call (Collaborator.SweepSmallNonFinalizable (!s.forceForeground)))
        { s with background := !s.forceForeground } = .ok (p.1, p.2) := hp
    obtain ⟨v, hv⟩ := FinishSweep_session hp'
    rw [hv]
    exact ⟨rfl, rfl⟩
  have heq : BackgroundSweep cfg ww enableConcurrentSweepAlloc this r s =
        (match FinishSweep cfg ww this
            (r.call (Collaborator.SweepSmallNonFinalizable (!s.forceForeground)))
            { s with background := !s.forceForeground } with
          | .error n => .error n
          | .ok p =>
            .ok (if enableConcurrentSweepAlloc then p.1.call Collaborator.FinishConcurrentSweep
                  else p.1,
                 { p.2 with background := false })) := by
    unfold BackgroundSweep BeginBackground
    rw [if_neg (by simp [hbg])]
    simp only [IsBackground]
    cases hf : FinishSweep cfg ww this
        (r.call (Collaborator.SweepSmallNonFinalizable (!s.forceForeground)))
        { s with background := !s.forceForeground } with
    | error n => rfl
    | ok p =>
      obtain ⟨h1, h2⟩ := hfin p hf
      simp only [EndBackground]
      have : (p.2.background || p.2.forceForeground) = true := by
        rw [h1, h2]; cases s.forceForeground <;> rfl
      rw [if_neg (by simp [this])]
  refine ⟨heq, fun p hp => (hfin p hp).1, ?_⟩
  intro q hq
  rw [heq] at hq
  split at hq
  · cases hq
  · simp only [Except.ok.injEq] at hq
    subst hq
    rfl

/-- C14, counterexample. A session set up with `BeginBackground(true)` and `EndBackground()` has
`forceForeground` set; `BackgroundSweep` on it returns, and `IsBackground()` is false while
`SweepSmallNonFinalizable` and `FinishSweep` run. -/
theorem BackgroundSweep_forced_foreground_counterexample :
    (∃ s1, BeginBackground RecyclerSweep.zero true = .ok s1 ∧
      EndBackground s1 = .ok forcedForegroundSweep) ∧
    (∃ s1, BeginBackground forcedForegroundSweep forcedForegroundSweep.forceForeground = .ok s1 ∧
      IsBackground s1 = false) ∧
    ∃ q, BackgroundSweep floorCfg ⟨false, true, true⟩ false 1 (Recycler.idle HeapInfo.empty)
        forcedForegroundSweep = .ok q ∧
      q.1.trace =
        [Collaborator.SweepSmallNonFinalizable false, Collaborator.SweepPendingObjects] :=
  ⟨⟨_, rfl, rfl⟩, ⟨_, rfl, rfl⟩, ⟨_, rfl, rfl⟩⟩

/-- A background sweep of a zeroed session on an idle collector returns, and the sweep of the
small blocks sees a session marked as background. -/
theorem BackgroundSweep_example :
    ∃ q, BackgroundSweep floorCfg ⟨false, true, true⟩ false 1 (Recycler.idle HeapInfo.empty)
        RecyclerSweep.zero = .ok q ∧
      q.1.trace =
        [Collaborator.SweepSmallNonFinalizable true, Collaborator.SweepPendingObjects] :=
  ⟨_, rfl, rfl⟩

/-- Witness for C14: a zeroed session on an idle collector. -/
theorem BackgroundSweep_steps_witness :
    RecyclerSweep.zero.background = false ∧
      ∃ q, BackgroundSweep floorCfg ⟨false, true, true⟩ false 1 (Recycler.idle HeapInfo.empty)
          RecyclerSweep.zero = .ok q ∧ IsBackground q.2 = false := by
  obtain ⟨q, hq, -⟩ := BackgroundSweep_example
  exact ⟨rfl, q, hq,
    (BackgroundSweep_steps floorCfg ⟨false, true, true⟩ false 1 (Recycler.idle HeapInfo.empty)
      RecyclerSweep.zero rfl).2.2 q hq⟩

/-- What the threshold stage leaves alone in the collector. -/
theorem thresholdStage_collector {cfg : RecyclerHeuristic} {r r' : Recycler}
    {s s' : RecyclerSweep} {e ratio : Double} {b : Bool}
    (h : thresholdStage cfg r s e ratio = .ok (b, r', s')) :
    r'.enablePartialCollect = r.enablePartialCollect ∧
      r'.inPartialCollectMode = r.inPartialCollectMode ∧
      r'.partialUncollectedAllocBytes = r.partialUncollectedAllocBytes ∧
      r'.trace = r.trace := by
  unfold thresholdStage at h
  simp only [] at h
  split_ifs at h <;> simp only [Except.ok.injEq, Prod.mk.injEq] at h <;>
    obtain ⟨-, rfl, -⟩ := h <;> exact ⟨rfl, rfl, rfl, rfl⟩

/-- What `AdjustPartialHeuristics` leaves alone in the collector: it makes no collaborator call
and writes neither the enable flag nor the partial collect state. -/
theorem AdjustPartialHeuristics_collector {cfg : RecyclerHeuristic} {r r' : Recycler}
    {s s' : RecyclerSweep} {b : Bool}
    (h : AdjustPartialHeuristics cfg r s = .ok (b, r', s')) :
    r'.enablePartialCollect = r.enablePartialCollect ∧
      r'.inPartialCollectMode = r.inPartialCollectMode ∧
      r'.partialUncollectedAllocBytes = r.partialUncollectedAllocBytes ∧
      r'.trace = r.trace := by
  unfold AdjustPartialHeuristics at h
  split_ifs at h
  split at h
  · cases h
  · simp only [Except.ok.injEq, Prod.mk.injEq] at h
    obtain ⟨-, rfl, -⟩ := h
    exact ⟨rfl, rfl, rfl, rfl⟩
  · unfold adjustAfterEfficacy at h
    split at h
    · simp only [Except.ok.injEq, Prod.mk.injEq] at h
      obtain ⟨-, rfl, -⟩ := h
      exact ⟨rfl, rfl, rfl, rfl⟩
    · split at h
      · cases h
      · simp only [Except.ok.injEq, Prod.mk.injEq] at h
        obtain ⟨-, rfl, -⟩ := h
        exact ⟨rfl, rfl, rfl, rfl⟩
      · exact thresholdStage_collector h

/-- `AdjustPartialHeuristics` returns only for a collector in partial collect mode. -/
theorem inPartialCollectMode_of_AdjustPartialHeuristics {cfg : RecyclerHeuristic}
    {r : Recycler} {s : RecyclerSweep} {q : Bool × Recycler × RecyclerSweep}
    (h : AdjustPartialHeuristics cfg r s = .ok q) : r.inPartialCollectMode = true := by
  unfold AdjustPartialHeuristics at h
  split_ifs at h with h1
  simpa using h1

/-- The write watch reset never turns partial collection on. -/
theorem resetWriteWatch_disabled (ww : WriteWatch) (this : Ptr) (r : Recycler)
    (s : RecyclerSweep) (h : r.enablePartialCollect = false) :
    (resetWriteWatch ww this r s).enablePartialCollect = false := by
  unfold resetWriteWatch
  split_ifs <;> first | exact h | rfl

/-- `FinishSweep` never turns partial collection on. -/
theorem FinishSweep_disabled {cfg : RecyclerHeuristic} {ww : WriteWatch} {this : Ptr}
    {r : Recycler} {s : RecyclerSweep} {q : Recycler × RecyclerSweep}
    (h : FinishSweep cfg ww this r s = .ok q) (hen : r.enablePartialCollect = false) :
    q.1.enablePartialCollect = false := by
  unfold FinishSweep at h
  split_ifs at h
  split at h
  · cases h
  · rename_i p hadj
    simp only [Except.ok.injEq] at h
    subst h
    show p.1.enablePartialCollect = false
    unfold finishSweepAdjust at hadj
    split_ifs at hadj
    · split at hadj
      · cases hadj
      · rename_i r1 s1 hok
        obtain ⟨g1, -⟩ := AdjustPartialHeuristics_collector hok
        simp only [Except.ok.injEq] at hadj
        subst hadj
        exact resetWriteWatch_disabled ww this _ s1 (g1.trans hen)
      · rename_i r1 s1 hok
        obtain ⟨g1, -⟩ := AdjustPartialHeuristics_collector hok
        split_ifs at hadj <;> simp only [Except.ok.injEq] at hadj <;> subst hadj <;>
          exact g1.trans hen
    · simp only [Except.ok.injEq] at hadj
      subst hadj
      exact hen

/-- With partial collection disabled `DoPartialCollectMode` rejects. -/
theorem DoPartialCollectMode_disabled (r : Recycler) (s : RecyclerSweep)
    (h : r.enablePartialCollect = false) : DoPartialCollectMode r s = false := by
  unfold DoPartialCollectMode
  rw [h]
  rfl

/-- `BeginSweep` on a collector with partial collection disabled does not arm partial collect
mode and leaves partial collection disabled. -/
theorem BeginSweep_disabled {this recyclerPtr : Ptr} {r : Recycler} {rescanRootBytes : Nat}
    {adjust : Bool} {q : Recycler × RecyclerSweep}
    (h : BeginSweep this recyclerPtr r rescanRootBytes adjust = .ok q)
    (hen : r.enablePartialCollect = false) :
    q.1.inPartialCollectMode = false ∧ q.1.enablePartialCollect = false ∧
      q.2.isPartial = false ∧ q.2.inPartialCollect = false := by
  have hpre := BeginSweepPre_of_ok h
  obtain ⟨⟨r1, s1⟩, harm, hbegin⟩ :=
    BeginSweep_ok_of_pre this recyclerPtr r rescanRootBytes adjust hpre
  rw [hbegin] at h
  simp only [Except.ok.injEq] at h
  subst h
  obtain ⟨-, -, f3, f4, f5, -⟩ := beginSweepCollector_fields this r
  have hdo := DoPartialCollectMode_disabled (beginSweepCollector this r)
    { beginSweepSession recyclerPtr r with rescanRootBytes := rescanRootBytes } (f5.trans hen)
  rw [beginSweepArm_reject _ _ adjust hdo (by rw [f3, f4]; exact hpre.2.2.2.2.1)] at harm
  simp only [Except.ok.injEq, Prod.mk.injEq] at harm
  obtain ⟨hr1, hs1⟩ := harm
  obtain ⟨g1, -, g3, -⟩ := beginSweepReset_frame (r1, s1)
  have hen1 : r1.enablePartialCollect = false := by
    rw [← hr1]
    split_ifs
    · exact f5.trans hen
    · exact f5.trans hen
  refine ⟨?_, ?_, ?_, ?_⟩
  · rw [g3, ← hr1]
    split_ifs with hm
    · rfl
    · simpa using hm
  · unfold beginSweepReset
    split_ifs <;> exact hen1
  · rw [g1, ← hs1]; rfl
  · rw [g1, ← hs1]; rfl

/-- C15. For a collector that is not in partial collect mode, with no partial uncollected
bytes, and a session that neither asks for the heuristics adjustment nor is marked partial (the
assertions on lines 175, 243 and 246), `FinishSweep` returns the session as it was and the
collector with the `SweepPendingObjects` call appended to its trace and nothing else changed:
no `AdjustPartialHeuristics`, no `SweepPartialReusePages`, no `FinishPartialCollect`. -/
theorem FinishSweep_not_partial (cfg : RecyclerHeuristic) (ww : WriteWatch) (this : Ptr)
    (r : Recycler) (s : RecyclerSweep) (hmode : r.inPartialCollectMode = false)
    (hbytes : r.partialUncollectedAllocBytes = 0) (hadjust : s.adjustPartialHeuristics = false)
    (hmarked : s.isPartial = false) :
    FinishSweep cfg ww this r s = .ok (r.call Collaborator.SweepPendingObjects, s) := by
  unfold FinishSweep finishSweepAdjust
  simp [hmode, hbytes, hadjust, hmarked]

/-- Witness for C15: a zeroed session on an idle collector. -/
theorem FinishSweep_not_partial_witness :
    (Recycler.idle HeapInfo.empty).inPartialCollectMode = false ∧
      (Recycler.idle HeapInfo.empty).partialUncollectedAllocBytes = 0 ∧
      FinishSweep floorCfg ⟨false, true, true⟩ 1 (Recycler.idle HeapInfo.empty)
          RecyclerSweep.zero =
        .ok ((Recycler.idle HeapInfo.empty).call Collaborator.SweepPendingObjects,
          RecyclerSweep.zero) :=
  ⟨rfl, rfl,
    FinishSweep_not_partial floorCfg ⟨false, true, true⟩ 1 (Recycler.idle HeapInfo.empty)
      RecyclerSweep.zero rfl rfl rfl rfl⟩

/-- The foreground `FinishSweep` in which `AdjustPartialHeuristics` approves and a
`ResetWriteWatch` fails, evaluated. -/
theorem FinishSweep_of_reset_failure (cfg : RecyclerHeuristic) (ww : WriteWatch) (this : Ptr)
    (r r1 : Recycler) (s s1 : RecyclerSweep) (hmarked : s.isPartial = true)
    (hadj : AdjustPartialHeuristics cfg r s = .ok (true, r1, s1))
    (hfg : IsBackground s = false) (hsw : ww.ForceSoftwareWriteBarrier = false)
    (hfail : ww.recyclerPageAllocator = false ∨ ww.recyclerLargeBlockPageAllocator = false) :
    ∃ r', FinishSweep cfg ww this r s = .ok (r', s1) ∧
      r'.enablePartialCollect = false ∧
      Collaborator.FinishPartialCollect (some this) ∈ r'.trace ∧
      r'.inPartialCollectMode = false ∧
      r'.partialUncollectedAllocBytes = 0 := by
  have hmode := inPartialCollectMode_of_AdjustPartialHeuristics hadj
  obtain ⟨v, hv⟩ := AdjustPartialHeuristics_session hadj
  have hfg1 : IsBackground s1 = false := by rw [hv]; exact hfg
  have hor : (!ww.recyclerPageAllocator || !ww.recyclerLargeBlockPageAllocator) = true := by
    rcases hfail with h | h <;> simp [h]
  have hreset : ∀ r3 : Recycler, ∃ r4 : Recycler,
      resetWriteWatch ww this r3 s1 =
        { r4 with enablePartialCollect := false }.FinishPartialCollect (some this) := by
    intro r3
    unfold resetWriteWatch
    rw [hsw, hfg1, hor]
    exact ⟨_, rfl⟩
  obtain ⟨r4, hr4⟩ := hreset
    ({ r1 with
        partialUncollectedAllocBytes :=
          if InPartialCollect s1 then s1.nextPartialUncollectedAllocBytes else 0 }.call
      Collaborator.SweepPartialReusePages)
  have heq : FinishSweep cfg ww this r s =
      .ok ((resetWriteWatch ww this
        ({ r1 with
            partialUncollectedAllocBytes :=
              if InPartialCollect s1 then s1.nextPartialUncollectedAllocBytes else 0 }.call
          Collaborator.SweepPartialReusePages) s1).call Collaborator.SweepPendingObjects, s1) := by
    unfold FinishSweep finishSweepAdjust
    rw [hmarked, hmode, hadj]
    simp only [bne_self_eq_false, Bool.false_eq_true, if_false, if_true]
  rw [hr4] at heq
  exact ⟨_, heq, rfl, by simp [Recycler.call, Recycler.FinishPartialCollect], rfl, rfl⟩

/-- Collaborator calls recorded in the trace leave the enable flag alone. -/
theorem foldl_call_enablePartialCollect (f : Ptr → Collaborator) (l : List Ptr) (r : Recycler) :
    (l.foldl (fun r1 b => r1.call (f b)) r).enablePartialCollect = r.enablePartialCollect := by
  induction l generalizing r with
  | nil => rfl
  | cons b l ih => rw [List.foldl_cons, ih]; rfl

/-- No operation of a session turns partial collection on. -/
theorem SessionOp.run_session_disabled {this : Ptr} {op : SessionOp}
    {p q : Recycler × RecyclerSweep}
    (h : op.run this p = .ok q) (hen : p.1.enablePartialCollect = false) :
    q.1.enablePartialCollect = false := by
  cases op with
  | addNewHeapBlock t heapBlock =>
    simp only [SessionOp.run, Except.ok.injEq] at h
    subst h
    exact hen
  | MergePendingNewHeapBlockList t =>
    simp only [SessionOp.run, Except.ok.injEq] at h
    subst h
    exact (foldl_call_enablePartialCollect _ _ _).trans hen
  | MergePendingNewMediumHeapBlockList t =>
    simp only [SessionOp.run, Except.ok.injEq] at h
    subst h
    exact (foldl_call_enablePartialCollect _ _ _).trans hen
  | FinishSweep cfg ww =>
    have hq : Memory.FinishSweep cfg ww this p.1 p.2 = .ok q := h
    exact FinishSweep_disabled hq hen
  | EndSweep =>
    simp only [SessionOp.run, Except.ok.injEq] at h
    subst h
    show (Memory.EndSweep p.1 p.2).enablePartialCollect = false
    unfold Memory.EndSweep
    cases p.2.inPartialCollect <;> exact hen

/-- No operation of partial collect mode turns partial collection on. -/
theorem PartialOp.run_partial_disabled {op : PartialOp} {p q : Recycler × RecyclerSweep}
    (h : op.run p = .ok q) (hen : p.1.enablePartialCollect = false) :
    q.1.enablePartialCollect = false := by
  cases op with
  | BeginSweep this recyclerPtr rescanRootBytes adjust =>
    have hq : Memory.BeginSweep this recyclerPtr p.1 rescanRootBytes adjust = .ok q := h
    exact (BeginSweep_disabled hq hen).2.1
  | AddUnaccountedNewObjectAllocBytes heapBlock =>
    simp only [PartialOp.run, Memory.AddUnaccountedNewObjectAllocBytes] at h
    split_ifs at h <;> simp only [Except.ok.injEq] at h <;> subst h <;> exact hen
  | SubtractSweepNewObjectAllocBytes n =>
    simp only [PartialOp.run, Memory.SubtractSweepNewObjectAllocBytes] at h
    split_ifs at h
    simp only [Except.ok.injEq] at h
    subst h
    exact hen
  | NotifyAllocableObjects heapBlock =>
    simp only [PartialOp.run, Except.ok.injEq] at h
    subst h
    exact hen
  | EndSweep =>
    simp only [PartialOp.run, Except.ok.injEq] at h
    subst h
    show (Memory.EndSweep p.1 p.2).enablePartialCollect = false
    unfold Memory.EndSweep
    cases p.2.inPartialCollect <;> exact hen

/-- The heuristics approve in the zero allocation example. -/
theorem zeroAllocExample_adjust :
    ∃ r', AdjustPartialHeuristics floorCfg zeroAllocRecycler zeroAllocSweep =
      .ok (true, r', zeroAllocSweep) := by
  have hstage : collectEfficacyStage floorCfg zeroAllocRecycler zeroAllocSweep =
      .ok (some (1,
        { zeroAllocSweep with partialCollectSmallHeapBlockReuseMinFreeBytes := 0 })) := by
    unfold collectEfficacyStage
    rw [zeroAllocExample_alloc]
    rfl
  obtain ⟨r', h⟩ := zeroAllocExample_returns
  exact ⟨r', (AdjustPartialHeuristics_of_stage _ _ _ _ _ zeroAllocExample_pre hstage).trans h⟩

/-- C16. Write watch failure disables partial collection for good: when, in a foreground
`FinishSweep` of a partial session in which `AdjustPartialHeuristics` approves and the software
write barrier is not forced, `ResetWriteWatch` fails on either page allocator, `FinishSweep`
returns with `enablePartialCollect` false and `FinishPartialCollect` run (partial collect mode
off, no partial uncollected bytes). On every collector with `enablePartialCollect` false,
`DoPartialCollectMode` is false for every session, whatever the rescan root bytes and the unused
partial collect free bytes; a `BeginSweep` on it that returns leaves partial collect mode off;
and no operation of the session turns the flag on again. -/
theorem FinishSweep_write_watch_failure (cfg : RecyclerHeuristic) (ww : WriteWatch)
    (this : Ptr) (r r1 : Recycler) (s s1 : RecyclerSweep) (hmarked : s.isPartial = true)
    (hadj : AdjustPartialHeuristics cfg r s = .ok (true, r1, s1))
    (hfg : IsBackground s = false) (hsw : ww.ForceSoftwareWriteBarrier = false)
    (hfail : ww.recyclerPageAllocator = false ∨ ww.recyclerLargeBlockPageAllocator = false) :
    (∃ r', FinishSweep cfg ww this r s = .ok (r', s1) ∧
      r'.enablePartialCollect = false ∧
      Collaborator.FinishPartialCollect (some this) ∈ r'.trace ∧
      r'.inPartialCollectMode = false ∧
      r'.partialUncollectedAllocBytes = 0) ∧
    ∀ r2 : Recycler, r2.enablePartialCollect = false →
      (∀ s2, DoPartialCollectMode r2 s2 = false) ∧
      (∀ this2 recyclerPtr rescanRootBytes adjust q,
        BeginSweep this2 recyclerPtr r2 rescanRootBytes adjust = .ok q →
          q.1.inPartialCollectMode = false ∧ q.2.isPartial = false) ∧
      (∀ this2 op s2 q, SessionOp.run this2 op (r2, s2) = .ok q →
        q.1.enablePartialCollect = false) ∧
      (∀ op s2 q, PartialOp.run op (r2, s2) = .ok q → q.1.enablePartialCollect = false) := by
  refine ⟨FinishSweep_of_reset_failure cfg ww this r r1 s s1 hmarked hadj hfg hsw hfail, ?_⟩
  intro r2 hen
  refine ⟨fun s2 => DoPartialCollectMode_disabled r2 s2 hen, ?_, ?_, ?_⟩
  · intro this2 recyclerPtr rescanRootBytes adjust q hq
    obtain ⟨h1, -, h3, -⟩ := BeginSweep_disabled hq hen
    exact ⟨h1, h3⟩
  · intro this2 op s2 q hq
    exact SessionOp.run_session_disabled hq hen
  · intro op s2 q hq
    exact PartialOp.run_partial_disabled hq hen

/-- Witness for C16: the zero allocation example, with the first `ResetWriteWatch` failing. -/
theorem FinishSweep_write_watch_failure_witness :
    ∃ r', FinishSweep floorCfg ⟨false, false, true⟩ 1 zeroAllocRecycler zeroAllocSweep =
        .ok (r', zeroAllocSweep) ∧
      r'.enablePartialCollect = false ∧
      Collaborator.FinishPartialCollect (some 1) ∈ r'.trace ∧
      r'.inPartialCollectMode = false ∧
      r'.partialUncollectedAllocBytes = 0 := by
  obtain ⟨r1, h1⟩ := zeroAllocExample_adjust
  exact (FinishSweep_write_watch_failure floorCfg ⟨false, false, true⟩ 1 zeroAllocRecycler r1
    zeroAllocSweep zeroAllocSweep rfl h1 rfl rfl (Or.inl rfl)).1

/-- The scaled value `q / 2 ^ ulpExp q` has fewer than 54 bits. -/
theorem F64.abs_scaled_lt (q : ℚ) : |q / (2 : ℚ) ^ F64.ulpExp q| < 2 ^ 53 := by
  by_cases h0 : q = 0
  · rw [h0]; simp
  · have hpos : 0 < |q| := abs_pos.2 h0
    have h1 : |q| < (2 : ℚ) ^ (Int.log 2 |q| + 1) := by
      exact_mod_cast Int.lt_zpow_succ_log_self (b := 2) (by norm_num) |q|
    have h2 : Int.log 2 |q| - 52 ≤ F64.ulpExp q := le_max_left _ _
    rw [abs_div, abs_of_pos (F64.two_zpow_pos _), div_lt_iff₀ (F64.two_zpow_pos _)]
    calc |q| < (2 : ℚ) ^ (Int.log 2 |q| + 1) := h1
      _ ≤ (2 : ℚ) ^ (53 + F64.ulpExp q) := zpow_le_zpow_right₀ (by norm_num) (by omega)
      _ = 2 ^ 53 * (2 : ℚ) ^ F64.ulpExp q := by
        rw [zpow_add₀ (by norm_num : (2 : ℚ) ≠ 0)]
        norm_num

/-- Every rounded value is a binary64 number. -/
theorem F64.rep_round (q : ℚ) : F64.Rep (F64.round q) := by
  have hE : -1074 ≤ F64.ulpExp q := le_max_right _ _
  have hs := F64.abs_scaled_lt q
  rw [abs_lt] at hs
  have hhi : roundHalfEven (q / (2 : ℚ) ^ F64.ulpExp q) ≤ 2 ^ 53 :=
    roundHalfEven_le (by push_cast; exact le_of_lt hs.2)
  have hlo : -(2 ^ 53) ≤ roundHalfEven (q / (2 : ℚ) ^ F64.ulpExp q) :=
    le_roundHalfEven (by push_cast; exact le_of_lt hs.1)
  have hstep : (2 : ℚ) ^ (F64.ulpExp q + 1) = 2 * (2 : ℚ) ^ F64.ulpExp q := by
    rw [zpow_add₀ (by norm_num : (2 : ℚ) ≠ 0)]
    ring
  rcases eq_or_lt_of_le hhi with heq | hlt
  · refine ⟨2 ^ 52, F64.ulpExp q + 1, by norm_num, by omega, ?_⟩
    unfold F64.round
    rw [heq, hstep]
    push_cast
    ring
  · rcases eq_or_lt_of_le hlo with heq' | hlt'
    · refine ⟨-(2 ^ 52), F64.ulpExp q + 1, by norm_num, by omega, ?_⟩
      unfold F64.round
      rw [← heq', hstep]
      push_cast
      ring
    · refine ⟨roundHalfEven (q / (2 : ℚ) ^ F64.ulpExp q), F64.ulpExp q, ?_, hE, rfl⟩
      rw [abs_lt]
      exact ⟨hlt', hlt⟩

/-- Rounding a rounded value changes nothing. -/
theorem F64.round_round (q : ℚ) : F64.round (F64.round q) = F64.round q :=
  F64.round_of_rep (F64.rep_round q)

/-- Rounding moves a value by at most half a unit in the last place. -/
theorem F64.abs_round_sub_le (q : ℚ) :
    |F64.round q - q| ≤ (2 : ℚ) ^ F64.ulpExp q / 2 := by
  have hp := F64.two_zpow_pos (F64.ulpExp q)
  have h := abs_roundHalfEven_sub_le (q / (2 : ℚ) ^ F64.ulpExp q)
  have heq : F64.round q - q =
      ((roundHalfEven (q / (2 : ℚ) ^ F64.ulpExp q) : ℚ) - q / (2 : ℚ) ^ F64.ulpExp q) *
        (2 : ℚ) ^ F64.ulpExp q := by
    unfold F64.round
    field_simp
  rw [heq, abs_mul, abs_of_pos hp]
  calc _ ≤ 1 / 2 * (2 : ℚ) ^ F64.ulpExp q := mul_le_mul_of_nonneg_right h (le_of_lt hp)
    _ = (2 : ℚ) ^ F64.ulpExp q / 2 := by ring

/-- Below one the unit in the last place is at most `2 ^ (-53)`. -/
theorem F64.ulpExp_le_of_lt_one {q : ℚ} (h0 : 0 < q) (h1 : q < 1) : F64.ulpExp q ≤ -53 := by
  apply F64.ulpExp_le (ne_of_gt h0) (by norm_num)
  rw [abs_of_pos h0]
  simpa using h1

/-- Rounding a value of the unit interval raises it by at most `2 ^ (-54)`. -/
theorem F64.round_le_add_of_unit {q : ℚ} (h0 : 0 ≤ q) (h1 : q ≤ 1) :
    F64.round q ≤ q + 1 / 2 ^ 54 := by
  rcases eq_or_lt_of_le h0 with hz | hpos
  · rw [← hz, F64.round_zero]; norm_num
  rcases eq_or_lt_of_le h1 with ho | hlt
  · rw [ho, F64.round_one]; norm_num
  have hu := F64.ulpExp_le_of_lt_one hpos hlt
  have hb := F64.abs_round_sub_le q
  rw [abs_le] at hb
  have hpow : (2 : ℚ) ^ F64.ulpExp q ≤ (2 : ℚ) ^ (-53 : ℤ) :=
    zpow_le_zpow_right₀ (by norm_num) hu
  have h53 : (2 : ℚ) ^ (-53 : ℤ) = 1 / 2 ^ 53 := by
    rw [zpow_neg]; norm_num
  rw [h53] at hpow
  have : (2 : ℚ) ^ F64.ulpExp q / 2 ≤ 1 / 2 ^ 54 := by
    calc (2 : ℚ) ^ F64.ulpExp q / 2 ≤ (1 / 2 ^ 53) / 2 := by linarith
      _ = 1 / 2 ^ 54 := by norm_num
  linarith [hb.2]

/-- A nonnegative value that exceeds one by at most `2 ^ (-54)` rounds to at most one. -/
theorem F64.round_le_one {x : ℚ} (h0 : 0 ≤ x) (h1 : x ≤ 1 + 1 / 2 ^ 54) : F64.round x ≤ 1 := by
  rcases le_or_lt x 1 with hle | hgt
  · rw [← F64.round_one]
    exact F64.round_mono h0 hle
  · rw [F64.round_eq (-52) (2 ^ 52) (by norm_num) (by simpa using le_of_lt hgt)
      (by
        have : (2 : ℚ) ^ ((-52 : ℤ) + 53) = 2 := by norm_num
        rw [this]
        have : (1 : ℚ) + 1 / 2 ^ 54 < 2 := by norm_num
        linarith)
      (by
        have h52 : (2 : ℚ) ^ (-52 : ℤ) = 1 / 2 ^ 52 := by
          rw [zpow_neg]; norm_num
        rw [h52, abs_lt]
        push_cast
        constructor
        · have : (0 : ℚ) < x / (1 / 2 ^ 52) - 2 ^ 52 := by
            rw [div_div_eq_mul_div, div_one]
            linarith
          linarith
        · rw [div_div_eq_mul_div, div_one]
          have : x * 2 ^ 52 ≤ (1 + 1 / 2 ^ 54) * 2 ^ 52 :=
            mul_le_mul_of_nonneg_right h1 (by norm_num)
          have h4 : ((1 : ℚ) + 1 / 2 ^ 54) * 2 ^ 52 = 2 ^ 52 + 1 / 4 := by norm_num
          linarith)]
    have h52 : (2 : ℚ) ^ (-52 : ℤ) = 1 / 2 ^ 52 := by
      rw [zpow_neg]; norm_num
    rw [h52]
    push_cast
    norm_num

/-- Rounding keeps a value of the unit interval in the unit interval. -/
theorem F64.round_unit {q : ℚ} (h0 : 0 ≤ q) (h1 : q ≤ 1) :
    0 ≤ F64.round q ∧ F64.round q ≤ 1 :=
  ⟨F64.round_nonneg h0, F64.round_le_one h0 (by linarith [show (0 : ℚ) ≤ 1 / 2 ^ 54 by norm_num])⟩

/-- The quotient of two converted byte counts, the first not above the second, lies in the unit
interval. -/
theorem F64.div_ofNat_unit {n m : ℕ} (h : n ≤ m) (hm : 0 < m) :
    0 ≤ F64.div (F64.ofNat n) (F64.ofNat m) ∧ F64.div (F64.ofNat n) (F64.ofNat m) ≤ 1 := by
  have hn0 : (0 : ℚ) ≤ F64.ofNat n := F64.round_nonneg (by positivity)
  have hnm : F64.ofNat n ≤ F64.ofNat m :=
    F64.round_mono (by positivity) (by exact_mod_cast h)
  have hm1 : (1 : ℚ) ≤ F64.ofNat m := by
    rw [← F64.round_one]
    exact F64.round_mono (by norm_num) (by exact_mod_cast hm)
  have hmpos : (0 : ℚ) < F64.ofNat m := by linarith
  exact F64.round_unit (div_nonneg hn0 (le_of_lt hmpos)) ((div_le_one hmpos).2 hnm)

/-- The blend `a * e + (1.0 - e)` of two values of the unit interval, `e` a binary64 number,
lies in the unit interval. -/
theorem F64.blend_unit {a e : ℚ} (ha0 : 0 ≤ a) (ha1 : a ≤ 1) (he0 : 0 ≤ e) (he1 : e ≤ 1)
    (hrep : F64.round e = e) :
    0 ≤ F64.add (F64.mul a e) (F64.sub 1 e) ∧ F64.add (F64.mul a e) (F64.sub 1 e) ≤ 1 := by
  have hmul0 : 0 ≤ F64.mul a e := F64.round_nonneg (mul_nonneg ha0 he0)
  have hmul : F64.mul a e ≤ e := by
    have := F64.round_mono (mul_nonneg ha0 he0) (mul_le_of_le_one_left he0 ha1)
    rw [hrep] at this
    exact this
  have hsub0 : 0 ≤ F64.sub 1 e := F64.round_nonneg (by linarith)
  have hsub : F64.sub 1 e ≤ 1 - e + 1 / 2 ^ 54 :=
    F64.round_le_add_of_unit (by linarith) (by linarith)
  exact ⟨F64.round_nonneg (add_nonneg hmul0 hsub0),
    F64.round_le_one (add_nonneg hmul0 hsub0) (by linarith)⟩

/-- The blend `a * (1.0 - p) + p` of two values of the unit interval lies in the unit
interval. -/
theorem F64.pressure_unit {a p : ℚ} (ha0 : 0 ≤ a) (ha1 : a ≤ 1) (hp0 : 0 ≤ p) (hp1 : p ≤ 1) :
    0 ≤ F64.add (F64.mul a (F64.sub 1 p)) p ∧ F64.add (F64.mul a (F64.sub 1 p)) p ≤ 1 := by
  have hsub0 : 0 ≤ F64.sub 1 p := F64.round_nonneg (by linarith)
  have hsub : F64.sub 1 p ≤ 1 - p + 1 / 2 ^ 54 :=
    F64.round_le_add_of_unit (by linarith) (by linarith)
  have hmul0 : 0 ≤ F64.mul a (F64.sub 1 p) := F64.round_nonneg (mul_nonneg ha0 hsub0)
  have hmul : F64.mul a (F64.sub 1 p) ≤ F64.sub 1 p := by
    have := F64.round_mono (mul_nonneg ha0 hsub0) (mul_le_of_le_one_left hsub0 ha1)
    have hrr : F64.round (F64.sub 1 p) = F64.sub 1 p := F64.round_round _
    rw [hrr] at this
    exact this
  exact ⟨F64.round_nonneg (add_nonneg hmul0 hp0),
    F64.round_le_one (add_nonneg hmul0 hp0) (by linarith)⟩

/-- The efficacy that the page reuse heuristics hand on is a binary64 number of the unit
interval. -/
theorem collectEfficacyStage_unit {cfg : RecyclerHeuristic} {r : Recycler}
    {s s1 : RecyclerSweep} {e : Double}
    (h : collectEfficacyStage cfg r s = .ok (some (e, s1))) :
    0 ≤ e ∧ e ≤ 1 ∧ F64.round e = e := by
  unfold collectEfficacyStage at h
  simp only [] at h
  split at h
  · cases h
  · split_ifs at h with h1
    · simp only [Except.ok.injEq, Option.some.injEq, Prod.mk.injEq] at h
      rw [← h.1]
      exact ⟨by norm_num, le_refl _, F64.round_one⟩
    · split at h
      · cases h
      · rename_i freedBytes hfreed
        split_ifs at h with h2 h3 h4
        · simp at h
        · simp only [Except.ok.injEq, Option.some.injEq, Prod.mk.injEq] at h
          rw [← h.1]
          refine ⟨?_, not_lt.1 h4, F64.round_round _⟩
          apply F64.round_nonneg
          apply div_nonneg
          · exact F64.round_nonneg (by linarith [not_lt.1 h3])
          · exact F64.round_nonneg (by linarith [MinPartialCollectEfficacy_lt_one])

/-- What passes the rescan recheck is at most the ceiling. -/
theorem rescanStage_le {cfg : RecyclerHeuristic} {s : RecyclerSweep} {e : Double} {n : ℕ}
    (h : rescanStage cfg s e = some n) : n ≤ MaxPartialCollectRescanRootBytes := by
  unfold rescanStage at h
  simp only [] at h
  split_ifs at h with h1
  simp only [Option.some.injEq] at h
  rw [← h]
  exact not_lt.1 h1

/-- The heuristic ratio lies in the unit interval: `ratioStage` either returns false on line
730 or hands on a ratio that passes the assertion on line 744. -/
theorem ratioStage_unit (cfg : RecyclerHeuristic) (r : Recycler) (s : RecyclerSweep)
    (e : Double) (n : ℕ) (he0 : 0 ≤ e) (he1 : e ≤ 1) (hrep : F64.round e = e)
    (hn : n ≤ MaxPartialCollectRescanRootBytes)
    (hunused : r.autoHeap.unusedPartialCollectFreeBytes ≤ MaxUnusedPartialCollectFreeBytes)
    (hcfg : InPartialCollect s = true → 0 < cfg.MaxUncollectedAllocBytesPartialCollect) :
    (InPartialCollect s = true ∧
        s.nextPartialUncollectedAllocBytes > cfg.MaxUncollectedAllocBytesPartialCollect ∧
        ratioStage cfg r s e n = .ok none) ∨
      ∃ ratio, ratioStage cfg r s e n = .ok (some ratio) ∧ 0 ≤ ratio ∧ ratio ≤ 1 ∧
        (InPartialCollect s = false →
          ratio =
            F64.add
              (F64.mul (F64.div (F64.ofNat n) (F64.ofNat MaxPartialCollectRescanRootBytes)) e)
              (F64.sub 1 e)) := by
  have h5 : 0 < MaxPartialCollectRescanRootBytes := by
    rw [MaxPartialCollectRescanRootBytes_eq]; norm_num
  have h16 : 0 < MaxUnusedPartialCollectFreeBytes := by
    rw [MaxUnusedPartialCollectFreeBytes_eq]; norm_num
  obtain ⟨hc0, hc1⟩ := F64.div_ofNat_unit hn h5
  obtain ⟨hr0, hr1⟩ := F64.blend_unit hc0 hc1 he0 he1 hrep
  have hassert : ∀ x : Double, 0 ≤ x → x ≤ 1 → ratioAssert x = .ok (some x) := by
    intro x hx0 hx1
    unfold ratioAssert
    rw [if_pos ⟨hx0, hx1⟩]
  cases hin : InPartialCollect s
  · right
    refine ⟨_, ?_, hr0, hr1, fun _ => rfl⟩
    unfold ratioStage
    simp only [hin, Bool.false_eq_true, if_false]
    exact hassert _ hr0 hr1
  · by_cases hgt : s.nextPartialUncollectedAllocBytes >
        cfg.MaxUncollectedAllocBytesPartialCollect
    · left
      refine ⟨rfl, hgt, ?_⟩
      unfold ratioStage
      simp only [hin, if_true, hgt]
    · right
      have hpos := hcfg hin
      obtain ⟨hu0, hu1⟩ := F64.div_ofNat_unit (not_lt.1 hgt) hpos
      obtain ⟨ha0, ha1⟩ := F64.div_ofNat_unit hunused h16
      obtain ⟨hp0, hp1⟩ := F64.pressure_unit ha0 ha1 hu0 hu1
      obtain ⟨hf0, hf1⟩ := F64.pressure_unit hr0 hr1 hp0 hp1
      refine ⟨_, ?_, hf0, hf1, fun h => by cases h⟩
      unfold ratioStage
      simp only [hin, if_true, hgt, if_false, Nat.ne_of_gt hpos]
      exact hassert _ hf0 hf1

/-- The getters fail only on their own assertions. -/
theorem getter_error_ne {r : Recycler} {s : RecyclerSweep} {k : ℕ} :
    (GetNewObjectAllocBytes r s = .error k → k ≠ 744) ∧
      (GetNewObjectFreeBytes r s = .error k → k ≠ 744) := by
  constructor
  · intro h
    unfold GetNewObjectAllocBytes at h
    split_ifs at h <;> simp only [Except.error.injEq] at h <;> omega
  · intro h
    unfold GetNewObjectFreeBytes at h
    split_ifs at h <;> simp only [Except.error.injEq] at h <;> omega

/-- The page reuse heuristics do not fail on line 744. -/
theorem collectEfficacyStage_error_ne {cfg : RecyclerHeuristic} {r : Recycler}
    {s : RecyclerSweep} {k : ℕ} (h : collectEfficacyStage cfg r s = .error k) : k ≠ 744 := by
  unfold collectEfficacyStage at h
  simp only [] at h
  split at h
  · rename_i n hn
    simp only [Except.error.injEq] at h
    rw [← h]
    exact getter_error_ne.1 hn
  · split_ifs at h
    split at h
    · rename_i n hn
      simp only [Except.error.injEq] at h
      rw [← h]
      exact getter_error_ne.2 hn
    · split_ifs at h <;> simp only [Except.error.injEq] at h <;> omega

/-- The threshold stage fails only on line 750. -/
theorem thresholdStage_error {cfg : RecyclerHeuristic} {r : Recycler} {s : RecyclerSweep}
    {e ratio : Double} {k : ℕ} (h : thresholdStage cfg r s e ratio = .error k) : k = 750 := by
  unfold thresholdStage at h
  simp only [] at h
  split_ifs at h
  simp only [Except.error.injEq] at h
  exact h.symm

/-- C18. Ratio range: when the configured `MaxUncollectedAllocBytesPartialCollect` is not zero
(needed only mid partial collect, where it is a divisor), `AdjustPartialHeuristics` never fails
the assertion on line 744. For every state that meets the entry assertions and is rejected
neither by the efficacy floor nor by the rescan recheck, `ratioStage` either returns false on
line 730 (mid partial collect, with more uncollected bytes than the ceiling) or hands on a ratio
with `0 <= ratio <= 1`; when partial collect mode was entered in this cycle the ratio is
`c * e + (1 - e)` in binary64, and mid partial collect the pressure is blended in. -/
theorem AdjustPartialHeuristics_ratio_range (cfg : RecyclerHeuristic) (r : Recycler)
    (s : RecyclerSweep)
    (hcfg : InPartialCollect s = true → 0 < cfg.MaxUncollectedAllocBytesPartialCollect) :
    AdjustPartialHeuristics cfg r s ≠ .error 744 ∧
      ∀ e s1 n, AdjustPartialHeuristicsPre r s →
        collectEfficacyStage cfg r s = .ok (some (e, s1)) →
        rescanStage cfg s1 e = some n →
        (InPartialCollect s = true ∧
          s.nextPartialUncollectedAllocBytes > cfg.MaxUncollectedAllocBytesPartialCollect ∧
          ratioStage cfg r s1 e n = .ok none) ∨
        ∃ ratio, ratioStage cfg r s1 e n = .ok (some ratio) ∧ 0 ≤ ratio ∧ ratio ≤ 1 ∧
          (InPartialCollect s = false →
            ratio =
              F64.add
                (F64.mul (F64.div (F64.ofNat n) (F64.ofNat MaxPartialCollectRescanRootBytes)) e)
                (F64.sub 1 e)) := by
  have key : ∀ e s1 n, r.autoHeap.unusedPartialCollectFreeBytes ≤
        MaxUnusedPartialCollectFreeBytes →
      collectEfficacyStage cfg r s = .ok (some (e, s1)) →
      rescanStage cfg s1 e = some n →
      (InPartialCollect s = true ∧
        s.nextPartialUncollectedAllocBytes > cfg.MaxUncollectedAllocBytesPartialCollect ∧
        ratioStage cfg r s1 e n = .ok none) ∨
      ∃ ratio, ratioStage cfg r s1 e n = .ok (some ratio) ∧ 0 ≤ ratio ∧ ratio ≤ 1 ∧
        (InPartialCollect s = false →
          ratio =
            F64.add
              (F64.mul (F64.div (F64.ofNat n) (F64.ofNat MaxPartialCollectRescanRootBytes)) e)
              (F64.sub 1 e)) := by
    intro e s1 n hunused hstage hrescan
    obtain ⟨he0, he1, hrep⟩ := collectEfficacyStage_unit hstage
    obtain ⟨v, hv⟩ := collectEfficacyStage_session hstage
    have hin : InPartialCollect s1 = InPartialCollect s := by rw [hv]; rfl
    have hnext : s1.nextPartialUncollectedAllocBytes = s.nextPartialUncollectedAllocBytes := by
      rw [hv]
    have := ratioStage_unit cfg r s1 e n he0 he1 hrep (rescanStage_le hrescan) hunused
      (by rw [hin]; exact hcfg)
    rw [hin, hnext] at this
    exact this
  refine ⟨?_, fun e s1 n hpre => key e s1 n hpre.2.2.2.2⟩
  intro h
  unfold AdjustPartialHeuristics at h
  split_ifs at h with h1 h2 h3 h4 h5
  · simp at h
  · simp at h
  · simp at h
  · simp at h
  · simp at h
  split at h
  · rename_i k hk
    simp only [Except.error.injEq] at h
    exact collectEfficacyStage_error_ne hk h
  · cases h
  · rename_i e s1 hstage
    unfold adjustAfterEfficacy at h
    split at h
    · cases h
    · rename_i n hrescan
      rcases key e s1 n (not_lt.1 h5) hstage hrescan with ⟨-, -, hnone⟩ | ⟨ratio, hsome, -⟩
      · rw [hnone] at h
        cases h
      · rw [hsome] at h
        have := thresholdStage_error h
        omega

/-- The example mid partial collect meets the entry assertions. -/
theorem pressureExample_pre : AdjustPartialHeuristicsPre zeroAllocRecycler pressureSweep := by
  simp [AdjustPartialHeuristicsPre, zeroAllocRecycler, pressureSweep, zeroAllocSweep,
    floorRecycler, floorSweep, RecyclerSweep.zero, Recycler.idle, HeapInfo.empty,
    InPartialCollect, MaxPartialCollectRescanRootBytes, MaxUnusedPartialCollectFreeBytes]

/-- The example mid partial collect allocated nothing in this cycle: the efficacy is one. -/
theorem pressureExample_stage :
    collectEfficacyStage floorCfg zeroAllocRecycler pressureSweep =
      .ok (some (1, pressureSweep)) := by
  have halloc : GetNewObjectAllocBytes zeroAllocRecycler pressureSweep = .ok 0 := by
    simp [GetNewObjectAllocBytes, zeroAllocRecycler, pressureSweep, zeroAllocSweep,
      floorRecycler, floorSweep, RecyclerSweep.zero, Recycler.idle]
  unfold collectEfficacyStage
  rw [halloc]
  rfl

/-- Witness for C18: a session mid partial collect under a ceiling of `2 ^ 63` bytes. -/
theorem AdjustPartialHeuristics_ratio_range_witness :
    (InPartialCollect pressureSweep = true →
        0 < floorCfg.MaxUncollectedAllocBytesPartialCollect) ∧
      ∃ ratio, ratioStage floorCfg zeroAllocRecycler pressureSweep 1 0 = .ok (some ratio) ∧
        0 ≤ ratio ∧ ratio ≤ 1 := by
  have hcfg : InPartialCollect pressureSweep = true →
      0 < floorCfg.MaxUncollectedAllocBytesPartialCollect := by
    intro _
    show 0 < 2 ^ 63
    norm_num
  have hrescan : rescanStage floorCfg pressureSweep 1 = some 0 :=
    rescanStage_of_full_efficacy floorCfg pressureSweep (Nat.zero_le _)
  rcases (AdjustPartialHeuristics_ratio_range floorCfg zeroAllocRecycler pressureSweep hcfg).2
    1 pressureSweep 0 pressureExample_pre pressureExample_stage hrescan with
    ⟨-, hgt, -⟩ | ⟨ratio, h1, h2, h3, -⟩
  · exact absurd hgt (by show ¬ (500 > 2 ^ 63); norm_num)
  · exact ⟨hcfg, ratio, h1, h2, h3⟩

/-- A ratio that `ratioStage` hands on has passed the assertion on line 744. -/
theorem ratioStage_some_unit {cfg : RecyclerHeuristic} {r : Recycler} {s : RecyclerSweep}
    {e ratio : Double} {n : ℕ} (h : ratioStage cfg r s e n = .ok (some ratio)) :
    0 ≤ ratio ∧ ratio ≤ 1 := by
  have key : ∀ x : Double, ratioAssert x = .ok (some ratio) → 0 ≤ ratio ∧ ratio ≤ 1 := by
    intro x hx
    unfold ratioAssert at hx
    split_ifs at hx with hb
    simp only [Except.ok.injEq, Option.some.injEq] at hx
    rw [← hx]
    exact hb
  unfold ratioStage at h
  simp only [] at h
  split_ifs at h
  · simp at h
  · exact key _ h
  · exact key _ h

/-- The scaled part of the threshold is at most the range it scales. -/
theorem F64.toSizeT_scale_le {range : ℕ} {ratio : Double} (hrange : range ≤ 2 ^ 53)
    (h0 : 0 ≤ ratio) (h1 : ratio ≤ 1) :
    F64.toSizeT (F64.mul (F64.ofNat range) ratio) ≤ range := by
  have hof := F64.ofNat_of_le hrange
  have hx0 : (0 : ℚ) ≤ (range : ℚ) * ratio := mul_nonneg (by positivity) h0
  have hx1 : (range : ℚ) * ratio ≤ range := mul_le_of_le_one_right (by positivity) h1
  have hle : F64.mul (F64.ofNat range) ratio ≤ range := by
    unfold F64.mul
    rw [hof]
    have := F64.round_mono hx0 hx1
    have hr : F64.round (range : ℚ) = range := hof
    rw [hr] at this
    exact this
  have hfl : ⌊F64.mul (F64.ofNat range) ratio⌋ ≤ (range : ℤ) := by
    have h2 := Int.floor_le (F64.mul (F64.ofNat range) ratio)
    have h3 : ((⌊F64.mul (F64.ofNat range) ratio⌋ : ℤ) : ℚ) ≤ ((range : ℤ) : ℚ) := by
      push_cast
      exact h2.trans hle
    exact_mod_cast h3
  unfold F64.toSizeT
  have : ⌊F64.mul (F64.ofNat range) ratio⌋.toNat ≤ range := by omega
  exact (Nat.mod_le _ _).trans this

/-- C19, amended. Threshold scaling: when the configured `MaxPartialUncollectedNewPageCount` is
at least `MinPartialUncollectedNewPageCount` (4 MB worth of pages, `4 * 1024 * 1024 / PageSize`)
and exceeds it by at most `2 ^ 53` pages, then for every ratio that `ratioStage` hands on the
threshold stage passes the assertion on line 750 and stores
`MinPartialUncollectedNewPageCount + (size_t)((double)(Max - Min) * ratio)`, which lies between
the floor and the configured ceiling inclusive. -/
theorem thresholdStage_scaling (cfg : RecyclerHeuristic) (r : Recycler) (s : RecyclerSweep)
    (e ratio : Double) (n : ℕ) (hratio : ratioStage cfg r s e n = .ok (some ratio))
    (hmin : MinPartialUncollectedNewPageCount cfg ≤ cfg.MaxPartialUncollectedNewPageCount)
    (hrange : cfg.MaxPartialUncollectedNewPageCount - MinPartialUncollectedNewPageCount cfg ≤
      2 ^ 53) :
    MinPartialUncollectedNewPageCount cfg = 4 * 1024 * 1024 / cfg.PageSize ∧
    ∃ b r', thresholdStage cfg r s e ratio = .ok (b, r', s) ∧
      r'.uncollectedNewPageCountPartialCollect =
        MinPartialUncollectedNewPageCount cfg +
          F64.toSizeT
            (F64.mul
              (F64.ofNat
                (cfg.MaxPartialUncollectedNewPageCount - MinPartialUncollectedNewPageCount cfg))
              ratio) ∧
      MinPartialUncollectedNewPageCount cfg ≤ r'.uncollectedNewPageCountPartialCollect ∧
      r'.uncollectedNewPageCountPartialCollect ≤ cfg.MaxPartialUncollectedNewPageCount := by
  refine ⟨rfl, ?_⟩
  obtain ⟨h0, h1⟩ := ratioStage_some_unit hratio
  have ht := F64.toSizeT_scale_le hrange h0 h1
  have hM : MinPartialUncollectedNewPageCount cfg ≤ 4 * 1024 * 1024 := Nat.div_le_self _ _
  have hrg : (cfg.MaxPartialUncollectedNewPageCount + SizeTModulus -
      MinPartialUncollectedNewPageCount cfg) % SizeTModulus =
        cfg.MaxPartialUncollectedNewPageCount - MinPartialUncollectedNewPageCount cfg := by
    have : cfg.MaxPartialUncollectedNewPageCount + SizeTModulus -
        MinPartialUncollectedNewPageCount cfg =
          cfg.MaxPartialUncollectedNewPageCount - MinPartialUncollectedNewPageCount cfg +
            SizeTModulus := by omega
    rw [this, Nat.add_mod_right]
    apply Nat.mod_eq_of_lt
    unfold SizeTModulus
    omega
  have hadd : sizeAdd (MinPartialUncollectedNewPageCount cfg)
      (F64.toSizeT
        (F64.mul
          (F64.ofNat
            (cfg.MaxPartialUncollectedNewPageCount - MinPartialUncollectedNewPageCount cfg))
          ratio)) =
      MinPartialUncollectedNewPageCount cfg +
        F64.toSizeT
          (F64.mul
            (F64.ofNat
              (cfg.MaxPartialUncollectedNewPageCount - MinPartialUncollectedNewPageCount cfg))
            ratio) := by
    apply Nat.mod_eq_of_lt
    unfold SizeTModulus
    omega
  unfold thresholdStage
  simp only [hrg, hadd]
  have hchk : (decide (MinPartialUncollectedNewPageCount cfg +
        F64.toSizeT
          (F64.mul
            (F64.ofNat
              (cfg.MaxPartialUncollectedNewPageCount - MinPartialUncollectedNewPageCount cfg))
            ratio) ≥ MinPartialUncollectedNewPageCount cfg) &&
      decide (MinPartialUncollectedNewPageCount cfg +
        F64.toSizeT
          (F64.mul
            (F64.ofNat
              (cfg.MaxPartialUncollectedNewPageCount - MinPartialUncollectedNewPageCount cfg))
            ratio) ≤ cfg.MaxPartialUncollectedNewPageCount)) = true := by
    simp only [Bool.and_eq_true, decide_eq_true_eq]
    constructor <;> omega
  rw [hchk]
  simp only [Bool.not_true, Bool.false_eq_true, if_false]
  have hlo : MinPartialUncollectedNewPageCount cfg ≤
      MinPartialUncollectedNewPageCount cfg +
        F64.toSizeT
          (F64.mul
            (F64.ofNat
              (cfg.MaxPartialUncollectedNewPageCount - MinPartialUncollectedNewPageCount cfg))
            ratio) := Nat.le_add_right _ _
  have hhi : MinPartialUncollectedNewPageCount cfg +
        F64.toSizeT
          (F64.mul
            (F64.ofNat
              (cfg.MaxPartialUncollectedNewPageCount - MinPartialUncollectedNewPageCount cfg))
            ratio) ≤ cfg.MaxPartialUncollectedNewPageCount := by omega
  split_ifs
  · exact ⟨_, _, rfl, rfl, hlo, hhi⟩
  · exact ⟨_, _, rfl, rfl, hlo, hhi⟩

/-- With a ceiling below the floor the assertion on line 750 fails at ratio zero. -/
theorem thresholdStage_below_floor (cfg : RecyclerHeuristic) (r : Recycler) (s : RecyclerSweep)
    (e : Double)
    (hlt : cfg.MaxPartialUncollectedNewPageCount < MinPartialUncollectedNewPageCount cfg)
    (hmin : MinPartialUncollectedNewPageCount cfg < SizeTModulus) :
    thresholdStage cfg r s e 0 = .error 750 := by
  have hadd : sizeAdd (MinPartialUncollectedNewPageCount cfg) 0 =
      MinPartialUncollectedNewPageCount cfg := by
    unfold sizeAdd
    rw [Nat.add_zero, Nat.mod_eq_of_lt hmin]
  have hchk : (decide (MinPartialUncollectedNewPageCount cfg ≥
        MinPartialUncollectedNewPageCount cfg) &&
      decide (MinPartialUncollectedNewPageCount cfg ≤
        cfg.MaxPartialUncollectedNewPageCount)) = false := by
    simp only [Bool.and_eq_false_iff, decide_eq_false_iff_not]
    right
    omega
  unfold thresholdStage
  simp only [F64.mul_zero_right, F64.toSizeT_zero, hadd, hchk, Bool.not_false, if_true]

/-- The page reuse heuristics on the zero allocation example, under any configuration. -/
theorem zeroAllocExample_stage (cfg : RecyclerHeuristic) :
    collectEfficacyStage cfg zeroAllocRecycler zeroAllocSweep =
      .ok (some (1, zeroAllocSweep)) := by
  unfold collectEfficacyStage
  rw [zeroAllocExample_alloc]
  rfl

/-- C19, counterexample. Under a configured ceiling of 100 pages, below the 4 MB floor of 1024
pages, the zero allocation example reaches the scaling step with ratio zero, the threshold
computed is the floor, above the ceiling, and the assertion on line 750 fails. -/
theorem AdjustPartialHeuristics_low_ceiling_counterexample :
    lowCeilingCfg.MaxPartialUncollectedNewPageCount <
        MinPartialUncollectedNewPageCount lowCeilingCfg ∧
      ratioStage lowCeilingCfg zeroAllocRecycler zeroAllocSweep 1 0 = .ok (some 0) ∧
      thresholdStage lowCeilingCfg zeroAllocRecycler zeroAllocSweep 1 0 = .error 750 ∧
      AdjustPartialHeuristics lowCeilingCfg zeroAllocRecycler zeroAllocSweep = .error 750 := by
  have hmin : MinPartialUncollectedNewPageCount lowCeilingCfg = 1024 := by
    show 4 * 1024 * 1024 / 4096 = 1024
    norm_num
  have hlt : lowCeilingCfg.MaxPartialUncollectedNewPageCount <
      MinPartialUncollectedNewPageCount lowCeilingCfg := by
    rw [hmin]
    show 100 < 1024
    norm_num
  have hrescan : rescanStage lowCeilingCfg zeroAllocSweep 1 = some 0 :=
    rescanStage_of_full_efficacy lowCeilingCfg zeroAllocSweep (Nat.zero_le _)
  have hratio := ratioStage_fresh_full lowCeilingCfg zeroAllocRecycler zeroAllocSweep rfl
  have hthreshold := thresholdStage_below_floor lowCeilingCfg zeroAllocRecycler zeroAllocSweep 1
    hlt (by rw [hmin]; unfold SizeTModulus; norm_num)
  exact ⟨hlt, hratio, hthreshold,
    (AdjustPartialHeuristics_of_stage _ _ _ _ _ zeroAllocExample_pre
      (zeroAllocExample_stage lowCeilingCfg)).trans
      ((adjustAfterEfficacy_of_stages _ _ _ _ _ _ hrescan hratio).trans hthreshold)⟩

/-- Witness for C19: a ceiling of 2048 pages over the floor of 1024 pages, at ratio one. -/
theorem thresholdStage_scaling_witness :
    MinPartialUncollectedNewPageCount wideCfg ≤ wideCfg.MaxPartialUncollectedNewPageCount ∧
      ∃ b r', thresholdStage wideCfg zeroAllocRecycler zeroAllocSweep 0 1 =
          .ok (b, r', zeroAllocSweep) ∧
        MinPartialUncollectedNewPageCount wideCfg ≤ r'.uncollectedNewPageCountPartialCollect ∧
        r'.uncollectedNewPageCountPartialCollect ≤ wideCfg.MaxPartialUncollectedNewPageCount := by
  have hmin : MinPartialUncollectedNewPageCount wideCfg = 1024 := by
    show 4 * 1024 * 1024 / 4096 = 1024
    norm_num
  have hle : MinPartialUncollectedNewPageCount wideCfg ≤
      wideCfg.MaxPartialUncollectedNewPageCount := by
    rw [hmin]
    show 1024 ≤ 2048
    norm_num
  obtain ⟨-, b, r', h1, -, h3, h4⟩ :=
    thresholdStage_scaling wideCfg zeroAllocRecycler zeroAllocSweep 0 1 0
      (ratioStage_fresh_zero wideCfg zeroAllocRecycler zeroAllocSweep rfl) hle
      (by
        rw [hmin]
        show 2048 - 1024 ≤ 2 ^ 53
        norm_num)
  exact ⟨hle, b, r', h1, h3, h4⟩

/-- When the threshold stage returns true, the projected total it formed is below the full
collect ceiling. -/
theorem thresholdStage_true {cfg : RecyclerHeuristic} {r r' : Recycler} {s s' : RecyclerSweep}
    {e ratio : Double} (h : thresholdStage cfg r s e ratio = .ok (true, r', s')) :
    s' = s ∧
      (r'.uncollectedNewPageCountPartialCollect * cfg.PageSize
        + s.nextPartialUncollectedAllocBytes
        + F64.toSizeT (F64.mul (F64.ofNat s.reuseByteCount) (F64.sub 1 e))) % SizeTModulus <
          cfg.MaxUncollectedAllocBytesPartialCollect := by
  unfold thresholdStage at h
  simp only [] at h
  split_ifs at h with h1 h2
  · simp at h
  · simp only [Except.ok.injEq, Prod.mk.injEq] at h
    obtain ⟨-, hr, hs⟩ := h
    subst hr hs
    exact ⟨rfl, not_le.1 h2⟩

/-- The final check of the threshold stage decides the result: unless the assertion on line
750 fails, the stage returns true exactly when the projected total is below the full collect
ceiling. -/
theorem thresholdStage_result (cfg : RecyclerHeuristic) (r : Recycler) (s : RecyclerSweep)
    (e ratio : Double) :
    thresholdStage cfg r s e ratio = .error 750 ∨
      ∃ b r', thresholdStage cfg r s e ratio = .ok (b, r', s) ∧
        (b = true ↔
          (r'.uncollectedNewPageCountPartialCollect * cfg.PageSize
            + s.nextPartialUncollectedAllocBytes
            + F64.toSizeT (F64.mul (F64.ofNat s.reuseByteCount) (F64.sub 1 e))) %
              SizeTModulus < cfg.MaxUncollectedAllocBytesPartialCollect) := by
  unfold thresholdStage
  simp only []
  split_ifs with h1 h2
  · left; rfl
  · right
    exact ⟨_, _, rfl, by simpa using h2⟩
  · right
    exact ⟨_, _, rfl, by simpa using h2⟩

/-- C20. Final sanity check: whenever `AdjustPartialHeuristics` returns true, the projected
total `uncollectedNewPageCountPartialCollect * PageSize + nextPartialUncollectedAllocBytes +
(size_t)((double)reuseByteCount * (1.0 - e))`, a `size_t` sum, is strictly below
`MaxUncollectedAllocBytesPartialCollect`, with `e` the efficacy of the page reuse heuristics;
when the sum fits 64 bits that is the plain sum. The threshold stage, unless its assertion on
line 750 fails, returns true exactly when the total is below the ceiling, and false
otherwise. -/
theorem AdjustPartialHeuristics_true_below_ceiling (cfg : RecyclerHeuristic) (r r' : Recycler)
    (s s' : RecyclerSweep) (h : AdjustPartialHeuristics cfg r s = .ok (true, r', s')) :
    (∃ e, collectEfficacyStage cfg r s = .ok (some (e, s')) ∧
      (r'.uncollectedNewPageCountPartialCollect * cfg.PageSize
        + s.nextPartialUncollectedAllocBytes
        + F64.toSizeT (F64.mul (F64.ofNat s.reuseByteCount) (F64.sub 1 e))) % SizeTModulus <
          cfg.MaxUncollectedAllocBytesPartialCollect ∧
      (r'.uncollectedNewPageCountPartialCollect * cfg.PageSize
          + s.nextPartialUncollectedAllocBytes
          + F64.toSizeT (F64.mul (F64.ofNat s.reuseByteCount) (F64.sub 1 e)) < SizeTModulus →
        r'.uncollectedNewPageCountPartialCollect * cfg.PageSize
          + s.nextPartialUncollectedAllocBytes
          + F64.toSizeT (F64.mul (F64.ofNat s.reuseByteCount) (F64.sub 1 e)) <
            cfg.MaxUncollectedAllocBytesPartialCollect)) ∧
    ∀ (r0 : Recycler) (s0 : RecyclerSweep) (e ratio : Double),
      thresholdStage cfg r0 s0 e ratio = .error 750 ∨
        ∃ b r1, thresholdStage cfg r0 s0 e ratio = .ok (b, r1, s0) ∧
          (b = true ↔
            (r1.uncollectedNewPageCountPartialCollect * cfg.PageSize
              + s0.nextPartialUncollectedAllocBytes
              + F64.toSizeT (F64.mul (F64.ofNat s0.reuseByteCount) (F64.sub 1 e))) %
                SizeTModulus < cfg.MaxUncollectedAllocBytesPartialCollect) := by
  refine ⟨?_, fun r0 s0 e ratio => thresholdStage_result cfg r0 s0 e ratio⟩
  unfold AdjustPartialHeuristics at h
  split_ifs at h
  split at h
  · cases h
  · simp at h
  · rename_i e s1 hstage
    obtain ⟨v, hv⟩ := collectEfficacyStage_session hstage
    unfold adjustAfterEfficacy at h
    split at h
    · simp at h
    · split at h
      · cases h
      · simp at h
      · obtain ⟨hs, hlt⟩ := thresholdStage_true h
        subst hs
        have hnext : s'.nextPartialUncollectedAllocBytes = s.nextPartialUncollectedAllocBytes := by
          rw [hv]
        have hreuse : s'.reuseByteCount = s.reuseByteCount := by rw [hv]
        rw [hnext, hreuse] at hlt
        refine ⟨e, hstage, hlt, fun hfit => ?_⟩
        rw [Nat.mod_eq_of_lt hfit] at hlt
        exact hlt

/-- Witness for C20: the zero allocation example returns true, and its projected total is below
the ceiling of `2 ^ 63` bytes. -/
theorem AdjustPartialHeuristics_true_below_ceiling_witness :
    ∃ r' e, AdjustPartialHeuristics floorCfg zeroAllocRecycler zeroAllocSweep =
        .ok (true, r', zeroAllocSweep) ∧
      (r'.uncollectedNewPageCountPartialCollect * floorCfg.PageSize
        + zeroAllocSweep.nextPartialUncollectedAllocBytes
        + F64.toSizeT (F64.mul (F64.ofNat zeroAllocSweep.reuseByteCount) (F64.sub 1 e))) %
          SizeTModulus < floorCfg.MaxUncollectedAllocBytesPartialCollect := by
  obtain ⟨r', h⟩ := zeroAllocExample_adjust
  obtain ⟨⟨e, -, hlt, -⟩, -⟩ :=
    AdjustPartialHeuristics_true_below_ceiling floorCfg zeroAllocRecycler r' zeroAllocSweep
      zeroAllocSweep h
  exact ⟨r', e, h, hlt⟩

/-- Three of four bytes freed: the computed efficacy is exactly `0.75`. -/
theorem collectEfficacyOf_three_quarters : collectEfficacyOf 3 4 = 3 / 4 := by
  have h3 : F64.ofNat 3 = 3 := by
    have := F64.ofNat_of_le (n := 3) (by norm_num)
    simpa using this
  have h4 : F64.ofNat 4 = 4 := by
    have := F64.ofNat_of_le (n := 4) (by norm_num)
    simpa using this
  unfold collectEfficacyOf F64.div
  rw [h3, h4]
  apply F64.round_of_rep
  exact ⟨3, -2, by norm_num, by norm_num, by norm_num⟩

/-- The binary64 difference `0.75 - 0.1`. -/
theorem F64.sub_three_quarters_floor :
    F64.sub (3 / 4) MinPartialCollectEfficacy = 5854679515581645 / 9007199254740992 := by
  unfold F64.sub
  rw [F64.MinPartialCollectEfficacy_eq]
  rw [F64.round_eq (-53) 5854679515581645 (by norm_num) (by norm_num) (by norm_num)
    (by rw [abs_lt]; constructor <;> norm_num)]
  norm_num

/-- The binary64 difference `1.0 - 0.1`. -/
theorem F64.sub_one_floor :
    F64.sub 1 MinPartialCollectEfficacy = 8106479329266893 / 9007199254740992 := by
  unfold F64.sub
  rw [F64.MinPartialCollectEfficacy_eq]
  rw [F64.round_eq (-53) 8106479329266893 (by norm_num) (by norm_num) (by norm_num)
    (by rw [abs_lt]; constructor <;> norm_num)]
  norm_num

/-- The binary64 quotient of the two differences: the rescaled efficacy of `0.75`. -/
theorem F64.div_rescaled_three_quarters :
    F64.div (5854679515581645 / 9007199254740992) (8106479329266893 / 9007199254740992) =
      6505199461757383 / 9007199254740992 := by
  unfold F64.div
  rw [F64.round_eq (-53) 6505199461757383 (by norm_num) (by norm_num) (by norm_num)
    (by rw [abs_lt]; constructor <;> norm_num)]
  norm_num

/-- The binary64 difference `1.0 - e` at the rescaled efficacy of `0.75`. -/
theorem F64.sub_one_rescaled :
    F64.sub 1 (6505199461757383 / 9007199254740992) =
      2501999792983609 / 9007199254740992 := by
  unfold F64.sub
  rw [F64.round_eq (-54) 5003999585967218 (by norm_num) (by norm_num) (by norm_num)
    (by rw [abs_lt]; constructor <;> norm_num)]
  norm_num

/-- The binary64 product of 4609 blocks with `1.0 - e`. -/
theorem F64.mul_blocks_rescaled :
    F64.mul (F64.ofNat 4609) (2501999792983609 / 9007199254740992) =
      2815360606899769 / 2199023255552 := by
  have h : F64.ofNat 4609 = 4609 := by
    have := F64.ofNat_of_le (n := 4609) (by norm_num)
    simpa using this
  unfold F64.mul
  rw [h]
  rw [F64.round_eq (-42) 5630721213799538 (by norm_num) (by norm_num) (by norm_num)
    (by rw [abs_lt]; constructor <;> norm_num)]
  norm_num

/-- The block count the code derives: 1280. -/
theorem F64.toSizeT_blocks_rescaled :
    F64.toSizeT (2815360606899769 / 2199023255552) = 1280 := by
  unfold F64.toSizeT
  have : ⌊(2815360606899769 / 2199023255552 : ℚ)⌋ = 1280 := by
    rw [Int.floor_eq_iff]
    constructor <;> norm_num
  rw [this]
  rfl

/-- The page reuse heuristics when the efficacy passes the floor, evaluated. -/
theorem collectEfficacyStage_of_efficacy (cfg : RecyclerHeuristic) (r : Recycler)
    (s : RecyclerSweep) (allocBytes freedBytes : ℕ) (e : Double)
    (halloc : GetNewObjectAllocBytes r s = .ok allocBytes)
    (hfreed : GetNewObjectFreeBytes r s = .ok freedBytes)
    (hpos : allocBytes ≠ 0) (hle : ¬ allocBytes < freedBytes)
    (hfloor : ¬ collectEfficacyOf freedBytes allocBytes < MinPartialCollectEfficacy)
    (he : F64.div (F64.sub (collectEfficacyOf freedBytes allocBytes) MinPartialCollectEfficacy)
      (F64.sub 1 MinPartialCollectEfficacy) = e)
    (hone : ¬ 1 < e) :
    collectEfficacyStage cfg r s =
      .ok (some (e,
        { s with
          partialCollectSmallHeapBlockReuseMinFreeBytes :=
            F64.toSizeT (F64.mul (F64.ofNat cfg.PageSize) e) })) := by
  unfold collectEfficacyStage
  rw [halloc, hfreed]
  simp only [hpos, hle, hfloor, he, hone, if_false]

/-- The rescan recheck rejects exactly when the larger of the rescan estimate and
`(size_t)((double)reuseHeapBlockCount * (1.0 - e)) * PageSize` exceeds the ceiling. -/
theorem rescanStage_none_iff (cfg : RecyclerHeuristic) (s : RecyclerSweep) (e : Double) :
    rescanStage cfg s e = none ↔
      max s.rescanRootBytes
        ((F64.toSizeT (F64.mul (F64.ofNat s.reuseHeapBlockCount) (F64.sub 1 e)) * cfg.PageSize) %
          SizeTModulus) > MaxPartialCollectRescanRootBytes := by
  unfold rescanStage
  simp only []
  split_ifs with h
  · exact ⟨fun _ => h, fun _ => rfl⟩
  · exact ⟨fun hn => (by cases hn), fun hgt => absurd hgt h⟩

/-- C17, amended. Rescan cost recheck: with `e` the rescaled efficacy that the page reuse
heuristics hand on (in `[0, 1]`) and the estimate
`(size_t)((double)reuseHeapBlockCount * (1.0 - e)) * PageSize`, the block count truncated to an
integer before it is multiplied by the page size, `AdjustPartialHeuristics` returns false, with
the collector untouched, whenever the larger of `rescanRootBytes` and the estimate exceeds
`5 * 1024 * 1024`; the recheck itself rejects exactly then, for every `reuseHeapBlockCount`,
`rescanRootBytes` and `e`. -/
theorem AdjustPartialHeuristics_rescan_recheck (cfg : RecyclerHeuristic) (r : Recycler)
    (s s1 : RecyclerSweep) (e : Double) (hpre : AdjustPartialHeuristicsPre r s)
    (hstage : collectEfficacyStage cfg r s = .ok (some (e, s1)))
    (hmax : max s.rescanRootBytes
      ((F64.toSizeT (F64.mul (F64.ofNat s.reuseHeapBlockCount) (F64.sub 1 e)) * cfg.PageSize) %
        SizeTModulus) > 5 * 1024 * 1024) :
    AdjustPartialHeuristics cfg r s = .ok (false, r, s1) ∧ 0 ≤ e ∧ e ≤ 1 ∧
      ∀ (s0 : RecyclerSweep) (e0 : Double),
        rescanStage cfg s0 e0 = none ↔
          max s0.rescanRootBytes
            ((F64.toSizeT (F64.mul (F64.ofNat s0.reuseHeapBlockCount) (F64.sub 1 e0)) *
              cfg.PageSize) % SizeTModulus) > 5 * 1024 * 1024 := by
  obtain ⟨he0, he1, -⟩ := collectEfficacyStage_unit hstage
  obtain ⟨v, hv⟩ := collectEfficacyStage_session hstage
  have hiff : ∀ (s0 : RecyclerSweep) (e0 : Double),
      rescanStage cfg s0 e0 = none ↔
        max s0.rescanRootBytes
          ((F64.toSizeT (F64.mul (F64.ofNat s0.reuseHeapBlockCount) (F64.sub 1 e0)) *
            cfg.PageSize) % SizeTModulus) > 5 * 1024 * 1024 := by
    intro s0 e0
    rw [rescanStage_none_iff, MaxPartialCollectRescanRootBytes_eq]
  refine ⟨?_, he0, he1, hiff⟩
  have hnone : rescanStage cfg s1 e = none := by
    rw [hiff]
    have h1 : s1.rescanRootBytes = s.rescanRootBytes := by rw [hv]
    have h2 : s1.reuseHeapBlockCount = s.reuseHeapBlockCount := by rw [hv]
    rw [h1, h2]
    exact hmax
  rw [AdjustPartialHeuristics_of_stage cfg r s s1 e hpre hstage]
  unfold adjustAfterEfficacy
  rw [hnone]

/-- The rescan recheck passes when the estimate stays within the ceiling. -/
theorem rescanStage_of_estimate (cfg : RecyclerHeuristic) (s : RecyclerSweep) (e : Double)
    (blocks : ℕ)
    (hest : F64.toSizeT (F64.mul (F64.ofNat s.reuseHeapBlockCount) (F64.sub 1 e)) = blocks)
    (hle : max s.rescanRootBytes ((blocks * cfg.PageSize) % SizeTModulus) ≤
      MaxPartialCollectRescanRootBytes) :
    rescanStage cfg s e =
      some (max s.rescanRootBytes ((blocks * cfg.PageSize) % SizeTModulus)) := by
  unfold rescanStage
  simp only [hest, not_lt.2 hle, if_false]

theorem reuseExample_alloc : GetNewObjectAllocBytes reuseRecycler reuseSweep = .ok 4 := by
  simp [GetNewObjectAllocBytes, reuseRecycler, reuseSweep, floorRecycler, floorSweep,
    RecyclerSweep.zero, Recycler.idle]

theorem reuseExample_freed : GetNewObjectFreeBytes reuseRecycler reuseSweep = .ok 3 := by
  simp [GetNewObjectFreeBytes, reuseRecycler, reuseSweep, floorRecycler, floorSweep,
    RecyclerSweep.zero, Recycler.idle]

theorem reuseExample_pre : AdjustPartialHeuristicsPre reuseRecycler reuseSweep := by
  simp [AdjustPartialHeuristicsPre, reuseRecycler, reuseSweep, floorRecycler, floorSweep,
    RecyclerSweep.zero, Recycler.idle, HeapInfo.empty, InPartialCollect,
    MaxPartialCollectRescanRootBytes, MaxUnusedPartialCollectFreeBytes]

/-- The page reuse heuristics on the reuse example: the rescaled efficacy of `0.75`. -/
theorem reuseExample_stage :
    collectEfficacyStage floorCfg reuseRecycler reuseSweep =
      .ok (some (6505199461757383 / 9007199254740992,
        { reuseSweep with
          partialCollectSmallHeapBlockReuseMinFreeBytes :=
            F64.toSizeT
              (F64.mul (F64.ofNat floorCfg.PageSize)
                (6505199461757383 / 9007199254740992)) })) := by
  apply collectEfficacyStage_of_efficacy floorCfg reuseRecycler reuseSweep 4 3 _
    reuseExample_alloc reuseExample_freed (by norm_num) (by norm_num)
  · rw [collectEfficacyOf_three_quarters, F64.MinPartialCollectEfficacy_eq]
    norm_num
  · rw [collectEfficacyOf_three_quarters, F64.sub_three_quarters_floor, F64.sub_one_floor,
      F64.div_rescaled_three_quarters]
  · norm_num

/-- C17, counterexample. With 4 bytes allocated, 3 of them freed, and 4609 blocks to reuse on
pages of 4096 bytes, the rescaled efficacy `e` is about 0.7222 and
`reuseHeapBlockCount x (1 - e) x pageSize` is about 5244017 bytes, above `5 * 1024 * 1024`;
the code truncates the block count to 1280 first and gets exactly `5 * 1024 * 1024`, which
passes the recheck, and `AdjustPartialHeuristics` returns true. -/
theorem AdjustPartialHeuristics_rescan_counterexample :
    reuseSweep.rescanRootBytes = 0 ∧ reuseSweep.reuseHeapBlockCount = 4609 ∧
      floorCfg.PageSize = 4096 ∧
      (5 * 1024 * 1024 : ℚ) <
        max 0 (4609 * (1 - 6505199461757383 / 9007199254740992) * 4096) ∧
      (5 * 1024 * 1024 : ℚ) < max 0 (4609 * (1 - (3 / 4 - 1 / 10) / (1 - 1 / 10)) * 4096) ∧
      ∃ s1 r',
        collectEfficacyStage floorCfg reuseRecycler reuseSweep =
          .ok (some (6505199461757383 / 9007199254740992, s1)) ∧
        AdjustPartialHeuristics floorCfg reuseRecycler reuseSweep = .ok (true, r', s1) := by
  refine ⟨rfl, rfl, rfl, ?_, ?_, ?_⟩
  · rw [lt_max_iff]; right; norm_num
  · rw [lt_max_iff]; right; norm_num
  have hstage := reuseExample_stage
  obtain ⟨he0, he1, hrep⟩ := collectEfficacyStage_unit hstage
  have hest : F64.toSizeT (F64.mul (F64.ofNat 4609)
      (F64.sub 1 (6505199461757383 / 9007199254740992))) = 1280 := by
    rw [F64.sub_one_rescaled, F64.mul_blocks_rescaled, F64.toSizeT_blocks_rescaled]
  have hmaxv : max 0 ((1280 * 4096) % SizeTModulus) = 5242880 := by
    unfold SizeTModulus
    norm_num
  have hrescan := rescanStage_of_estimate floorCfg
    { reuseSweep with
      partialCollectSmallHeapBlockReuseMinFreeBytes :=
        F64.toSizeT
          (F64.mul (F64.ofNat floorCfg.PageSize) (6505199461757383 / 9007199254740992)) }
    (6505199461757383 / 9007199254740992) 1280 hest
    (by
      show max 0 ((1280 * 4096) % SizeTModulus) ≤ MaxPartialCollectRescanRootBytes
      rw [hmaxv, MaxPartialCollectRescanRootBytes_eq])
  have hfresh : InPartialCollect
      { reuseSweep with
        partialCollectSmallHeapBlockReuseMinFreeBytes :=
          F64.toSizeT
            (F64.mul (F64.ofNat floorCfg.PageSize) (6505199461757383 / 9007199254740992)) } =
      false := rfl
  rcases ratioStage_unit floorCfg reuseRecycler _ _ _ he0 he1 hrep (rescanStage_le hrescan)
    reuseExample_pre.2.2.2.2 (fun hin => by rw [hfresh] at hin; cases hin) with
    ⟨hin, -, -⟩ | ⟨ratio, hratio, -⟩
  · rw [hfresh] at hin
    cases hin
  have hmin : MinPartialUncollectedNewPageCount floorCfg = 1024 := by
    show 4 * 1024 * 1024 / 4096 = 1024
    norm_num
  have hthreshold := thresholdStage_of_floor floorCfg reuseRecycler
    { reuseSweep with
      partialCollectSmallHeapBlockReuseMinFreeBytes :=
        F64.toSizeT
          (F64.mul (F64.ofNat floorCfg.PageSize) (6505199461757383 / 9007199254740992)) }
    (6505199461757383 / 9007199254740992) ratio
    hmin.symm (by rw [hmin]; unfold SizeTModulus; norm_num) rfl
    (by
      rw [hmin]
      show (1024 * 4096 + 1) % SizeTModulus < 2 ^ 63
      unfold SizeTModulus
      norm_num)
  exact ⟨_, _, hstage, (AdjustPartialHeuristics_of_stage _ _ _ _ _ reuseExample_pre hstage).trans
    ((adjustAfterEfficacy_of_stages _ _ _ _ _ _ hrescan hratio).trans hthreshold)⟩

/-- The product of a converted count with `1.0` is the count. -/
theorem F64.mul_ofNat_one {n : ℕ} (h : n ≤ 2 ^ 53) : F64.mul (F64.ofNat n) 1 = (n : ℚ) := by
  have hof := F64.ofNat_of_le h
  unfold F64.mul
  rw [hof, mul_one]
  exact hof

/-- The conversion to `size_t` of a count that fits. -/
theorem F64.toSizeT_natCast {n : ℕ} (h : n < SizeTModulus) : F64.toSizeT (n : ℚ) = n := by
  unfold F64.toSizeT
  rw [Int.floor_natCast, Int.toNat_natCast]
  exact Nat.mod_eq_of_lt h

theorem rejectExample_alloc : GetNewObjectAllocBytes rejectRecycler rejectSweep = .ok 10 := by
  simp [GetNewObjectAllocBytes, rejectRecycler, rejectSweep, floorRecycler, floorSweep,
    RecyclerSweep.zero, Recycler.idle]

theorem rejectExample_freed : GetNewObjectFreeBytes rejectRecycler rejectSweep = .ok 1 := by
  simp [GetNewObjectFreeBytes, rejectRecycler, rejectSweep, floorRecycler, floorSweep,
    RecyclerSweep.zero, Recycler.idle]

theorem rejectExample_pre : AdjustPartialHeuristicsPre rejectRecycler rejectSweep := by
  simp [AdjustPartialHeuristicsPre, rejectRecycler, rejectSweep, floorRecycler, floorSweep,
    RecyclerSweep.zero, Recycler.idle, HeapInfo.empty, InPartialCollect,
    MaxPartialCollectRescanRootBytes, MaxUnusedPartialCollectFreeBytes]

/-- One of ten bytes freed: the computed efficacy is the constant `0.1`. -/
theorem collectEfficacyOf_one_tenth : collectEfficacyOf 1 10 = MinPartialCollectEfficacy := by
  have h1 : F64.ofNat 1 = 1 := by
    have := F64.ofNat_of_le (n := 1) (by norm_num)
    simpa using this
  have h10 : F64.ofNat 10 = 10 := by
    have := F64.ofNat_of_le (n := 10) (by norm_num)
    simpa using this
  unfold collectEfficacyOf F64.div MinPartialCollectEfficacy
  rw [h1, h10]

/-- The larger of the rescan estimate and the reuse estimate exceeds the ceiling when the reuse
estimate does. -/
theorem estimate_gt (cfg : RecyclerHeuristic) (s : RecyclerSweep) (e : Double) (blocks : ℕ)
    (hest : F64.toSizeT (F64.mul (F64.ofNat s.reuseHeapBlockCount) (F64.sub 1 e)) = blocks)
    (hgt : 5 * 1024 * 1024 < (blocks * cfg.PageSize) % SizeTModulus) :
    max s.rescanRootBytes
      ((F64.toSizeT (F64.mul (F64.ofNat s.reuseHeapBlockCount) (F64.sub 1 e)) * cfg.PageSize) %
        SizeTModulus) > 5 * 1024 * 1024 := by
  rw [hest]
  exact lt_of_lt_of_le hgt (le_max_right _ _)

/-- Witness for C17: 10 bytes allocated, 1 freed, so that the rescaled efficacy is zero, and
1281 blocks to reuse: the estimate is `1281 * 4096` bytes, above the ceiling, and the call
returns false. -/
theorem AdjustPartialHeuristics_rescan_recheck_witness :
    AdjustPartialHeuristicsPre rejectRecycler rejectSweep ∧
      AdjustPartialHeuristics floorCfg rejectRecycler rejectSweep =
        .ok (false, rejectRecycler, rejectSweep) := by
  have hstage := collectEfficacyStage_at_floor floorCfg rejectRecycler rejectSweep 10 1
    rejectExample_alloc rejectExample_freed (by norm_num) (by norm_num)
    collectEfficacyOf_one_tenth
  have hs1 : ({ rejectSweep with partialCollectSmallHeapBlockReuseMinFreeBytes := 0 } :
      RecyclerSweep) = rejectSweep := rfl
  rw [hs1] at hstage
  have hest : F64.toSizeT (F64.mul (F64.ofNat 1281) (F64.sub 1 0)) = 1281 := by
    rw [F64.one_sub_zero, F64.mul_ofNat_one (by norm_num)]
    exact F64.toSizeT_natCast (by unfold SizeTModulus; norm_num)
  exact ⟨rejectExample_pre,
    (AdjustPartialHeuristics_rescan_recheck floorCfg rejectRecycler rejectSweep rejectSweep 0
      rejectExample_pre hstage
      (estimate_gt floorCfg rejectSweep 0 1281 hest
        (by
          show 5 * 1024 * 1024 < (1281 * 4096) % SizeTModulus
          unfold SizeTModulus
          norm_num))).1⟩

/-- C23, evaluated at a failing input. `BeginSweep(recycler, 0, false)` on an idle collector
with partial collection enabled arms partial collect mode and stores `false` in the session's
`adjustPartialHeuristics`; the `FinishSweep` that follows calls `AdjustPartialHeuristics`
because the collector is in partial collect mode, and the assertion on line 657 fails. -/
theorem FinishSweep_adjust_flag_unchecked :
    ∃ r1 s1, BeginSweep 1 2 (Recycler.idle HeapInfo.empty) 0 false = .ok (r1, s1) ∧
      r1.inPartialCollectMode = true ∧
      s1.adjustPartialHeuristics = false ∧
      AdjustPartialHeuristics floorCfg r1 s1 = .error 657 ∧
      FinishSweep floorCfg ⟨false, true, true⟩ 1 r1 s1 = .error 657 :=
  ⟨_, _, rfl, rfl, rfl, rfl, rfl⟩

/-- The rejecting `FinishSweep`, evaluated: the full collect finish path of the session's
execution context, then the flush of the pending objects. -/
theorem FinishSweep_of_reject (cfg : RecyclerHeuristic) (ww : WriteWatch) (this : Ptr)
    (r r1 : Recycler) (s s1 : RecyclerSweep) (hmarked : s.isPartial = true)
    (hadj : AdjustPartialHeuristics cfg r s = .ok (false, r1, s1)) :
    FinishSweep cfg ww this r s =
      .ok ((if IsBackground s then r1.BackgroundFinishPartialCollect (some this)
            else r1.FinishPartialCollect (some this)).call Collaborator.SweepPendingObjects,
        s1) := by
  have hmode := inPartialCollectMode_of_AdjustPartialHeuristics hadj
  obtain ⟨v, hv⟩ := AdjustPartialHeuristics_session hadj
  have hbg : IsBackground s1 = IsBackground s := by rw [hv]; rfl
  unfold FinishSweep finishSweepAdjust
  rw [hmarked, hmode, hadj]
  simp only [bne_self_eq_false, Bool.false_eq_true, if_false, if_true, hbg]
  cases IsBackground s <;> rfl

/-- C24. When `AdjustPartialHeuristics` returns false inside `FinishSweep`, `FinishSweep`
returns without a failed assertion, and the calls it records are exactly the full collect
finish path, once, and the flush: `BackgroundFinishPartialCollect(this)` when the session
`IsBackground()`, otherwise `FinishPartialCollect(this)`, then `SweepPendingObjects`.
`SweepPartialReusePages` is not called, and `FinishSweep` itself does not assign
`partialUncollectedAllocBytes`: the heuristics leave it alone, and it reaches the collaborator
with the value it had on entry. -/
theorem FinishSweep_reject_path (cfg : RecyclerHeuristic) (ww : WriteWatch) (this : Ptr)
    (r r1 : Recycler) (s s1 : RecyclerSweep) (hmarked : s.isPartial = true)
    (hadj : AdjustPartialHeuristics cfg r s = .ok (false, r1, s1)) :
    ∃ r', FinishSweep cfg ww this r s = .ok (r', s1) ∧
      r'.trace = r.trace ++
        [if IsBackground s then Collaborator.BackgroundFinishPartialCollect (some this)
          else Collaborator.FinishPartialCollect (some this),
         Collaborator.SweepPendingObjects] ∧
      r1.partialUncollectedAllocBytes = r.partialUncollectedAllocBytes ∧
      (IsBackground s = true →
        r' = (r1.call (Collaborator.BackgroundFinishPartialCollect (some this))).call
          Collaborator.SweepPendingObjects ∧
        r'.partialUncollectedAllocBytes = r.partialUncollectedAllocBytes) ∧
      (IsBackground s = false →
        r' = (r1.FinishPartialCollect (some this)).call Collaborator.SweepPendingObjects) := by
  obtain ⟨-, -, hp, htr⟩ := AdjustPartialHeuristics_collector hadj
  refine ⟨_, FinishSweep_of_reject cfg ww this r r1 s s1 hmarked hadj, ?_, hp, ?_, ?_⟩
  · cases IsBackground s <;>
      simp [Recycler.call, Recycler.FinishPartialCollect, Recycler.BackgroundFinishPartialCollect,
        htr]
  · intro hb
    rw [hb]
    exact ⟨rfl, hp⟩
  · intro hb
    rw [hb]
    rfl

/-- The rescan recheck rejects when the larger estimate exceeds `5 * 1024 * 1024`. -/
theorem rescanStage_none_of_gt (cfg : RecyclerHeuristic) (s : RecyclerSweep) (e : Double)
    (h : max s.rescanRootBytes
      ((F64.toSizeT (F64.mul (F64.ofNat s.reuseHeapBlockCount) (F64.sub 1 e)) * cfg.PageSize) %
        SizeTModulus) > 5 * 1024 * 1024) :
    rescanStage cfg s e = none := by
  rw [rescanStage_none_iff, MaxPartialCollectRescanRootBytes_eq]
  exact h

/-- `AdjustPartialHeuristics` returns false when the rescan recheck rejects. -/
theorem AdjustPartialHeuristics_of_rescan_reject (cfg : RecyclerHeuristic) (r : Recycler)
    (s s1 : RecyclerSweep) (e : Double) (hpre : AdjustPartialHeuristicsPre r s)
    (hstage : collectEfficacyStage cfg r s = .ok (some (e, s1)))
    (hnone : rescanStage cfg s1 e = none) :
    AdjustPartialHeuristics cfg r s = .ok (false, r, s1) := by
  rw [AdjustPartialHeuristics_of_stage cfg r s s1 e hpre hstage]
  unfold adjustAfterEfficacy
  rw [hnone]

/-- The heuristics reject the example with 1281 blocks to reuse. -/
theorem rejectExample_adjust :
    AdjustPartialHeuristics floorCfg rejectRecycler rejectSweep =
      .ok (false, rejectRecycler, rejectSweep) := by
  have hstage := collectEfficacyStage_at_floor floorCfg rejectRecycler rejectSweep 10 1
    rejectExample_alloc rejectExample_freed (by norm_num) (by norm_num)
    collectEfficacyOf_one_tenth
  have hs1 : ({ rejectSweep with partialCollectSmallHeapBlockReuseMinFreeBytes := 0 } :
      RecyclerSweep) = rejectSweep := rfl
  rw [hs1] at hstage
  have hest : F64.toSizeT (F64.mul (F64.ofNat 1281) (F64.sub 1 0)) = 1281 := by
    rw [F64.one_sub_zero, F64.mul_ofNat_one (by norm_num)]
    exact F64.toSizeT_natCast (by unfold SizeTModulus; norm_num)
  exact AdjustPartialHeuristics_of_rescan_reject floorCfg rejectRecycler rejectSweep rejectSweep
    0 rejectExample_pre hstage
    (rescanStage_none_of_gt floorCfg rejectSweep 0
      (estimate_gt floorCfg rejectSweep 0 1281 hest
        (by
          show 5 * 1024 * 1024 < (1281 * 4096) % SizeTModulus
          unfold SizeTModulus
          norm_num)))

/-- Witness for C24: the rejected example, finished in the foreground. -/
theorem FinishSweep_reject_path_witness :
    ∃ r', FinishSweep floorCfg ⟨false, true, true⟩ 1 rejectRecycler rejectSweep =
        .ok (r', rejectSweep) ∧
      r'.trace =
        [Collaborator.FinishPartialCollect (some 1), Collaborator.SweepPendingObjects] := by
  obtain ⟨r', h1, h2, -⟩ :=
    FinishSweep_reject_path floorCfg ⟨false, true, true⟩ 1 rejectRecycler rejectRecycler
      rejectSweep rejectSweep rfl rejectExample_adjust
  exact ⟨r', h1, h2⟩

/-- C25. `AddUnaccountedNewObjectAllocBytes` folds the unaccounted bytes `u` of a block into the
totals. In partial collect mode, when the assertion on line 600 holds, it returns with
`partialUncollectedAllocBytes` and `nextPartialUncollectedAllocBytes` each raised by `u` (a
`size_t` sum, the plain sum when it fits 64 bits) and the block's unaccounted counter zero; when
the sum fits, `GetNewObjectAllocBytes()` grows by `u` and `GetNewObjectFreeBytes()` keeps its
value. Outside partial collect mode collector and session are returned as they were and the
block's allocation byte tracking is cleared. -/
theorem AddUnaccountedNewObjectAllocBytes_effect (r : Recycler) (s : RecyclerSweep)
    (heapBlock : SmallHeapBlock) :
    (r.inPartialCollectMode = true →
      (heapBlock.lastUncollectedAllocBytes = 0 ∨ heapBlock.unaccountedAllocBytes = 0) →
      AddUnaccountedNewObjectAllocBytes r s heapBlock =
          .ok ({ r with
                  partialUncollectedAllocBytes :=
                    sizeAdd r.partialUncollectedAllocBytes heapBlock.unaccountedAllocBytes },
               { s with
                  nextPartialUncollectedAllocBytes :=
                    sizeAdd s.nextPartialUncollectedAllocBytes
                      heapBlock.unaccountedAllocBytes },
               { heapBlock with
                  unaccountedAllocBytes := 0
                  lastUncollectedAllocBytes :=
                    heapBlock.lastUncollectedAllocBytes + heapBlock.unaccountedAllocBytes }) ∧
        (r.partialUncollectedAllocBytes + heapBlock.unaccountedAllocBytes < SizeTModulus →
          sizeAdd r.partialUncollectedAllocBytes heapBlock.unaccountedAllocBytes =
            r.partialUncollectedAllocBytes + heapBlock.unaccountedAllocBytes ∧
          (s.nextPartialUncollectedAllocBytes ≤ r.partialUncollectedAllocBytes →
            sizeAdd s.nextPartialUncollectedAllocBytes heapBlock.unaccountedAllocBytes =
              s.nextPartialUncollectedAllocBytes + heapBlock.unaccountedAllocBytes) ∧
          (∀ allocBytes, GetNewObjectAllocBytes r s = .ok allocBytes →
            GetNewObjectAllocBytes
              { r with
                partialUncollectedAllocBytes :=
                  sizeAdd r.partialUncollectedAllocBytes heapBlock.unaccountedAllocBytes }
              { s with
                nextPartialUncollectedAllocBytes :=
                  sizeAdd s.nextPartialUncollectedAllocBytes
                    heapBlock.unaccountedAllocBytes } =
              .ok (allocBytes + heapBlock.unaccountedAllocBytes)) ∧
          (∀ freedBytes, GetNewObjectFreeBytes r s = .ok freedBytes →
            GetNewObjectFreeBytes
              { r with
                partialUncollectedAllocBytes :=
                  sizeAdd r.partialUncollectedAllocBytes heapBlock.unaccountedAllocBytes }
              { s with
                nextPartialUncollectedAllocBytes :=
                  sizeAdd s.nextPartialUncollectedAllocBytes
                    heapBlock.unaccountedAllocBytes } =
              .ok freedBytes))) ∧
    (r.inPartialCollectMode = false →
      AddUnaccountedNewObjectAllocBytes r s heapBlock =
        .ok (r, s, heapBlock.ClearAllAllocBytes) ∧
      heapBlock.ClearAllAllocBytes.unaccountedAllocBytes = 0 ∧
      heapBlock.ClearAllAllocBytes.lastUncollectedAllocBytes = 0) := by
  constructor
  · intro hmode hassert
    have hb : (heapBlock.lastUncollectedAllocBytes == 0 ||
        heapBlock.unaccountedAllocBytes == 0) = true := by
      rcases hassert with h | h <;> simp [h]
    refine ⟨?_, ?_⟩
    · unfold AddUnaccountedNewObjectAllocBytes
      rw [if_pos hmode]
      simp only [SmallHeapBlock.GetAndClearUnaccountedAllocBytes, hb, Bool.not_true,
        Bool.false_eq_true, if_false]
    · intro hfit
      have e2 : sizeAdd r.partialUncollectedAllocBytes heapBlock.unaccountedAllocBytes =
          r.partialUncollectedAllocBytes + heapBlock.unaccountedAllocBytes :=
        Nat.mod_eq_of_lt hfit
      have e1 : s.nextPartialUncollectedAllocBytes ≤ r.partialUncollectedAllocBytes →
          sizeAdd s.nextPartialUncollectedAllocBytes heapBlock.unaccountedAllocBytes =
            s.nextPartialUncollectedAllocBytes + heapBlock.unaccountedAllocBytes :=
        fun hle => Nat.mod_eq_of_lt (by omega)
      refine ⟨e2, e1, ?_, ?_⟩
      · intro allocBytes ha
        unfold GetNewObjectAllocBytes at ha ⊢
        simp only [hmode, Bool.not_true, Bool.false_eq_true, if_false] at ha ⊢
        split_ifs at ha with h1
        simp only [Except.ok.injEq] at ha
        rw [e2, if_neg (by omega)]
        simp only [Except.ok.injEq]
        omega
      · intro freedBytes hf
        unfold GetNewObjectFreeBytes at hf ⊢
        simp only [hmode, Bool.not_true, Bool.false_eq_true, if_false] at hf ⊢
        split_ifs at hf with h1
        simp only [Except.ok.injEq] at hf
        rw [e2, e1 (by omega), if_neg (by omega)]
        simp only [Except.ok.injEq]
        omega
  · intro hmode
    refine ⟨?_, rfl, rfl⟩
    unfold AddUnaccountedNewObjectAllocBytes
    rw [hmode]
    rfl

/-- Witness for C25: a block with 10 unaccounted bytes, a collector in partial collect mode
with 100 partial uncollected bytes. -/
theorem AddUnaccountedNewObjectAllocBytes_effect_witness :
    monotoneRecycler.inPartialCollectMode = true ∧
      ∃ q, AddUnaccountedNewObjectAllocBytes monotoneRecycler RecyclerSweep.zero monotoneBlock =
          .ok q ∧
        q.1.partialUncollectedAllocBytes = 110 ∧
        q.2.1.nextPartialUncollectedAllocBytes = 10 ∧
        q.2.2.unaccountedAllocBytes = 0 :=
  ⟨rfl, _,
    ((AddUnaccountedNewObjectAllocBytes_effect monotoneRecycler RecyclerSweep.zero
      monotoneBlock).1 rfl (Or.inl rfl)).1, rfl, rfl, rfl⟩

/-- The number of blocks of a list that are not leaf blocks. -/
theorem nonLeaf_length_cons (b : SmallHeapBlock) (bs : List SmallHeapBlock) :
    ((b :: bs).filter (fun x => !x.isLeafBlock)).length =
      (if b.isLeafBlock then 0 else 1) + (bs.filter (fun x => !x.isLeafBlock)).length := by
  cases hb : b.isLeafBlock <;> simp [List.filter, hb, Nat.add_comm]

/-- One notification and a sequence of notifications, evaluated. -/
theorem NotifyAllocableObjects_foldl (s : RecyclerSweep) (heapBlock : SmallHeapBlock)
    (blocks : List SmallHeapBlock) :
    NotifyAllocableObjects s heapBlock =
        { s with
          reuseByteCount := sizeAdd s.reuseByteCount heapBlock.expectedFreeBytes
          reuseHeapBlockCount :=
            if heapBlock.isLeafBlock then s.reuseHeapBlockCount
            else sizeAdd s.reuseHeapBlockCount 1 } ∧
      (s.reuseByteCount < SizeTModulus → s.reuseHeapBlockCount < SizeTModulus →
        blocks.foldl NotifyAllocableObjects s =
          { s with
            reuseByteCount :=
              (s.reuseByteCount + (blocks.map (fun b => b.expectedFreeBytes)).sum) %
                SizeTModulus
            reuseHeapBlockCount :=
              (s.reuseHeapBlockCount + (blocks.filter (fun b => !b.isLeafBlock)).length) %
                SizeTModulus }) := by
  constructor
  · unfold NotifyAllocableObjects
    cases heapBlock.isLeafBlock <;> rfl
  · induction blocks generalizing s with
    | nil =>
      intro h1 h2
      simp only [List.foldl_nil, List.map_nil, List.sum_nil, List.filter_nil, List.length_nil,
        Nat.add_zero, Nat.mod_eq_of_lt h1, Nat.mod_eq_of_lt h2]
    | cons b bs ih =>
      intro h1 h2
      have hM : 0 < SizeTModulus := by unfold SizeTModulus; norm_num
      have hstep : NotifyAllocableObjects s b =
          { s with
            reuseByteCount := sizeAdd s.reuseByteCount b.expectedFreeBytes
            reuseHeapBlockCount :=
              if b.isLeafBlock then s.reuseHeapBlockCount
              else sizeAdd s.reuseHeapBlockCount 1 } := by
        unfold NotifyAllocableObjects
        cases b.isLeafBlock <;> rfl
      have g1 : (NotifyAllocableObjects s b).reuseByteCount < SizeTModulus := by
        rw [hstep]
        exact Nat.mod_lt _ hM
      have g2 : (NotifyAllocableObjects s b).reuseHeapBlockCount < SizeTModulus := by
        rw [hstep]
        show (if b.isLeafBlock then s.reuseHeapBlockCount
          else sizeAdd s.reuseHeapBlockCount 1) < SizeTModulus
        split_ifs
        · exact h2
        · exact Nat.mod_lt _ hM
      rw [List.foldl_cons, ih (NotifyAllocableObjects s b) g1 g2, hstep, nonLeaf_length_cons]
      have e1 : (sizeAdd s.reuseByteCount b.expectedFreeBytes +
          (bs.map (fun b => b.expectedFreeBytes)).sum) % SizeTModulus =
          (s.reuseByteCount + ((b :: bs).map (fun b => b.expectedFreeBytes)).sum) %
            SizeTModulus := by
        unfold sizeAdd
        rw [List.map_cons, List.sum_cons, Nat.mod_add_mod, Nat.add_assoc]
      have e2 : ((if b.isLeafBlock then s.reuseHeapBlockCount
          else sizeAdd s.reuseHeapBlockCount 1) +
            (bs.filter (fun b => !b.isLeafBlock)).length) % SizeTModulus =
          (s.reuseHeapBlockCount + ((if b.isLeafBlock then 0 else 1) +
            (bs.filter (fun b => !b.isLeafBlock)).length)) % SizeTModulus := by
        split_ifs
        · rw [Nat.zero_add]
        · unfold sizeAdd
          rw [Nat.mod_add_mod, Nat.add_assoc]
      simp only [e1, e2]

/-- C26. `NotifyAllocableObjects` accumulates the reuse estimates: one notification adds the
block's `GetExpectedFreeBytes()` to `reuseByteCount` and, for a block that is not a leaf block,
one to `reuseHeapBlockCount` (`size_t` sums), and changes no other field of the session; the
collector is not an operand. After any sequence of notifications on a session that starts with
both counters zero, `reuseHeapBlockCount` is the number of blocks notified that are not leaf
blocks and `reuseByteCount` the sum of the expected free bytes of all blocks notified, both
modulo `2 ^ 64`, so the plain values when they fit. -/
theorem NotifyAllocableObjects_accumulates (s : RecyclerSweep) (heapBlock : SmallHeapBlock)
    (blocks : List SmallHeapBlock) :
    NotifyAllocableObjects s heapBlock =
        { s with
          reuseByteCount := sizeAdd s.reuseByteCount heapBlock.expectedFreeBytes
          reuseHeapBlockCount :=
            if heapBlock.isLeafBlock then s.reuseHeapBlockCount
            else sizeAdd s.reuseHeapBlockCount 1 } ∧
      (s.reuseByteCount = 0 → s.reuseHeapBlockCount = 0 →
        blocks.foldl NotifyAllocableObjects s =
            { s with
              reuseByteCount :=
                (blocks.map (fun b => b.expectedFreeBytes)).sum % SizeTModulus
              reuseHeapBlockCount :=
                (blocks.filter (fun b => !b.isLeafBlock)).length % SizeTModulus } ∧
          ((blocks.map (fun b => b.expectedFreeBytes)).sum < SizeTModulus →
            (blocks.foldl NotifyAllocableObjects s).reuseByteCount =
              (blocks.map (fun b => b.expectedFreeBytes)).sum) ∧
          ((blocks.filter (fun b => !b.isLeafBlock)).length < SizeTModulus →
            (blocks.foldl NotifyAllocableObjects s).reuseHeapBlockCount =
              (blocks.filter (fun b => !b.isLeafBlock)).length)) := by
  obtain ⟨h1, h2⟩ := NotifyAllocableObjects_foldl s heapBlock blocks
  refine ⟨h1, fun hb hc => ?_⟩
  have hM : 0 < SizeTModulus := by unfold SizeTModulus; norm_num
  have h3 := h2 (by rw [hb]; exact hM) (by rw [hc]; exact hM)
  rw [hb, hc, Nat.zero_add, Nat.zero_add] at h3
  refine ⟨h3, fun hfit => ?_, fun hfit => ?_⟩
  · rw [h3]
    exact Nat.mod_eq_of_lt hfit
  · rw [h3]
    exact Nat.mod_eq_of_lt hfit

/-- Witness for C26: a block that is not a leaf block with 5 expected free bytes and a leaf
block with 7, notified on a zeroed session. -/
theorem NotifyAllocableObjects_accumulates_witness :
    (([monotoneBlock, { monotoneBlock with expectedFreeBytes := 7, isLeafBlock := true }] :
        List SmallHeapBlock).foldl NotifyAllocableObjects RecyclerSweep.zero).reuseByteCount =
        12 ∧
      (([monotoneBlock, { monotoneBlock with expectedFreeBytes := 7, isLeafBlock := true }] :
        List SmallHeapBlock).foldl NotifyAllocableObjects
          RecyclerSweep.zero).reuseHeapBlockCount = 1 :=
  ⟨((NotifyAllocableObjects_accumulates RecyclerSweep.zero monotoneBlock
      [monotoneBlock, { monotoneBlock with expectedFreeBytes := 7, isLeafBlock := true }]).2
        rfl rfl).2.1 (by unfold SizeTModulus; decide),
    ((NotifyAllocableObjects_accumulates RecyclerSweep.zero monotoneBlock
      [monotoneBlock, { monotoneBlock with expectedFreeBytes := 7, isLeafBlock := true }]).2
        rfl rfl).2.2 (by unfold SizeTModulus; decide)⟩

/-- The approving `FinishSweep`, evaluated: the assignment on line 186, the reuse of the
partial pages, the write watch reset and the flush of the pending objects. -/
theorem FinishSweep_of_approve (cfg : RecyclerHeuristic) (ww : WriteWatch) (this : Ptr)
    (r r1 : Recycler) (s s1 : RecyclerSweep) (hmarked : s.isPartial = true)
    (hadj : AdjustPartialHeuristics cfg r s = .ok (true, r1, s1)) :
    FinishSweep cfg ww this r s =
      .ok ((resetWriteWatch ww this
        ({ r1 with
            partialUncollectedAllocBytes :=
              if InPartialCollect s1 then s1.nextPartialUncollectedAllocBytes else 0 }.call
          Collaborator.SweepPartialReusePages) s1).call Collaborator.SweepPendingObjects,
        s1) := by
  have hmode := inPartialCollectMode_of_AdjustPartialHeuristics hadj
  unfold FinishSweep finishSweepAdjust
  rw [hmarked, hmode, hadj]
  simp only [bne_self_eq_false, Bool.false_eq_true, if_false, if_true]

/-- The write watch reset leaves the collector alone when no `ResetWriteWatch` fails, apart from
the calls it records. -/
theorem resetWriteWatch_partialUncollectedAllocBytes (ww : WriteWatch) (this : Ptr)
    (r : Recycler) (s : RecyclerSweep)
    (hok : ww.ForceSoftwareWriteBarrier = true ∨ IsBackground s = true ∨
      (ww.recyclerPageAllocator = true ∧ ww.recyclerLargeBlockPageAllocator = true)) :
    (resetWriteWatch ww this r s).partialUncollectedAllocBytes =
      r.partialUncollectedAllocBytes := by
  unfold resetWriteWatch
  rcases hok with h | h | ⟨h1, h2⟩
  · simp [h]
  · simp [h]
  · simp only [h1, h2, Bool.not_true, Bool.or_self, Bool.false_eq_true, if_false, if_true]
    split_ifs <;> rfl

/-- C27. When `AdjustPartialHeuristics` returns true inside `FinishSweep`, `FinishSweep` returns,
having assigned `partialUncollectedAllocBytes` before `SweepPartialReusePages` is called: the
session's `nextPartialUncollectedAllocBytes` when the session `InPartialCollect()`, zero when
partial collect mode was entered in this cycle. The session's
`nextPartialUncollectedAllocBytes` keeps its value. Unless a `ResetWriteWatch` fails, the
assigned value is the one the collector has when `FinishSweep` returns, and for a session that
`InPartialCollect()` it is the entry value minus `GetNewObjectFreeBytes()`. -/
theorem FinishSweep_approve_assigns (cfg : RecyclerHeuristic) (ww : WriteWatch) (this : Ptr)
    (r r1 : Recycler) (s s1 : RecyclerSweep) (hmarked : s.isPartial = true)
    (hadj : AdjustPartialHeuristics cfg r s = .ok (true, r1, s1)) :
    ∃ r', FinishSweep cfg ww this r s = .ok (r', s1) ∧
      r' = (resetWriteWatch ww this
        ({ r1 with
            partialUncollectedAllocBytes :=
              if InPartialCollect s then s.nextPartialUncollectedAllocBytes else 0 }.call
          Collaborator.SweepPartialReusePages) s1).call Collaborator.SweepPendingObjects ∧
      s1.nextPartialUncollectedAllocBytes = s.nextPartialUncollectedAllocBytes ∧
      ((ww.ForceSoftwareWriteBarrier = true ∨ IsBackground s = true ∨
          (ww.recyclerPageAllocator = true ∧ ww.recyclerLargeBlockPageAllocator = true)) →
        r'.partialUncollectedAllocBytes =
            (if InPartialCollect s then s.nextPartialUncollectedAllocBytes else 0) ∧
          ∀ freedBytes, InPartialCollect s = true →
            GetNewObjectFreeBytes r s = .ok freedBytes →
            freedBytes ≤ r.partialUncollectedAllocBytes ∧
              r'.partialUncollectedAllocBytes = r.partialUncollectedAllocBytes - freedBytes) := by
  obtain ⟨v, hv⟩ := AdjustPartialHeuristics_session hadj
  have hin : InPartialCollect s1 = InPartialCollect s := by rw [hv]; rfl
  have hnext : s1.nextPartialUncollectedAllocBytes = s.nextPartialUncollectedAllocBytes := by
    rw [hv]
  have hbg : IsBackground s1 = IsBackground s := by rw [hv]; rfl
  have heq := FinishSweep_of_approve cfg ww this r r1 s s1 hmarked hadj
  rw [hin, hnext] at heq
  refine ⟨_, heq, rfl, hnext, fun hok => ?_⟩
  have hval : ((resetWriteWatch ww this
        ({ r1 with
            partialUncollectedAllocBytes :=
              if InPartialCollect s then s.nextPartialUncollectedAllocBytes else 0 }.call
          Collaborator.SweepPartialReusePages) s1).call
          Collaborator.SweepPendingObjects).partialUncollectedAllocBytes =
      (if InPartialCollect s then s.nextPartialUncollectedAllocBytes else 0) := by
    show (resetWriteWatch ww this _ s1).partialUncollectedAllocBytes = _
    rw [resetWriteWatch_partialUncollectedAllocBytes ww this _ s1 (by rw [hbg]; exact hok)]
    rfl
  refine ⟨hval, fun freedBytes hinp hfreed => ?_⟩
  rw [hval, hinp, if_pos rfl]
  unfold GetNewObjectFreeBytes at hfreed
  split_ifs at hfreed with h1 h2
  simp only [Except.ok.injEq] at hfreed
  omega

/-- The heuristics approve the zero allocation example mid partial collect. -/
theorem pressureExample_adjust :
    ∃ r', AdjustPartialHeuristics floorCfg zeroAllocRecycler pressureSweep =
      .ok (true, r', pressureSweep) := by
  have hrescan : rescanStage floorCfg pressureSweep 1 = some 0 :=
    rescanStage_of_full_efficacy floorCfg pressureSweep (Nat.zero_le _)
  have hmin : MinPartialUncollectedNewPageCount floorCfg = 1024 := by
    show 4 * 1024 * 1024 / 4096 = 1024
    norm_num
  rcases ratioStage_unit floorCfg zeroAllocRecycler pressureSweep 1 0 (by norm_num) le_rfl
    F64.round_one (Nat.zero_le _) pressureExample_pre.2.2.2.2
    (fun _ => by show 0 < 2 ^ 63; norm_num) with ⟨-, hgt, -⟩ | ⟨ratio, hratio, -⟩
  · exact absurd hgt (by show ¬ (500 > 2 ^ 63); norm_num)
  have hthreshold := thresholdStage_of_floor floorCfg zeroAllocRecycler pressureSweep 1 ratio
    hmin.symm (by rw [hmin]; unfold SizeTModulus; norm_num) rfl
    (by
      rw [hmin]
      show (1024 * 4096 + 500) % SizeTModulus < 2 ^ 63
      unfold SizeTModulus
      norm_num)
  exact ⟨_, (AdjustPartialHeuristics_of_stage _ _ _ _ _ pressureExample_pre
    pressureExample_stage).trans
      ((adjustAfterEfficacy_of_stages _ _ _ _ _ _ hrescan hratio).trans hthreshold)⟩

/-- Witness for C27: the zero allocation example mid partial collect, with 500 uncollected
bytes carried over. -/
theorem FinishSweep_approve_assigns_witness :
    ∃ r', FinishSweep floorCfg ⟨false, true, true⟩ 1 zeroAllocRecycler pressureSweep =
        .ok (r', pressureSweep) ∧
      r'.partialUncollectedAllocBytes = 500 := by
  obtain ⟨r1, h1⟩ := pressureExample_adjust
  obtain ⟨r', h2, -, -, h4⟩ :=
    FinishSweep_approve_assigns floorCfg ⟨false, true, true⟩ 1 zeroAllocRecycler r1
      pressureSweep pressureSweep rfl h1
  exact ⟨r', h2, (h4 (Or.inr (Or.inr ⟨rfl, rfl⟩))).1.trans rfl⟩

/-- C28. Continuing partial mode at Begin: for a collector already in partial collect mode that
meets the assertions of `BeginSweep` and on which `DoPartialCollectMode` approves,
`StartPartialCollectMode` returns with the session's `inPartialCollect` true,
`lastPartialUncollectedAllocBytes` the collector's previous `partialUncollectedAllocBytes`, and
both the collector's `partialUncollectedAllocBytes` and `nextPartialUncollectedAllocBytes` equal
to `autoHeap.uncollectedAllocBytes` alone; `BeginSweep` returns with these values, and right
after it `GetNewObjectAllocBytes()` is the difference of the two and `GetNewObjectFreeBytes()`
is zero. -/
theorem BeginSweep_continues_partial_mode (this recyclerPtr : Ptr) (r : Recycler)
    (rescanRootBytes : Nat) (adjust : Bool) (hpre : BeginSweepPre r)
    (hmode : r.inPartialCollectMode = true) (henabled : r.enablePartialCollect = true)
    (hunused : r.autoHeap.unusedPartialCollectFreeBytes ≤ 16 * 1024 * 1024)
    (hrescan : rescanRootBytes ≤ 5 * 1024 * 1024) :
    (∀ s : RecyclerSweep,
      StartPartialCollectMode r s =
        .ok ({ r with
                inPartialCollectMode := true
                partialUncollectedAllocBytes := r.autoHeap.uncollectedAllocBytes },
             { s with
                inPartialCollect := true
                lastPartialUncollectedAllocBytes := r.partialUncollectedAllocBytes
                nextPartialUncollectedAllocBytes := r.autoHeap.uncollectedAllocBytes })) ∧
    ∃ r' s', BeginSweep this recyclerPtr r rescanRootBytes adjust = .ok (r', s') ∧
      s'.inPartialCollect = true ∧
      s'.lastPartialUncollectedAllocBytes = r.partialUncollectedAllocBytes ∧
      r'.partialUncollectedAllocBytes = r.autoHeap.uncollectedAllocBytes ∧
      s'.nextPartialUncollectedAllocBytes = r.autoHeap.uncollectedAllocBytes ∧
      GetNewObjectAllocBytes r' s' =
        .ok (r.autoHeap.uncollectedAllocBytes - r.partialUncollectedAllocBytes) ∧
      GetNewObjectFreeBytes r' s' = .ok 0 := by
  have hle : r.partialUncollectedAllocBytes ≤ r.autoHeap.uncollectedAllocBytes :=
    hpre.2.2.2.2.2
  constructor
  · intro s
    have hlt : ¬ r.autoHeap.uncollectedAllocBytes < r.partialUncollectedAllocBytes := by omega
    unfold StartPartialCollectMode
    simp [hmode, hlt]
  · obtain ⟨r', s', hb, h1, h2, h3, h4, h5, -⟩ :=
      BeginSweep_approve this recyclerPtr r rescanRootBytes adjust hpre henabled hunused hrescan
    rw [hmode] at h2 h3 h5
    simp only [if_true] at h2 h3
    refine ⟨r', s', hb, h5, h4, h2, h3, ?_, ?_⟩
    · unfold GetNewObjectAllocBytes
      rw [h1, h2, h4]
      simp only [Bool.not_true, Bool.false_eq_true, if_false]
      rw [if_neg (by omega)]
    · unfold GetNewObjectFreeBytes
      rw [h1, h2, h3]
      simp only [Bool.not_true, Bool.false_eq_true, if_false, lt_irrefl, Nat.sub_self]

/-- Witness for C28: a collector in partial collect mode with 100 partial uncollected bytes and
150 uncollected bytes. -/
theorem BeginSweep_continues_partial_mode_witness :
    BeginSweepPre monotoneRecycler ∧
      ∃ r' s', BeginSweep 1 2 monotoneRecycler 0 true = .ok (r', s') ∧
        s'.inPartialCollect = true ∧
        GetNewObjectAllocBytes r' s' = .ok 50 ∧
        GetNewObjectFreeBytes r' s' = .ok 0 := by
  have hpre : BeginSweepPre monotoneRecycler := by decide
  obtain ⟨r', s', h1, h2, -, -, -, h6, h7⟩ :=
    (BeginSweep_continues_partial_mode 1 2 monotoneRecycler 0 true hpre rfl rfl (by decide)
      (by decide)).2
  exact ⟨hpre, r', s', h1, h2, h6, h7⟩


/-- Every assertion that can fail inside `AdjustPartialHeuristics` is on a line after 600. -/
theorem AdjustPartialHeuristics_error_line {cfg : RecyclerHeuristic} {r : Recycler}
    {s : RecyclerSweep} {k : ℕ} (h : AdjustPartialHeuristics cfg r s = .error k) : 600 < k := by
  have hget : ∀ (r0 : Recycler) (s0 : RecyclerSweep) (n : ℕ),
      (GetNewObjectAllocBytes r0 s0 = .error n → 600 < n) ∧
        (GetNewObjectFreeBytes r0 s0 = .error n → 600 < n) := by
    intro r0 s0 n
    constructor
    · intro hn
      unfold GetNewObjectAllocBytes at hn
      split_ifs at hn <;> simp only [Except.error.injEq] at hn <;> omega
    · intro hn
      unfold GetNewObjectFreeBytes at hn
      split_ifs at hn <;> simp only [Except.error.injEq] at hn <;> omega
  have hstage : ∀ n, collectEfficacyStage cfg r s = .error n → 600 < n := by
    intro n hn
    unfold collectEfficacyStage at hn
    simp only [] at hn
    split at hn
    · rename_i m hm
      simp only [Except.error.injEq] at hn
      rw [← hn]
      exact (hget r s m).1 hm
    · split_ifs at hn
      split at hn
      · rename_i m hm
        simp only [Except.error.injEq] at hn
        rw [← hn]
        exact (hget r s m).2 hm
      · split_ifs at hn <;> simp only [Except.error.injEq] at hn <;> omega
  have hratio : ∀ (s1 : RecyclerSweep) (e : Double) (n m : ℕ),
      ratioStage cfg r s1 e n = .error m → 600 < m := by
    intro s1 e n m hm
    have key : ∀ x : Double, ratioAssert x = .error m → 600 < m := by
      intro x hx
      unfold ratioAssert at hx
      split_ifs at hx
      simp only [Except.error.injEq] at hx
      omega
    unfold ratioStage at hm
    simp only [] at hm
    split_ifs at hm
    · simp only [Except.error.injEq] at hm
      omega
    · exact key _ hm
    · exact key _ hm
  unfold AdjustPartialHeuristics at h
  split_ifs at h
  any_goals (simp only [Except.error.injEq] at h; omega)
  split at h
  · rename_i n hn
    simp only [Except.error.injEq] at h
    rw [← h]
    exact hstage n hn
  · cases h
  · unfold adjustAfterEfficacy at h
    split at h
    · cases h
    · split at h
      · rename_i n hn
        simp only [Except.error.injEq] at h
        rw [← h]
        exact hratio _ _ _ n hn
      · cases h
      · have := thresholdStage_error h
        omega

/-- C29. Begin establishes the mode consistency that `FinishSweep` asserts: for every collector
that meets the assertions of `BeginSweep` and every `rescanRootBytes`, `BeginSweep` returns with
the session's debug member `partial` equal to the collector's `inPartialCollectMode`, both equal
to what `DoPartialCollectMode` returns for this collector and rescan estimate; when partial
collect mode was not armed, the session's `adjustPartialHeuristics` is false and
`partialUncollectedAllocBytes` is zero. So a `FinishSweep` that directly follows fails none of
the assertions on lines 175, 243 and 246, and it returns when partial collect mode was not
armed. -/
theorem BeginSweep_mode_consistency (this recyclerPtr : Ptr) (r : Recycler)
    (rescanRootBytes : Nat) (adjust : Bool) (hpre : BeginSweepPre r) :
    ∃ r' s', BeginSweep this recyclerPtr r rescanRootBytes adjust = .ok (r', s') ∧
      s'.isPartial = r'.inPartialCollectMode ∧
      r'.inPartialCollectMode =
        DoPartialCollectMode r { RecyclerSweep.zero with rescanRootBytes := rescanRootBytes } ∧
      (r'.inPartialCollectMode = false →
        s'.adjustPartialHeuristics = false ∧ r'.partialUncollectedAllocBytes = 0) ∧
      (∀ cfg ww k, FinishSweep cfg ww this r' s' = .error k → k ≠ 175 ∧ k ≠ 243 ∧ k ≠ 246) ∧
      (r'.inPartialCollectMode = false →
        ∀ cfg ww, FinishSweep cfg ww this r' s' =
          .ok (r'.call Collaborator.SweepPendingObjects, s')) := by
  have hfinish : ∀ (r' : Recycler) (s' : RecyclerSweep),
      s'.isPartial = r'.inPartialCollectMode →
      (r'.inPartialCollectMode = false →
        s'.adjustPartialHeuristics = false ∧ r'.partialUncollectedAllocBytes = 0) →
      (∀ cfg ww k, FinishSweep cfg ww this r' s' = .error k → k ≠ 175 ∧ k ≠ 243 ∧ k ≠ 246) ∧
      (r'.inPartialCollectMode = false →
        ∀ cfg ww, FinishSweep cfg ww this r' s' =
          .ok (r'.call Collaborator.SweepPendingObjects, s')) := by
    intro r' s' hsame hoff
    have hnot : ∀ cfg ww, r'.inPartialCollectMode = false →
        FinishSweep cfg ww this r' s' = .ok (r'.call Collaborator.SweepPendingObjects, s') := by
      intro cfg ww hm
      obtain ⟨ha, hb⟩ := hoff hm
      unfold FinishSweep finishSweepAdjust
      simp [hsame, hm, ha, hb]
    refine ⟨fun cfg ww k hk => ?_, fun hm cfg ww => hnot cfg ww hm⟩
    cases hm : r'.inPartialCollectMode
    · rw [hnot cfg ww hm] at hk
      cases hk
    · unfold FinishSweep finishSweepAdjust at hk
      rw [hsame, hm] at hk
      simp only [bne_self_eq_false, Bool.false_eq_true, if_false, if_true] at hk
      split at hk
      · rename_i n hn
        split at hn
        · rename_i m hadj
          simp only [Except.error.injEq] at hn hk
          have := AdjustPartialHeuristics_error_line hadj
          omega
        · cases hn
        · split_ifs at hn
      · cases hk
  by_cases hdo : r.enablePartialCollect = true ∧
      r.autoHeap.unusedPartialCollectFreeBytes ≤ 16 * 1024 * 1024 ∧
      rescanRootBytes ≤ 5 * 1024 * 1024
  · obtain ⟨r', s', hb, h1, -, -, -, -, h6, -⟩ :=
      BeginSweep_approve this recyclerPtr r rescanRootBytes adjust hpre hdo.1 hdo.2.1 hdo.2.2
    have hval : DoPartialCollectMode r
        { RecyclerSweep.zero with rescanRootBytes := rescanRootBytes } = true :=
      (DoPartialCollectMode_iff_aux _ _).2 hdo
    have hoff : r'.inPartialCollectMode = false →
        s'.adjustPartialHeuristics = false ∧ r'.partialUncollectedAllocBytes = 0 := by
      intro hm
      rw [h1] at hm
      cases hm
    obtain ⟨g1, g2⟩ := hfinish r' s' (h6.trans h1.symm) hoff
    exact ⟨r', s', hb, h6.trans h1.symm, h1.trans hval.symm, hoff, g1, g2⟩
  · obtain ⟨r', s', hb, h1, h2, -, h4, h5⟩ :=
      BeginSweep_reject this recyclerPtr r rescanRootBytes adjust hpre hdo
    have hval : DoPartialCollectMode r
        { RecyclerSweep.zero with rescanRootBytes := rescanRootBytes } = false := by
      cases hd : DoPartialCollectMode r
        { RecyclerSweep.zero with rescanRootBytes := rescanRootBytes }
      · rfl
      · exact absurd ((DoPartialCollectMode_iff_aux _ _).1 hd) hdo
    obtain ⟨g1, g2⟩ := hfinish r' s' (h4.trans h1.symm) (fun _ => ⟨h5, h2⟩)
    exact ⟨r', s', hb, h4.trans h1.symm, h1.trans hval.symm, fun _ => ⟨h5, h2⟩, g1, g2⟩

/-- Witness for C29: an idle collector and a rescan estimate above the ceiling, so that partial
collect mode is not armed. -/
theorem BeginSweep_mode_consistency_witness :
    BeginSweepPre (Recycler.idle HeapInfo.empty) ∧
      ∃ r' s', BeginSweep 1 2 (Recycler.idle HeapInfo.empty) (6 * 1024 * 1024) true =
          .ok (r', s') ∧
        s'.isPartial = r'.inPartialCollectMode ∧
        r'.inPartialCollectMode = false := by
  have hpre : BeginSweepPre (Recycler.idle HeapInfo.empty) := by decide
  obtain ⟨r', s', h1, h2, h3, -⟩ :=
    BeginSweep_mode_consistency 1 2 (Recycler.idle HeapInfo.empty) (6 * 1024 * 1024) true hpre
  refine ⟨hpre, r', s', h1, h2, h3.trans ?_⟩
  cases hd : DoPartialCollectMode (Recycler.idle HeapInfo.empty)
      { RecyclerSweep.zero with rescanRootBytes := 6 * 1024 * 1024 }
  · rfl
  · have := ((DoPartialCollectMode_iff_aux _ _).1 hd).2.2
    have h6 : ¬ (6 * 1024 * 1024 ≤ 5 * 1024 * 1024) := by norm_num
    exact absurd this h6

/-- The last stage when the configured new page ceiling equals the floor, nothing is expected
to be reused and the projected total reaches the full collect ceiling: the threshold is stored,
and the call returns false. -/
theorem thresholdStage_of_floor_reject (cfg : RecyclerHeuristic) (r : Recycler)
    (s : RecyclerSweep) (e ratio : Double)
    (hmax : cfg.MaxPartialUncollectedNewPageCount = MinPartialUncollectedNewPageCount cfg)
    (hmin : MinPartialUncollectedNewPageCount cfg < SizeTModulus)
    (hreuse : s.reuseByteCount = 0)
    (hsum : cfg.MaxUncollectedAllocBytesPartialCollect ≤
      (MinPartialUncollectedNewPageCount cfg * cfg.PageSize
        + s.nextPartialUncollectedAllocBytes) % SizeTModulus) :
    thresholdStage cfg r s e ratio =
      .ok (false,
        { r with
          uncollectedNewPageCountPartialCollect := MinPartialUncollectedNewPageCount cfg }, s) := by
  have hrange : (MinPartialUncollectedNewPageCount cfg + SizeTModulus -
      MinPartialUncollectedNewPageCount cfg) % SizeTModulus = 0 := by
    rw [Nat.add_sub_cancel_left, Nat.mod_self]
  have hadd : sizeAdd (MinPartialUncollectedNewPageCount cfg) 0 =
      MinPartialUncollectedNewPageCount cfg := by
    unfold sizeAdd
    rw [Nat.add_zero, Nat.mod_eq_of_lt hmin]
  simp only [thresholdStage, hmax, hrange, F64.ofNat_zero, F64.mul_zero_left, F64.toSizeT_zero,
    hadd, hreuse, Nat.add_zero, ge_iff_le, le_refl, decide_True, Bool.and_self, Bool.not_true,
    Bool.false_eq_true, if_false, hsum, if_true]

/-- A rejection at the efficacy floor returns collector and session as they were. -/
theorem AdjustPartialHeuristics_of_floor_reject {cfg : RecyclerHeuristic} {r r' : Recycler}
    {s s' : RecyclerSweep} {b : Bool} (hstage : collectEfficacyStage cfg r s = .ok none)
    (h : AdjustPartialHeuristics cfg r s = .ok (b, r', s')) : b = false ∧ r' = r ∧ s' = s := by
  unfold AdjustPartialHeuristics at h
  split_ifs at h
  rw [hstage] at h
  simp only [Except.ok.injEq, Prod.mk.injEq] at h
  exact ⟨h.1.symm, h.2.1.symm, h.2.2.symm⟩

theorem staleExample_pre : AdjustPartialHeuristicsPre zeroAllocRecycler staleSweep := by
  simp [AdjustPartialHeuristicsPre, zeroAllocRecycler, staleSweep, zeroAllocSweep,
    floorRecycler, floorSweep, RecyclerSweep.zero, Recycler.idle, HeapInfo.empty,
    InPartialCollect, MaxPartialCollectRescanRootBytes, MaxUnusedPartialCollectFreeBytes]

theorem staleExample_stage :
    collectEfficacyStage tightCfg zeroAllocRecycler staleSweep =
      .ok (some (1, zeroAllocSweep)) := by
  have halloc : GetNewObjectAllocBytes zeroAllocRecycler staleSweep = .ok 0 := by
    simp [GetNewObjectAllocBytes, zeroAllocRecycler, staleSweep, zeroAllocSweep,
      floorRecycler, floorSweep, RecyclerSweep.zero, Recycler.idle]
  unfold collectEfficacyStage
  rw [halloc]
  rfl

/-- Under a full collect ceiling of 100 bytes the zero allocation example is rejected by the
final check, after the threshold of 1024 pages has been stored. -/
theorem staleExample_adjust :
    AdjustPartialHeuristics tightCfg zeroAllocRecycler staleSweep =
      .ok (false,
        { zeroAllocRecycler with uncollectedNewPageCountPartialCollect := 1024 },
        zeroAllocSweep) := by
  have hrescan : rescanStage tightCfg zeroAllocSweep 1 = some 0 :=
    rescanStage_of_full_efficacy tightCfg zeroAllocSweep (Nat.zero_le _)
  have hratio := ratioStage_fresh_full tightCfg zeroAllocRecycler zeroAllocSweep rfl
  have hmin : MinPartialUncollectedNewPageCount tightCfg = 1024 := by
    show 4 * 1024 * 1024 / 4096 = 1024
    norm_num
  have hthreshold := thresholdStage_of_floor_reject tightCfg zeroAllocRecycler zeroAllocSweep 1 0
    hmin.symm (by rw [hmin]; unfold SizeTModulus; norm_num) rfl
    (by
      rw [hmin]
      show 100 ≤ (1024 * 4096 + 500) % SizeTModulus
      unfold SizeTModulus
      norm_num)
  rw [hmin] at hthreshold
  exact (AdjustPartialHeuristics_of_stage _ _ _ _ _ staleExample_pre staleExample_stage).trans
    ((adjustAfterEfficacy_of_stages _ _ _ _ _ _ hrescan hratio).trans hthreshold)

/-- C30. Rejection by `AdjustPartialHeuristics` is not atomic. When the efficacy floor rejects
(line 686), the call returns false with collector and session as they were. But under a full
collect ceiling of 100 bytes, on a collector with a stored threshold of 0 pages and a session
with a reuse threshold of 77 bytes, 500 uncollected bytes and nothing allocated in this cycle,
the call returns false at the final check after it has stored 1024 in
`uncollectedNewPageCountPartialCollect` and 0 in
`partialCollectSmallHeapBlockReuseMinFreeBytes`. -/
theorem AdjustPartialHeuristics_reject_not_atomic :
    (∀ (cfg : RecyclerHeuristic) (r r' : Recycler) (s s' : RecyclerSweep) (b : Bool),
      collectEfficacyStage cfg r s = .ok none →
      AdjustPartialHeuristics cfg r s = .ok (b, r', s') → b = false ∧ r' = r ∧ s' = s) ∧
    ∃ r' s', AdjustPartialHeuristics tightCfg zeroAllocRecycler staleSweep =
        .ok (false, r', s') ∧
      zeroAllocRecycler.uncollectedNewPageCountPartialCollect = 0 ∧
      r'.uncollectedNewPageCountPartialCollect = 1024 ∧
      staleSweep.partialCollectSmallHeapBlockReuseMinFreeBytes = 77 ∧
      s'.partialCollectSmallHeapBlockReuseMinFreeBytes = 0 :=
  ⟨fun _ _ _ _ _ _ hstage h => AdjustPartialHeuristics_of_floor_reject hstage h,
    _, _, staleExample_adjust, rfl, rfl, rfl, rfl⟩

/-- When `AdjustPartialHeuristics` returns true, the session it returns is the one the page
reuse heuristics handed on. -/
theorem AdjustPartialHeuristics_true_stage {cfg : RecyclerHeuristic} {r r' : Recycler}
    {s s' : RecyclerSweep} (h : AdjustPartialHeuristics cfg r s = .ok (true, r', s')) :
    ∃ e, collectEfficacyStage cfg r s = .ok (some (e, s')) := by
  unfold AdjustPartialHeuristics at h
  split_ifs at h
  split at h
  · cases h
  · simp at h
  · rename_i e s1 hstage
    obtain ⟨-, hs⟩ := adjustAfterEfficacy_frame h
    rw [hs]
    exact ⟨e, hstage⟩

/-- What the page reuse heuristics store after a cycle with allocated bytes. -/
theorem collectEfficacyStage_stores {cfg : RecyclerHeuristic} {r : Recycler}
    {s s1 : RecyclerSweep} {e : Double} {allocBytes freedBytes : ℕ}
    (hstage : collectEfficacyStage cfg r s = .ok (some (e, s1)))
    (halloc : GetNewObjectAllocBytes r s = .ok allocBytes) (hpos : allocBytes ≠ 0)
    (hfreed : GetNewObjectFreeBytes r s = .ok freedBytes) :
    e = F64.div (F64.sub (collectEfficacyOf freedBytes allocBytes) MinPartialCollectEfficacy)
        (F64.sub 1 MinPartialCollectEfficacy) ∧
      s1.partialCollectSmallHeapBlockReuseMinFreeBytes =
        reuseMinFreeBytesOf cfg freedBytes allocBytes ∧
      freedBytes ≤ allocBytes ∧
      ¬ collectEfficacyOf freedBytes allocBytes < MinPartialCollectEfficacy := by
  unfold collectEfficacyStage at hstage
  rw [halloc, hfreed] at hstage
  simp only [hpos, if_false] at hstage
  split_ifs at hstage with h1 h2 h3
  · simp at hstage
  · simp only [Except.ok.injEq, Option.some.injEq, Prod.mk.injEq] at hstage
    obtain ⟨he, hs⟩ := hstage
    refine ⟨he.symm, ?_, not_lt.1 h1, h2⟩
    rw [← hs]
    rfl

/-- The difference `1.0 - 0.1` is positive. -/
theorem F64.sub_one_floor_pos : 0 < F64.sub 1 MinPartialCollectEfficacy := by
  rw [F64.sub_one_floor]
  norm_num

/-- The computed efficacy is non-decreasing in the freed bytes. -/
theorem collectEfficacyOf_mono {f1 f2 : ℕ} (h : f1 ≤ f2) (allocBytes : ℕ) :
    collectEfficacyOf f1 allocBytes ≤ collectEfficacyOf f2 allocBytes := by
  have h1 : (0 : ℚ) ≤ F64.ofNat f1 := F64.round_nonneg (by positivity)
  have h12 : F64.ofNat f1 ≤ F64.ofNat f2 :=
    F64.round_mono (by positivity) (by exact_mod_cast h)
  have ha : (0 : ℚ) ≤ F64.ofNat allocBytes := F64.round_nonneg (by positivity)
  unfold collectEfficacyOf F64.div
  exact F64.round_mono (div_nonneg h1 ha) (div_le_div_of_nonneg_right h12 ha)

/-- The rescaled efficacy is non-decreasing in the computed efficacy, from the floor on. -/
theorem rescaled_mono {x y : ℚ} (hx : ¬ x < MinPartialCollectEfficacy) (hxy : x ≤ y) :
    0 ≤ F64.div (F64.sub x MinPartialCollectEfficacy) (F64.sub 1 MinPartialCollectEfficacy) ∧
      F64.div (F64.sub x MinPartialCollectEfficacy) (F64.sub 1 MinPartialCollectEfficacy) ≤
        F64.div (F64.sub y MinPartialCollectEfficacy) (F64.sub 1 MinPartialCollectEfficacy) := by
  have hd := le_of_lt F64.sub_one_floor_pos
  have h0 : 0 ≤ x - MinPartialCollectEfficacy := by linarith [not_lt.1 hx]
  have hs0 : 0 ≤ F64.sub x MinPartialCollectEfficacy := F64.round_nonneg h0
  have hs : F64.sub x MinPartialCollectEfficacy ≤ F64.sub y MinPartialCollectEfficacy :=
    F64.round_mono h0 (by linarith)
  exact ⟨F64.round_nonneg (div_nonneg hs0 hd),
    F64.round_mono (div_nonneg hs0 hd) (div_le_div_of_nonneg_right hs hd)⟩

/-- The rescaled efficacy of a computed efficacy of at most one is at most one. -/
theorem rescaled_le_one {y : ℚ} (hy : ¬ y < MinPartialCollectEfficacy) (hy1 : y ≤ 1) :
    F64.div (F64.sub y MinPartialCollectEfficacy) (F64.sub 1 MinPartialCollectEfficacy) ≤ 1 := by
  have h := (rescaled_mono hy hy1).2
  have hone : F64.div (F64.sub 1 MinPartialCollectEfficacy)
      (F64.sub 1 MinPartialCollectEfficacy) = 1 := by
    unfold F64.div
    rw [div_self (ne_of_gt F64.sub_one_floor_pos), F64.round_one]
  rw [hone] at h
  exact h

/-- The conversion to `size_t` is non-decreasing on values between zero and `2 ^ 53`. -/
theorem F64.toSizeT_mono {x y : ℚ} (hx : 0 ≤ x) (hxy : x ≤ y) (hy : y ≤ 2 ^ 53) :
    F64.toSizeT x ≤ F64.toSizeT y := by
  have hfx : 0 ≤ ⌊x⌋ := Int.floor_nonneg.2 hx
  have hfxy : ⌊x⌋ ≤ ⌊y⌋ := Int.floor_mono hxy
  have hfy : ⌊y⌋ ≤ 2 ^ 53 := by
    have h1 := Int.floor_le y
    have h2 : ((⌊y⌋ : ℤ) : ℚ) ≤ ((2 ^ 53 : ℤ) : ℚ) := by
      push_cast
      exact h1.trans hy
    exact_mod_cast h2
  unfold F64.toSizeT
  have hM : SizeTModulus = 2 ^ 64 := rfl
  rw [Nat.mod_eq_of_lt (by rw [hM]; omega), Nat.mod_eq_of_lt (by rw [hM]; omega)]
  omega

/-- The stored threshold is non-decreasing in the freed bytes, from the efficacy floor on and
up to the allocated bytes. -/
theorem reuseMinFreeBytesOf_mono (cfg : RecyclerHeuristic) (hP : cfg.PageSize ≤ 2 ^ 53)
    {f1 f2 allocBytes : ℕ} (h12 : f1 ≤ f2) (h2 : f2 ≤ allocBytes) (hpos : allocBytes ≠ 0)
    (hfloor : ¬ collectEfficacyOf f1 allocBytes < MinPartialCollectEfficacy) :
    reuseMinFreeBytesOf cfg f1 allocBytes ≤ reuseMinFreeBytesOf cfg f2 allocBytes := by
  have hce := collectEfficacyOf_mono h12 allocBytes
  have hce2 : collectEfficacyOf f2 allocBytes ≤ 1 :=
    (F64.div_ofNat_unit h2 (Nat.pos_of_ne_zero hpos)).2
  have hfloor2 : ¬ collectEfficacyOf f2 allocBytes < MinPartialCollectEfficacy := by
    intro hlt
    exact hfloor (lt_of_le_of_lt hce hlt)
  obtain ⟨he0, he12⟩ := rescaled_mono hfloor hce
  have he2 := rescaled_le_one hfloor2 hce2
  have hp0 : (0 : ℚ) ≤ F64.ofNat cfg.PageSize := F64.round_nonneg (by positivity)
  have hof := F64.ofNat_of_le hP
  unfold reuseMinFreeBytesOf
  apply F64.toSizeT_mono
  · exact F64.round_nonneg (mul_nonneg hp0 he0)
  · exact F64.round_mono (mul_nonneg hp0 he0) (mul_le_mul_of_nonneg_left he12 hp0)
  · have h1 : F64.mul (F64.ofNat cfg.PageSize)
        (F64.div (F64.sub (collectEfficacyOf f2 allocBytes) MinPartialCollectEfficacy)
          (F64.sub 1 MinPartialCollectEfficacy)) ≤ F64.ofNat cfg.PageSize := by
      have := F64.round_mono (mul_nonneg hp0 (he0.trans he12))
        (mul_le_of_le_one_right hp0 he2)
      have hr : F64.round (F64.ofNat cfg.PageSize) = F64.ofNat cfg.PageSize :=
        F64.round_round _
      rw [hr] at this
      exact this
    rw [hof] at h1
    have h53 : ((cfg.PageSize : ℕ) : ℚ) ≤ 2 ^ 53 := by exact_mod_cast hP
    rw [hof]
    exact h1.trans h53

/-- At a computed efficacy equal to the constant `0.1` the stored threshold is zero. -/
theorem reuseMinFreeBytesOf_at_floor (cfg : RecyclerHeuristic) {freedBytes allocBytes : ℕ}
    (h : collectEfficacyOf freedBytes allocBytes = MinPartialCollectEfficacy) :
    reuseMinFreeBytesOf cfg freedBytes allocBytes = 0 := by
  unfold reuseMinFreeBytesOf
  rw [h, F64.sub_same, F64.div_zero_left, F64.mul_zero_right, F64.toSizeT_zero]

/-- One tenth of at most `2 ^ 53` allocated bytes freed: the computed efficacy is the constant
`0.1`. -/
theorem collectEfficacyOf_tenth {freedBytes allocBytes : ℕ} (h : 10 * freedBytes = allocBytes)
    (hpos : allocBytes ≠ 0) (hle : allocBytes ≤ 2 ^ 53) :
    collectEfficacyOf freedBytes allocBytes = MinPartialCollectEfficacy := by
  have hf : F64.ofNat freedBytes = freedBytes := F64.ofNat_of_le (by omega)
  have ha : F64.ofNat allocBytes = allocBytes := F64.ofNat_of_le hle
  have hq : ((freedBytes : ℕ) : ℚ) / ((allocBytes : ℕ) : ℚ) = 1 / 10 := by
    have hne : ((allocBytes : ℕ) : ℚ) ≠ 0 := by exact_mod_cast hpos
    rw [div_eq_div_iff hne (by norm_num)]
    have : ((10 * freedBytes : ℕ) : ℚ) = ((allocBytes : ℕ) : ℚ) := by rw [h]
    push_cast at this
    linarith
  unfold collectEfficacyOf F64.div MinPartialCollectEfficacy
  rw [hf, ha, hq]

/-- With every allocated byte freed the stored threshold is the page size. -/
theorem reuseMinFreeBytesOf_full (cfg : RecyclerHeuristic) (hP : cfg.PageSize ≤ 2 ^ 53)
    {allocBytes : ℕ} (hpos : allocBytes ≠ 0) :
    reuseMinFreeBytesOf cfg allocBytes allocBytes = cfg.PageSize := by
  have ha1 : (1 : ℚ) ≤ F64.ofNat allocBytes := by
    rw [← F64.round_one]
    exact F64.round_mono (by norm_num) (by exact_mod_cast Nat.pos_of_ne_zero hpos)
  have hce : collectEfficacyOf allocBytes allocBytes = 1 := by
    unfold collectEfficacyOf F64.div
    rw [div_self (by linarith), F64.round_one]
  have he : F64.div (F64.sub 1 MinPartialCollectEfficacy)
      (F64.sub 1 MinPartialCollectEfficacy) = 1 := by
    unfold F64.div
    rw [div_self (ne_of_gt F64.sub_one_floor_pos), F64.round_one]
  unfold reuseMinFreeBytesOf
  rw [hce, he, F64.mul_ofNat_one hP]
  apply F64.toSizeT_natCast
  unfold SizeTModulus
  omega

/-- C21, amended. Per block reuse threshold: whenever `AdjustPartialHeuristics` returns true
after a cycle with allocated bytes, `partialCollectSmallHeapBlockReuseMinFreeBytes` is
`(size_t)(PageSize * e)` with `e` the rescaled efficacy computed in binary64 (for a page size of
at most `2 ^ 53`). It is at most `PageSize`; it is 0 when the computed efficacy equals the
constant `0.1`, as at exactly 10% of at most `2 ^ 53` allocated bytes; it is `PageSize` when
every allocated byte was freed; and as a function of the freed bytes, for fixed allocated
bytes, it is non-decreasing from the efficacy floor on. -/
theorem AdjustPartialHeuristics_reuse_threshold (cfg : RecyclerHeuristic) (r r' : Recycler)
    (s s' : RecyclerSweep) (allocBytes freedBytes : ℕ) (hP : cfg.PageSize ≤ 2 ^ 53)
    (h : AdjustPartialHeuristics cfg r s = .ok (true, r', s'))
    (halloc : GetNewObjectAllocBytes r s = .ok allocBytes) (hpos : allocBytes ≠ 0)
    (hfreed : GetNewObjectFreeBytes r s = .ok freedBytes) :
    s'.partialCollectSmallHeapBlockReuseMinFreeBytes =
        reuseMinFreeBytesOf cfg freedBytes allocBytes ∧
      s'.partialCollectSmallHeapBlockReuseMinFreeBytes ≤ cfg.PageSize ∧
      (collectEfficacyOf freedBytes allocBytes = MinPartialCollectEfficacy →
        s'.partialCollectSmallHeapBlockReuseMinFreeBytes = 0) ∧
      (10 * freedBytes = allocBytes → allocBytes ≤ 2 ^ 53 →
        s'.partialCollectSmallHeapBlockReuseMinFreeBytes = 0) ∧
      (freedBytes = allocBytes →
        s'.partialCollectSmallHeapBlockReuseMinFreeBytes = cfg.PageSize) ∧
      ∀ f1 f2, f1 ≤ f2 → f2 ≤ allocBytes →
        ¬ collectEfficacyOf f1 allocBytes < MinPartialCollectEfficacy →
        reuseMinFreeBytesOf cfg f1 allocBytes ≤ reuseMinFreeBytesOf cfg f2 allocBytes := by
  obtain ⟨e, hstage⟩ := AdjustPartialHeuristics_true_stage h
  obtain ⟨he0, he1, -⟩ := collectEfficacyStage_unit hstage
  obtain ⟨he, hval, -, -⟩ := collectEfficacyStage_stores hstage halloc hpos hfreed
  refine ⟨hval, ?_, ?_, ?_, ?_, ?_⟩
  · rw [hval]
    unfold reuseMinFreeBytesOf
    rw [← he]
    exact F64.toSizeT_scale_le hP he0 he1
  · intro hfl
    rw [hval]
    exact reuseMinFreeBytesOf_at_floor cfg hfl
  · intro h10 hle
    rw [hval]
    exact reuseMinFreeBytesOf_at_floor cfg (collectEfficacyOf_tenth h10 hpos hle)
  · intro hfa
    rw [hval, hfa]
    exact reuseMinFreeBytesOf_full cfg hP hpos
  · intro f1 f2 h12 h2 hfl
    exact reuseMinFreeBytesOf_mono cfg hP h12 h2 hpos hfl

/-- With 80 of 512 bytes freed the computed efficacy is exactly `0.15625`. -/
theorem collectEfficacyOf_five_32 : collectEfficacyOf 80 512 = 5 / 32 := by
  have h5 : F64.ofNat 80 = 80 := by
    have := F64.ofNat_of_le (n := 80) (by norm_num)
    simpa using this
  have h32 : F64.ofNat 512 = 512 := by
    have := F64.ofNat_of_le (n := 512) (by norm_num)
    simpa using this
  unfold collectEfficacyOf F64.div
  rw [h5, h32]
  have h : (80 / 512 : ℚ) = 5 / 32 := by norm_num
  rw [h]
  apply F64.round_of_rep
  exact ⟨5, -5, by norm_num, by norm_num, by norm_num⟩

/-- The binary64 difference `0.15625 - 0.1`. -/
theorem F64.sub_five_32_floor :
    F64.sub (5 / 32) MinPartialCollectEfficacy = 2026619832316723 / 36028797018963968 := by
  unfold F64.sub
  rw [F64.MinPartialCollectEfficacy_eq]
  rw [F64.round_eq (-57) 8106479329266892 (by norm_num) (by norm_num) (by norm_num)
    (by rw [abs_lt]; constructor <;> norm_num)]
  norm_num

/-- The rescaled efficacy of `0.15625` in binary64: one unit in the last place below `1/16`. -/
theorem F64.div_rescaled_five_32 :
    F64.div (2026619832316723 / 36028797018963968) (8106479329266893 / 9007199254740992) =
      9007199254740991 / 144115188075855872 := by
  unfold F64.div
  rw [F64.round_eq (-57) 9007199254740991 (by norm_num) (by norm_num) (by norm_num)
    (by rw [abs_lt]; constructor <;> norm_num)]
  norm_num

/-- The binary64 product of a page size of 4096 with that rescaled efficacy, truncated. -/
theorem F64.toSizeT_page_rescaled :
    F64.toSizeT (F64.mul (F64.ofNat 4096) (9007199254740991 / 144115188075855872)) = 255 := by
  have h : F64.ofNat 4096 = 4096 := by
    have := F64.ofNat_of_le (n := 4096) (by norm_num)
    simpa using this
  have hmul : F64.mul (F64.ofNat 4096) (9007199254740991 / 144115188075855872) =
      9007199254740991 / 35184372088832 := by
    unfold F64.mul
    rw [h]
    rw [F64.round_eq (-45) 9007199254740991 (by norm_num) (by norm_num) (by norm_num)
      (by rw [abs_lt]; constructor <;> norm_num)]
    norm_num
  rw [hmul]
  unfold F64.toSizeT
  have : ⌊(9007199254740991 / 35184372088832 : ℚ)⌋ = 255 := by
    rw [Int.floor_eq_iff]
    constructor <;> norm_num
  rw [this]
  rfl

theorem smallExample_alloc : GetNewObjectAllocBytes smallRecycler smallSweep = .ok 512 := by
  simp [GetNewObjectAllocBytes, smallRecycler, smallSweep, floorRecycler, floorSweep,
    RecyclerSweep.zero, Recycler.idle]

theorem smallExample_freed : GetNewObjectFreeBytes smallRecycler smallSweep = .ok 80 := by
  simp [GetNewObjectFreeBytes, smallRecycler, smallSweep, floorRecycler, floorSweep,
    RecyclerSweep.zero, Recycler.idle]

theorem smallExample_pre : AdjustPartialHeuristicsPre smallRecycler smallSweep := by
  simp [AdjustPartialHeuristicsPre, smallRecycler, smallSweep, floorRecycler, floorSweep,
    RecyclerSweep.zero, Recycler.idle, HeapInfo.empty, InPartialCollect,
    MaxPartialCollectRescanRootBytes, MaxUnusedPartialCollectFreeBytes]

/-- The heuristics approve the example with 80 of 512 bytes freed and store a reuse threshold of
255 bytes. -/
theorem smallExample_adjust :
    ∃ r' s', AdjustPartialHeuristics floorCfg smallRecycler smallSweep = .ok (true, r', s') ∧
      s'.partialCollectSmallHeapBlockReuseMinFreeBytes = 255 := by
  have hstage := collectEfficacyStage_of_efficacy floorCfg smallRecycler smallSweep 512 80
    (9007199254740991 / 144115188075855872) smallExample_alloc smallExample_freed
    (by norm_num) (by norm_num)
    (by rw [collectEfficacyOf_five_32, F64.MinPartialCollectEfficacy_eq]; norm_num)
    (by rw [collectEfficacyOf_five_32, F64.sub_five_32_floor, F64.sub_one_floor,
      F64.div_rescaled_five_32])
    (by norm_num)
  obtain ⟨he0, he1, hrep⟩ := collectEfficacyStage_unit hstage
  have hrescan := rescanStage_of_no_reuse floorCfg
    { smallSweep with
      partialCollectSmallHeapBlockReuseMinFreeBytes :=
        F64.toSizeT
          (F64.mul (F64.ofNat floorCfg.PageSize) (9007199254740991 / 144115188075855872)) }
    (9007199254740991 / 144115188075855872) rfl (Nat.zero_le _)
  have hfresh : InPartialCollect
      { smallSweep with
        partialCollectSmallHeapBlockReuseMinFreeBytes :=
          F64.toSizeT
            (F64.mul (F64.ofNat floorCfg.PageSize)
              (9007199254740991 / 144115188075855872)) } = false := rfl
  rcases ratioStage_unit floorCfg smallRecycler _ _ _ he0 he1 hrep (rescanStage_le hrescan)
    smallExample_pre.2.2.2.2 (fun hin => by rw [hfresh] at hin; cases hin) with
    ⟨hin, -, -⟩ | ⟨ratio, hratio, -⟩
  · rw [hfresh] at hin
    cases hin
  have hmin : MinPartialUncollectedNewPageCount floorCfg = 1024 := by
    show 4 * 1024 * 1024 / 4096 = 1024
    norm_num
  have hthreshold := thresholdStage_of_floor floorCfg smallRecycler
    { smallSweep with
      partialCollectSmallHeapBlockReuseMinFreeBytes :=
        F64.toSizeT
          (F64.mul (F64.ofNat floorCfg.PageSize) (9007199254740991 / 144115188075855872)) }
    (9007199254740991 / 144115188075855872) ratio
    hmin.symm (by rw [hmin]; unfold SizeTModulus; norm_num) rfl
    (by
      rw [hmin]
      show (1024 * 4096 + 432) % SizeTModulus < 2 ^ 63
      unfold SizeTModulus
      norm_num)
  exact ⟨_, _, (AdjustPartialHeuristics_of_stage _ _ _ _ _ smallExample_pre hstage).trans
    ((adjustAfterEfficacy_of_stages _ _ _ _ _ _ hrescan hratio).trans hthreshold),
    F64.toSizeT_page_rescaled⟩

/-- C21, counterexample. With 512 bytes allocated and 80 freed on pages of 4096 bytes, the exact
rescaled efficacy `(80/512 - 0.10) / 0.90` is `1/16` and `floor(PageSize * e)` is 256; in binary64
the rescaled efficacy is one unit in the last place below `1/16`, the call returns true, and the
threshold it stores is 255. -/
theorem AdjustPartialHeuristics_reuse_threshold_counterexample :
    GetNewObjectAllocBytes smallRecycler smallSweep = .ok 512 ∧
      GetNewObjectFreeBytes smallRecycler smallSweep = .ok 80 ∧
      floorCfg.PageSize = 4096 ∧
      ⌊(4096 : ℚ) * (((80 : ℚ) / 512 - 1 / 10) / (9 / 10))⌋ = 256 ∧
      ∃ r' s', AdjustPartialHeuristics floorCfg smallRecycler smallSweep = .ok (true, r', s') ∧
        s'.partialCollectSmallHeapBlockReuseMinFreeBytes = 255 := by
  refine ⟨smallExample_alloc, smallExample_freed, rfl, ?_, smallExample_adjust⟩
  rw [Int.floor_eq_iff]
  constructor <;> norm_num

/-- Witness for C21: 512 bytes allocated, 80 freed, pages of 4096 bytes. -/
theorem AdjustPartialHeuristics_reuse_threshold_witness :
    ∃ r' s', AdjustPartialHeuristics floorCfg smallRecycler smallSweep = .ok (true, r', s') ∧
      s'.partialCollectSmallHeapBlockReuseMinFreeBytes = reuseMinFreeBytesOf floorCfg 80 512 ∧
      s'.partialCollectSmallHeapBlockReuseMinFreeBytes ≤ floorCfg.PageSize := by
  obtain ⟨r', s', h, -⟩ := smallExample_adjust
  obtain ⟨h1, h2, -⟩ :=
    AdjustPartialHeuristics_reuse_threshold floorCfg smallRecycler r' smallSweep s' 512 80
      (by show 4096 ≤ 2 ^ 53; norm_num) h smallExample_alloc (by norm_num) smallExample_freed
  exact ⟨r', s', h, h1, h2⟩

/-- What the threshold stage stores is `newPageCountOf` of the ratio. -/
theorem thresholdStage_count {cfg : RecyclerHeuristic} {r r' : Recycler}
    {s s' : RecyclerSweep} {e ratio : Double} {b : Bool}
    (h : thresholdStage cfg r s e ratio = .ok (b, r', s')) :
    r'.uncollectedNewPageCountPartialCollect = newPageCountOf cfg ratio := by
  unfold thresholdStage at h
  simp only [] at h
  split_ifs at h with h1 h2
  · simp only [Except.ok.injEq, Prod.mk.injEq] at h
    obtain ⟨-, hr, -⟩ := h
    rw [← hr]
    rfl
  · simp only [Except.ok.injEq, Prod.mk.injEq] at h
    obtain ⟨-, hr, -⟩ := h
    rw [← hr]
    rfl

end Memory
